import Mathlib

/-! # Coaster generator: a shallow embedding of `src/Cli.cpp`

The definitions below follow the C++ source function by function and keep its names.

Modelling conventions.
* C++ `int` is modelled by `Int`.  Signed overflow is undefined in C++, and the values the program
  itself computes (an in-bounds anchor plus a catalogue offset, quadrants `0` or `1`) stay far
  inside the 32-bit range, so no wrap-around is modelled.
* `std::map` is an association list; `find` is `mapFind`, `operator[]` used as an rvalue is
  `mapFind` with the value-initialised default, `operator[]` used as an lvalue is `mapAssign`.
* `std::set` is a duplicate-free list; only membership and insertion are used by the program.
* `Cell *space` (an array of `kSizeY * kSizeX * kSizeZ` cells) is a function from the linear
  offset to the cell stored there.
* `std::vector<GeneratorInfo>` is a list whose last element is the top of the stack.
* `rand()` is a sequence `rand : Nat → Nat` together with the number of values drawn so far.
* The `float`/`double` computation of the height limit is carried out over `ℚ`.
* Operations that the C++ program leaves undefined or that throw (indexing an empty vector,
  dereferencing the null pointer of a missing `trackStateMachine` entry, `vector::at` out of
  range) are results `none` / `fault`.
-/

namespace Coaster

/-! ## Constants -/

abbrev kSizeY : Int := 9
abbrev kSizeX : Int := 12
abbrev kSizeZ : Int := 11
abbrev kMinimumTrackSize : Nat := 100
abbrev kTryPerAttempt : Nat := 64000

/-! ## Types -/

inductive DirectionType where
  | kNorth
  | kEast
  | kSouth
  | kWest
  deriving DecidableEq, Repr

open DirectionType

structure Coord where
  y : Int
  x : Int
  z : Int
  deriving DecidableEq, Repr

structure Cell where
  c00 : Int
  c01 : Int
  c10 : Int
  c11 : Int
  deriving DecidableEq, Repr

structure TrackCell where
  coord : Coord
  cell : Cell
  deriving DecidableEq, Repr

structure TrackPiece where
  shape : List TrackCell
  ptr : Coord
  deriving DecidableEq, Repr

/-- Modelled from the spec: the external enumeration `track_type_t` of OpenRCT2 (`Track.h` is
not part of the sources).  The spec treats piece identifiers as opaque tags compared by equality
only; the constructors are exactly the identifiers that `Cli.cpp` names. -/
inductive track_type_t where
  | TRACK_ELEM_BANKED_RIGHT_QUARTER_TURN_5_TILES
  | TRACK_ELEM_RIGHT_BANKED_QUARTER_TURN_5_TILE_25_DEG_UP
  | TRACK_ELEM_RIGHT_BANKED_QUARTER_TURN_5_TILE_25_DEG_DOWN
  | TRACK_ELEM_RIGHT_QUARTER_TURN_3_TILES_BANK
  | TRACK_ELEM_RIGHT_BANKED_QUARTER_TURN_3_TILE_25_DEG_UP
  | TRACK_ELEM_RIGHT_QUARTER_TURN_1_TILE_60_DEG_UP
  | TRACK_ELEM_RIGHT_BANKED_QUARTER_TURN_3_TILE_25_DEG_DOWN
  | TRACK_ELEM_RIGHT_QUARTER_TURN_1_TILE_60_DEG_DOWN
  | TRACK_ELEM_BANKED_LEFT_QUARTER_TURN_5_TILES
  | TRACK_ELEM_LEFT_BANKED_QUARTER_TURN_5_TILE_25_DEG_UP
  | TRACK_ELEM_LEFT_BANKED_QUARTER_TURN_5_TILE_25_DEG_DOWN
  | TRACK_ELEM_LEFT_QUARTER_TURN_3_TILES_BANK
  | TRACK_ELEM_LEFT_BANKED_QUARTER_TURN_3_TILE_25_DEG_UP
  | TRACK_ELEM_LEFT_QUARTER_TURN_1_TILE_60_DEG_UP
  | TRACK_ELEM_LEFT_BANKED_QUARTER_TURN_3_TILE_25_DEG_DOWN
  | TRACK_ELEM_LEFT_QUARTER_TURN_1_TILE_60_DEG_DOWN
  | TRACK_ELEM_RIGHT_QUARTER_TURN_3_TILES
  | TRACK_ELEM_LEFT_QUARTER_TURN_3_TILES
  | TRACK_ELEM_FLAT
  | TRACK_ELEM_FLAT_TO_LEFT_BANK
  | TRACK_ELEM_FLAT_TO_RIGHT_BANK
  | TRACK_ELEM_FLAT_TO_25_DEG_UP
  | TRACK_ELEM_FLAT_TO_LEFT_BANKED_25_DEG_UP
  | TRACK_ELEM_FLAT_TO_RIGHT_BANKED_25_DEG_UP
  | TRACK_ELEM_FLAT_TO_25_DEG_DOWN
  | TRACK_ELEM_FLAT_TO_LEFT_BANKED_25_DEG_DOWN
  | TRACK_ELEM_FLAT_TO_RIGHT_BANKED_25_DEG_DOWN
  | TRACK_ELEM_LEFT_BANK
  | TRACK_ELEM_LEFT_BANK_TO_FLAT
  | TRACK_ELEM_LEFT_BANK_TO_25_DEG_UP
  | TRACK_ELEM_LEFT_BANK_TO_25_DEG_DOWN
  | TRACK_ELEM_LEFT_BANKED_FLAT_TO_LEFT_BANKED_25_DEG_UP
  | TRACK_ELEM_LEFT_BANKED_FLAT_TO_LEFT_BANKED_25_DEG_DOWN
  | TRACK_ELEM_RIGHT_BANK
  | TRACK_ELEM_RIGHT_BANK_TO_FLAT
  | TRACK_ELEM_RIGHT_BANK_TO_25_DEG_UP
  | TRACK_ELEM_RIGHT_BANK_TO_25_DEG_DOWN
  | TRACK_ELEM_RIGHT_BANKED_FLAT_TO_RIGHT_BANKED_25_DEG_UP
  | TRACK_ELEM_RIGHT_BANKED_FLAT_TO_RIGHT_BANKED_25_DEG_DOWN
  | TRACK_ELEM_25_DEG_UP_TO_FLAT
  | TRACK_ELEM_25_DEG_UP_TO_LEFT_BANK
  | TRACK_ELEM_25_DEG_UP_TO_RIGHT_BANK
  | TRACK_ELEM_25_DEG_UP
  | TRACK_ELEM_25_DEG_UP_TO_LEFT_BANKED_25_DEG_UP
  | TRACK_ELEM_25_DEG_UP_TO_RIGHT_BANKED_25_DEG_UP
  | TRACK_ELEM_25_DEG_UP_TO_60_DEG_UP
  | TRACK_ELEM_LEFT_VERTICAL_LOOP
  | TRACK_ELEM_RIGHT_VERTICAL_LOOP
  | TRACK_ELEM_25_DEG_UP_LEFT_BANKED
  | TRACK_ELEM_LEFT_BANKED_25_DEG_UP_TO_25_DEG_UP
  | TRACK_ELEM_LEFT_BANKED_25_DEG_UP_TO_LEFT_BANKED_FLAT
  | TRACK_ELEM_LEFT_BANKED_25_DEG_UP_TO_FLAT
  | TRACK_ELEM_25_DEG_UP_RIGHT_BANKED
  | TRACK_ELEM_RIGHT_BANKED_25_DEG_UP_TO_25_DEG_UP
  | TRACK_ELEM_RIGHT_BANKED_25_DEG_UP_TO_RIGHT_BANKED_FLAT
  | TRACK_ELEM_RIGHT_BANKED_25_DEG_UP_TO_FLAT
  | TRACK_ELEM_60_DEG_UP_TO_25_DEG_UP
  | TRACK_ELEM_60_DEG_UP
  | TRACK_ELEM_25_DEG_DOWN_TO_FLAT
  | TRACK_ELEM_25_DEG_DOWN_TO_LEFT_BANK
  | TRACK_ELEM_25_DEG_DOWN_TO_RIGHT_BANK
  | TRACK_ELEM_25_DEG_DOWN
  | TRACK_ELEM_25_DEG_DOWN_TO_LEFT_BANKED_25_DEG_DOWN
  | TRACK_ELEM_25_DEG_DOWN_TO_RIGHT_BANKED_25_DEG_DOWN
  | TRACK_ELEM_25_DEG_DOWN_TO_60_DEG_DOWN
  | TRACK_ELEM_25_DEG_DOWN_LEFT_BANKED
  | TRACK_ELEM_LEFT_BANKED_25_DEG_DOWN_TO_25_DEG_DOWN
  | TRACK_ELEM_LEFT_BANKED_25_DEG_DOWN_TO_LEFT_BANKED_FLAT
  | TRACK_ELEM_LEFT_BANKED_25_DEG_DOWN_TO_FLAT
  | TRACK_ELEM_25_DEG_DOWN_RIGHT_BANKED
  | TRACK_ELEM_RIGHT_BANKED_25_DEG_DOWN_TO_25_DEG_DOWN
  | TRACK_ELEM_RIGHT_BANKED_25_DEG_DOWN_TO_RIGHT_BANKED_FLAT
  | TRACK_ELEM_RIGHT_BANKED_25_DEG_DOWN_TO_FLAT
  | TRACK_ELEM_60_DEG_DOWN_TO_25_DEG_DOWN
  | TRACK_ELEM_60_DEG_DOWN
  | TRACK_ELEM_BEGIN_STATION
  | TRACK_ELEM_MIDDLE_STATION
  | TRACK_ELEM_END_STATION
  deriving DecidableEq, Repr

open track_type_t

/-- Modelled from the spec: the external record `TrackDesignTrackElement` of OpenRCT2, a piece
identifier together with the rotation tag that `Cli.cpp` always sets to `4`. -/
structure TrackDesignTrackElement where
  type : track_type_t
  flags : Nat
  deriving DecidableEq, Repr

/-- The array behind `Cell *space`, indexed by linear offset. -/
abbrev Space := Int → Cell

structure GeneratorInfo where
  space : Space
  tracks : List TrackDesignTrackElement
  ptr : Coord
  dir : DirectionType
  failedTracks : List track_type_t

/-! ## Containers -/

/-- The lookup `std::map::find`: the value stored under `k`, if any. -/
def mapFind {K V : Type} [DecidableEq K] : List (K × V) → K → Option V
  | [], _ => none
  | (k', v) :: rest, k => if k' = k then some v else mapFind rest k

/-- The assignment `m[k] = v` of `std::map`: replaces the value of an existing key, otherwise
adds the entry. -/
def mapAssign {K V : Type} [DecidableEq K] : List (K × V) → K → V → List (K × V)
  | [], k, v => [(k, v)]
  | (k', v') :: rest, k, v => if k' = k then (k', v) :: rest else (k', v') :: mapAssign rest k v

/-- The insertion `std::set::insert`. -/
def setInsert (s : List track_type_t) (t : track_type_t) : List track_type_t :=
  if t ∈ s then s else s ++ [t]

/-- The search `std::find` followed by `std::distance` from `begin()`; `none` stands for the
iterator `end()`. -/
def findIndex : List track_type_t → track_type_t → Option Nat
  | [], _ => none
  | a :: rest, t => if a = t then some 0 else (findIndex rest t).map (· + 1)

/-! ## Definitions -/

def TurnLeft (dir : DirectionType) : DirectionType :=
  match dir with
  | kNorth => kWest
  | kWest => kSouth
  | kSouth => kEast
  | kEast => kNorth

def TurnRight (dir : DirectionType) : DirectionType :=
  match dir with
  | kNorth => kEast
  | kEast => kSouth
  | kSouth => kWest
  | kWest => kNorth

def allTrackTypes : List track_type_t := [
  TRACK_ELEM_BANKED_RIGHT_QUARTER_TURN_5_TILES,
  TRACK_ELEM_RIGHT_BANKED_QUARTER_TURN_5_TILE_25_DEG_UP,
  TRACK_ELEM_RIGHT_BANKED_QUARTER_TURN_5_TILE_25_DEG_DOWN,
  TRACK_ELEM_RIGHT_QUARTER_TURN_3_TILES_BANK,
  TRACK_ELEM_RIGHT_BANKED_QUARTER_TURN_3_TILE_25_DEG_UP,
  TRACK_ELEM_RIGHT_QUARTER_TURN_1_TILE_60_DEG_UP,
  TRACK_ELEM_RIGHT_BANKED_QUARTER_TURN_3_TILE_25_DEG_DOWN,
  TRACK_ELEM_RIGHT_QUARTER_TURN_1_TILE_60_DEG_DOWN,
  TRACK_ELEM_BANKED_LEFT_QUARTER_TURN_5_TILES,
  TRACK_ELEM_LEFT_BANKED_QUARTER_TURN_5_TILE_25_DEG_UP,
  TRACK_ELEM_LEFT_BANKED_QUARTER_TURN_5_TILE_25_DEG_DOWN,
  TRACK_ELEM_LEFT_QUARTER_TURN_3_TILES_BANK,
  TRACK_ELEM_LEFT_BANKED_QUARTER_TURN_3_TILE_25_DEG_UP,
  TRACK_ELEM_LEFT_QUARTER_TURN_1_TILE_60_DEG_UP,
  TRACK_ELEM_LEFT_BANKED_QUARTER_TURN_3_TILE_25_DEG_DOWN,
  TRACK_ELEM_LEFT_QUARTER_TURN_1_TILE_60_DEG_DOWN, TRACK_ELEM_RIGHT_QUARTER_TURN_3_TILES,
  TRACK_ELEM_LEFT_QUARTER_TURN_3_TILES, TRACK_ELEM_FLAT, TRACK_ELEM_FLAT_TO_LEFT_BANK,
  TRACK_ELEM_FLAT_TO_RIGHT_BANK, TRACK_ELEM_FLAT_TO_25_DEG_UP,
  TRACK_ELEM_FLAT_TO_LEFT_BANKED_25_DEG_UP, TRACK_ELEM_FLAT_TO_RIGHT_BANKED_25_DEG_UP,
  TRACK_ELEM_FLAT_TO_25_DEG_DOWN, TRACK_ELEM_FLAT_TO_LEFT_BANKED_25_DEG_DOWN,
  TRACK_ELEM_FLAT_TO_RIGHT_BANKED_25_DEG_DOWN, TRACK_ELEM_LEFT_BANK,
  TRACK_ELEM_LEFT_BANK_TO_FLAT, TRACK_ELEM_LEFT_BANK_TO_25_DEG_UP,
  TRACK_ELEM_LEFT_BANK_TO_25_DEG_DOWN, TRACK_ELEM_LEFT_BANKED_FLAT_TO_LEFT_BANKED_25_DEG_UP,
  TRACK_ELEM_LEFT_BANKED_FLAT_TO_LEFT_BANKED_25_DEG_DOWN, TRACK_ELEM_RIGHT_BANK,
  TRACK_ELEM_RIGHT_BANK_TO_FLAT, TRACK_ELEM_RIGHT_BANK_TO_25_DEG_UP,
  TRACK_ELEM_RIGHT_BANK_TO_25_DEG_DOWN, TRACK_ELEM_RIGHT_BANKED_FLAT_TO_RIGHT_BANKED_25_DEG_UP,
  TRACK_ELEM_RIGHT_BANKED_FLAT_TO_RIGHT_BANKED_25_DEG_DOWN, TRACK_ELEM_25_DEG_UP_TO_FLAT,
  TRACK_ELEM_25_DEG_UP_TO_LEFT_BANK, TRACK_ELEM_25_DEG_UP_TO_RIGHT_BANK, TRACK_ELEM_25_DEG_UP,
  TRACK_ELEM_25_DEG_UP_TO_LEFT_BANKED_25_DEG_UP,
  TRACK_ELEM_25_DEG_UP_TO_RIGHT_BANKED_25_DEG_UP, TRACK_ELEM_25_DEG_UP_TO_60_DEG_UP,
  TRACK_ELEM_LEFT_VERTICAL_LOOP, TRACK_ELEM_RIGHT_VERTICAL_LOOP,
  TRACK_ELEM_25_DEG_UP_LEFT_BANKED, TRACK_ELEM_LEFT_BANKED_25_DEG_UP_TO_25_DEG_UP,
  TRACK_ELEM_LEFT_BANKED_25_DEG_UP_TO_LEFT_BANKED_FLAT,
  TRACK_ELEM_LEFT_BANKED_25_DEG_UP_TO_FLAT, TRACK_ELEM_25_DEG_UP_RIGHT_BANKED,
  TRACK_ELEM_RIGHT_BANKED_25_DEG_UP_TO_25_DEG_UP,
  TRACK_ELEM_RIGHT_BANKED_25_DEG_UP_TO_RIGHT_BANKED_FLAT,
  TRACK_ELEM_RIGHT_BANKED_25_DEG_UP_TO_FLAT, TRACK_ELEM_60_DEG_UP_TO_25_DEG_UP,
  TRACK_ELEM_60_DEG_UP, TRACK_ELEM_25_DEG_DOWN_TO_FLAT, TRACK_ELEM_25_DEG_DOWN_TO_LEFT_BANK,
  TRACK_ELEM_25_DEG_DOWN_TO_RIGHT_BANK, TRACK_ELEM_25_DEG_DOWN,
  TRACK_ELEM_25_DEG_DOWN_TO_LEFT_BANKED_25_DEG_DOWN,
  TRACK_ELEM_25_DEG_DOWN_TO_RIGHT_BANKED_25_DEG_DOWN, TRACK_ELEM_25_DEG_DOWN_TO_60_DEG_DOWN,
  TRACK_ELEM_25_DEG_DOWN_LEFT_BANKED, TRACK_ELEM_LEFT_BANKED_25_DEG_DOWN_TO_25_DEG_DOWN,
  TRACK_ELEM_LEFT_BANKED_25_DEG_DOWN_TO_LEFT_BANKED_FLAT,
  TRACK_ELEM_LEFT_BANKED_25_DEG_DOWN_TO_FLAT, TRACK_ELEM_25_DEG_DOWN_RIGHT_BANKED,
  TRACK_ELEM_RIGHT_BANKED_25_DEG_DOWN_TO_25_DEG_DOWN,
  TRACK_ELEM_RIGHT_BANKED_25_DEG_DOWN_TO_RIGHT_BANKED_FLAT,
  TRACK_ELEM_RIGHT_BANKED_25_DEG_DOWN_TO_FLAT, TRACK_ELEM_60_DEG_DOWN_TO_25_DEG_DOWN,
  TRACK_ELEM_60_DEG_DOWN, TRACK_ELEM_BEGIN_STATION, TRACK_ELEM_MIDDLE_STATION,
  TRACK_ELEM_END_STATION]

def dirStateMachine : List (track_type_t × (DirectionType → DirectionType)) := [
  (TRACK_ELEM_BANKED_RIGHT_QUARTER_TURN_5_TILES, TurnRight),
  (TRACK_ELEM_RIGHT_BANKED_QUARTER_TURN_5_TILE_25_DEG_UP, TurnRight),
  (TRACK_ELEM_RIGHT_BANKED_QUARTER_TURN_5_TILE_25_DEG_DOWN, TurnRight),
  (TRACK_ELEM_RIGHT_QUARTER_TURN_3_TILES_BANK, TurnRight),
  (TRACK_ELEM_RIGHT_BANKED_QUARTER_TURN_3_TILE_25_DEG_UP, TurnRight),
  (TRACK_ELEM_RIGHT_QUARTER_TURN_1_TILE_60_DEG_UP, TurnRight),
  (TRACK_ELEM_RIGHT_BANKED_QUARTER_TURN_3_TILE_25_DEG_DOWN, TurnRight),
  (TRACK_ELEM_RIGHT_QUARTER_TURN_1_TILE_60_DEG_DOWN, TurnRight),
  (TRACK_ELEM_BANKED_LEFT_QUARTER_TURN_5_TILES, TurnLeft),
  (TRACK_ELEM_LEFT_BANKED_QUARTER_TURN_5_TILE_25_DEG_UP, TurnLeft),
  (TRACK_ELEM_LEFT_BANKED_QUARTER_TURN_5_TILE_25_DEG_DOWN, TurnLeft),
  (TRACK_ELEM_LEFT_QUARTER_TURN_3_TILES_BANK, TurnLeft),
  (TRACK_ELEM_LEFT_BANKED_QUARTER_TURN_3_TILE_25_DEG_UP, TurnLeft),
  (TRACK_ELEM_LEFT_QUARTER_TURN_1_TILE_60_DEG_UP, TurnLeft),
  (TRACK_ELEM_LEFT_BANKED_QUARTER_TURN_3_TILE_25_DEG_DOWN, TurnLeft),
  (TRACK_ELEM_LEFT_QUARTER_TURN_1_TILE_60_DEG_DOWN, TurnLeft),
  (TRACK_ELEM_RIGHT_QUARTER_TURN_3_TILES, TurnRight),
  (TRACK_ELEM_LEFT_QUARTER_TURN_3_TILES, TurnLeft)]

def statesForTrackElemFlat : List track_type_t := [
  TRACK_ELEM_FLAT, TRACK_ELEM_FLAT_TO_LEFT_BANK, TRACK_ELEM_FLAT_TO_RIGHT_BANK,
  TRACK_ELEM_FLAT_TO_25_DEG_UP, TRACK_ELEM_FLAT_TO_LEFT_BANKED_25_DEG_UP,
  TRACK_ELEM_FLAT_TO_RIGHT_BANKED_25_DEG_UP, TRACK_ELEM_FLAT_TO_25_DEG_DOWN,
  TRACK_ELEM_FLAT_TO_LEFT_BANKED_25_DEG_DOWN, TRACK_ELEM_FLAT_TO_RIGHT_BANKED_25_DEG_DOWN]

def statesForTrackElementLeftBank : List track_type_t := [
  TRACK_ELEM_LEFT_BANK, TRACK_ELEM_LEFT_BANK_TO_FLAT, TRACK_ELEM_LEFT_BANK_TO_25_DEG_UP,
  TRACK_ELEM_LEFT_BANK_TO_25_DEG_DOWN, TRACK_ELEM_LEFT_BANKED_FLAT_TO_LEFT_BANKED_25_DEG_UP,
  TRACK_ELEM_LEFT_BANKED_FLAT_TO_LEFT_BANKED_25_DEG_DOWN,
  TRACK_ELEM_BANKED_LEFT_QUARTER_TURN_5_TILES, TRACK_ELEM_LEFT_QUARTER_TURN_3_TILES_BANK]

def statesForTrackElementRightBank : List track_type_t := [
  TRACK_ELEM_RIGHT_BANK, TRACK_ELEM_RIGHT_BANK_TO_FLAT, TRACK_ELEM_RIGHT_BANK_TO_25_DEG_UP,
  TRACK_ELEM_RIGHT_BANK_TO_25_DEG_DOWN, TRACK_ELEM_RIGHT_BANKED_FLAT_TO_RIGHT_BANKED_25_DEG_UP,
  TRACK_ELEM_RIGHT_BANKED_FLAT_TO_RIGHT_BANKED_25_DEG_DOWN,
  TRACK_ELEM_BANKED_RIGHT_QUARTER_TURN_5_TILES, TRACK_ELEM_RIGHT_QUARTER_TURN_3_TILES_BANK]

def statesForTrackElem25DegUp : List track_type_t := [
  TRACK_ELEM_25_DEG_UP_TO_FLAT, TRACK_ELEM_25_DEG_UP_TO_LEFT_BANK,
  TRACK_ELEM_25_DEG_UP_TO_RIGHT_BANK, TRACK_ELEM_25_DEG_UP,
  TRACK_ELEM_25_DEG_UP_TO_LEFT_BANKED_25_DEG_UP,
  TRACK_ELEM_25_DEG_UP_TO_RIGHT_BANKED_25_DEG_UP, TRACK_ELEM_25_DEG_UP_TO_60_DEG_UP,
  TRACK_ELEM_LEFT_VERTICAL_LOOP, TRACK_ELEM_RIGHT_VERTICAL_LOOP]

def statesForTrackElem25DegUpLeftBanked : List track_type_t := [
  TRACK_ELEM_25_DEG_UP_LEFT_BANKED, TRACK_ELEM_LEFT_BANKED_25_DEG_UP_TO_25_DEG_UP,
  TRACK_ELEM_LEFT_BANKED_25_DEG_UP_TO_LEFT_BANKED_FLAT,
  TRACK_ELEM_LEFT_BANKED_25_DEG_UP_TO_FLAT,
  TRACK_ELEM_LEFT_BANKED_QUARTER_TURN_5_TILE_25_DEG_UP,
  TRACK_ELEM_LEFT_BANKED_QUARTER_TURN_3_TILE_25_DEG_UP]

def statesForTrackElem25DegUpRightBanked : List track_type_t := [
  TRACK_ELEM_25_DEG_UP_RIGHT_BANKED, TRACK_ELEM_RIGHT_BANKED_25_DEG_UP_TO_25_DEG_UP,
  TRACK_ELEM_RIGHT_BANKED_25_DEG_UP_TO_RIGHT_BANKED_FLAT,
  TRACK_ELEM_RIGHT_BANKED_25_DEG_UP_TO_FLAT,
  TRACK_ELEM_RIGHT_BANKED_QUARTER_TURN_5_TILE_25_DEG_UP,
  TRACK_ELEM_RIGHT_BANKED_QUARTER_TURN_3_TILE_25_DEG_UP]

def statesForTrackElem60DegUp : List track_type_t := [
  TRACK_ELEM_60_DEG_UP_TO_25_DEG_UP, TRACK_ELEM_60_DEG_UP,
  TRACK_ELEM_RIGHT_QUARTER_TURN_1_TILE_60_DEG_UP, TRACK_ELEM_LEFT_QUARTER_TURN_1_TILE_60_DEG_UP]

def statesForTrackElem25DegDown : List track_type_t := [
  TRACK_ELEM_25_DEG_DOWN_TO_FLAT, TRACK_ELEM_25_DEG_DOWN_TO_LEFT_BANK,
  TRACK_ELEM_25_DEG_DOWN_TO_RIGHT_BANK, TRACK_ELEM_25_DEG_DOWN,
  TRACK_ELEM_25_DEG_DOWN_TO_LEFT_BANKED_25_DEG_DOWN,
  TRACK_ELEM_25_DEG_DOWN_TO_RIGHT_BANKED_25_DEG_DOWN, TRACK_ELEM_25_DEG_DOWN_TO_60_DEG_DOWN]

def statesForTrackElem25DegDownLeftBanked : List track_type_t := [
  TRACK_ELEM_25_DEG_DOWN_LEFT_BANKED, TRACK_ELEM_LEFT_BANKED_25_DEG_DOWN_TO_25_DEG_DOWN,
  TRACK_ELEM_LEFT_BANKED_25_DEG_DOWN_TO_LEFT_BANKED_FLAT,
  TRACK_ELEM_LEFT_BANKED_25_DEG_DOWN_TO_FLAT,
  TRACK_ELEM_LEFT_BANKED_QUARTER_TURN_5_TILE_25_DEG_DOWN,
  TRACK_ELEM_LEFT_BANKED_QUARTER_TURN_3_TILE_25_DEG_DOWN]

def statesForTrackElem25DegDownRightBanked : List track_type_t := [
  TRACK_ELEM_25_DEG_DOWN_RIGHT_BANKED, TRACK_ELEM_RIGHT_BANKED_25_DEG_DOWN_TO_25_DEG_DOWN,
  TRACK_ELEM_RIGHT_BANKED_25_DEG_DOWN_TO_RIGHT_BANKED_FLAT,
  TRACK_ELEM_RIGHT_BANKED_25_DEG_DOWN_TO_FLAT,
  TRACK_ELEM_RIGHT_BANKED_QUARTER_TURN_5_TILE_25_DEG_DOWN,
  TRACK_ELEM_RIGHT_BANKED_QUARTER_TURN_3_TILE_25_DEG_DOWN]

def statesForTrackElem60DegDown : List track_type_t := [
  TRACK_ELEM_60_DEG_DOWN_TO_25_DEG_DOWN, TRACK_ELEM_60_DEG_DOWN,
  TRACK_ELEM_RIGHT_QUARTER_TURN_1_TILE_60_DEG_DOWN,
  TRACK_ELEM_LEFT_QUARTER_TURN_1_TILE_60_DEG_DOWN]

def trackStateMachine : List (track_type_t × List track_type_t) := [
  (TRACK_ELEM_FLAT, statesForTrackElemFlat),
  (TRACK_ELEM_FLAT_TO_LEFT_BANK, statesForTrackElementLeftBank),
  (TRACK_ELEM_FLAT_TO_RIGHT_BANK, statesForTrackElementRightBank),
  (TRACK_ELEM_FLAT_TO_25_DEG_UP, statesForTrackElem25DegUp),
  (TRACK_ELEM_FLAT_TO_LEFT_BANKED_25_DEG_UP, statesForTrackElem25DegUpLeftBanked),
  (TRACK_ELEM_FLAT_TO_RIGHT_BANKED_25_DEG_UP, statesForTrackElem25DegUpRightBanked),
  (TRACK_ELEM_FLAT_TO_25_DEG_DOWN, statesForTrackElem25DegDown),
  (TRACK_ELEM_FLAT_TO_LEFT_BANKED_25_DEG_DOWN, statesForTrackElem25DegDownLeftBanked),
  (TRACK_ELEM_FLAT_TO_RIGHT_BANKED_25_DEG_DOWN, statesForTrackElem25DegDownRightBanked),
  (TRACK_ELEM_LEFT_BANK, statesForTrackElementLeftBank),
  (TRACK_ELEM_LEFT_BANK_TO_FLAT, statesForTrackElemFlat),
  (TRACK_ELEM_LEFT_BANK_TO_25_DEG_UP, statesForTrackElem25DegUp),
  (TRACK_ELEM_LEFT_BANK_TO_25_DEG_DOWN, statesForTrackElem25DegDown),
  (TRACK_ELEM_LEFT_BANKED_FLAT_TO_LEFT_BANKED_25_DEG_UP, statesForTrackElem25DegUpLeftBanked),
  (TRACK_ELEM_LEFT_BANKED_FLAT_TO_LEFT_BANKED_25_DEG_DOWN, statesForTrackElem25DegDownLeftBanked),
  (TRACK_ELEM_25_DEG_UP_LEFT_BANKED, statesForTrackElem25DegUpLeftBanked),
  (TRACK_ELEM_BANKED_LEFT_QUARTER_TURN_5_TILES, statesForTrackElementLeftBank),
  (TRACK_ELEM_LEFT_QUARTER_TURN_3_TILES_BANK, statesForTrackElementLeftBank),
  (TRACK_ELEM_RIGHT_BANK, statesForTrackElementRightBank),
  (TRACK_ELEM_RIGHT_BANK_TO_FLAT, statesForTrackElemFlat),
  (TRACK_ELEM_RIGHT_BANK_TO_25_DEG_UP, statesForTrackElem25DegUp),
  (TRACK_ELEM_RIGHT_BANK_TO_25_DEG_DOWN, statesForTrackElem25DegDown),
  (TRACK_ELEM_RIGHT_BANKED_FLAT_TO_RIGHT_BANKED_25_DEG_UP, statesForTrackElem25DegUpRightBanked),
  (TRACK_ELEM_RIGHT_BANKED_FLAT_TO_RIGHT_BANKED_25_DEG_DOWN, statesForTrackElem25DegDownRightBanked),
  (TRACK_ELEM_25_DEG_UP_RIGHT_BANKED, statesForTrackElem25DegUpRightBanked),
  (TRACK_ELEM_BANKED_RIGHT_QUARTER_TURN_5_TILES, statesForTrackElementRightBank),
  (TRACK_ELEM_RIGHT_QUARTER_TURN_3_TILES_BANK, statesForTrackElementRightBank),
  (TRACK_ELEM_25_DEG_UP_TO_FLAT, statesForTrackElemFlat),
  (TRACK_ELEM_25_DEG_UP_TO_LEFT_BANK, statesForTrackElementLeftBank),
  (TRACK_ELEM_25_DEG_UP_TO_RIGHT_BANK, statesForTrackElementRightBank),
  (TRACK_ELEM_25_DEG_UP, statesForTrackElem25DegUp),
  (TRACK_ELEM_25_DEG_UP_TO_LEFT_BANKED_25_DEG_UP, statesForTrackElem25DegUpLeftBanked),
  (TRACK_ELEM_25_DEG_UP_TO_RIGHT_BANKED_25_DEG_UP, statesForTrackElem25DegUpRightBanked),
  (TRACK_ELEM_25_DEG_UP_TO_60_DEG_UP, statesForTrackElem60DegUp),
  (TRACK_ELEM_LEFT_BANKED_25_DEG_UP_TO_25_DEG_UP, statesForTrackElem25DegUp),
  (TRACK_ELEM_LEFT_BANKED_25_DEG_UP_TO_LEFT_BANKED_FLAT, statesForTrackElementLeftBank),
  (TRACK_ELEM_LEFT_BANKED_25_DEG_UP_TO_FLAT, statesForTrackElemFlat),
  (TRACK_ELEM_LEFT_BANKED_QUARTER_TURN_5_TILE_25_DEG_UP, statesForTrackElem25DegUpLeftBanked),
  (TRACK_ELEM_LEFT_BANKED_QUARTER_TURN_3_TILE_25_DEG_UP, statesForTrackElem25DegUpLeftBanked),
  (TRACK_ELEM_RIGHT_BANKED_25_DEG_UP_TO_25_DEG_UP, statesForTrackElem25DegUp),
  (TRACK_ELEM_RIGHT_BANKED_25_DEG_UP_TO_RIGHT_BANKED_FLAT, statesForTrackElementRightBank),
  (TRACK_ELEM_RIGHT_BANKED_25_DEG_UP_TO_FLAT, statesForTrackElemFlat),
  (TRACK_ELEM_RIGHT_BANKED_QUARTER_TURN_5_TILE_25_DEG_UP, statesForTrackElem25DegUpRightBanked),
  (TRACK_ELEM_RIGHT_BANKED_QUARTER_TURN_3_TILE_25_DEG_UP, statesForTrackElem25DegUpRightBanked),
  (TRACK_ELEM_60_DEG_UP_TO_25_DEG_UP, statesForTrackElem25DegUp),
  (TRACK_ELEM_60_DEG_UP, statesForTrackElem60DegUp),
  (TRACK_ELEM_RIGHT_QUARTER_TURN_1_TILE_60_DEG_UP, statesForTrackElem60DegUp),
  (TRACK_ELEM_LEFT_QUARTER_TURN_1_TILE_60_DEG_UP, statesForTrackElem60DegUp),
  (TRACK_ELEM_25_DEG_DOWN_TO_FLAT, statesForTrackElemFlat),
  (TRACK_ELEM_25_DEG_DOWN_TO_LEFT_BANK, statesForTrackElementLeftBank),
  (TRACK_ELEM_25_DEG_DOWN_TO_RIGHT_BANK, statesForTrackElementRightBank),
  (TRACK_ELEM_25_DEG_DOWN, statesForTrackElem25DegDown),
  (TRACK_ELEM_25_DEG_DOWN_TO_LEFT_BANKED_25_DEG_DOWN, statesForTrackElem25DegDownLeftBanked),
  (TRACK_ELEM_25_DEG_DOWN_TO_RIGHT_BANKED_25_DEG_DOWN, statesForTrackElem25DegDownRightBanked),
  (TRACK_ELEM_25_DEG_DOWN_TO_60_DEG_DOWN, statesForTrackElem60DegDown),
  (TRACK_ELEM_25_DEG_DOWN_LEFT_BANKED, statesForTrackElem25DegDownLeftBanked),
  (TRACK_ELEM_25_DEG_DOWN_RIGHT_BANKED, statesForTrackElem25DegDownRightBanked),
  (TRACK_ELEM_LEFT_BANKED_25_DEG_DOWN_TO_25_DEG_DOWN, statesForTrackElem25DegDown),
  (TRACK_ELEM_LEFT_BANKED_25_DEG_DOWN_TO_LEFT_BANKED_FLAT, statesForTrackElementLeftBank),
  (TRACK_ELEM_LEFT_BANKED_25_DEG_DOWN_TO_FLAT, statesForTrackElemFlat),
  (TRACK_ELEM_LEFT_BANKED_QUARTER_TURN_5_TILE_25_DEG_DOWN, statesForTrackElem25DegDownLeftBanked),
  (TRACK_ELEM_LEFT_BANKED_QUARTER_TURN_3_TILE_25_DEG_DOWN, statesForTrackElem25DegDownLeftBanked),
  (TRACK_ELEM_RIGHT_BANKED_25_DEG_DOWN_TO_25_DEG_DOWN, statesForTrackElem25DegDown),
  (TRACK_ELEM_RIGHT_BANKED_25_DEG_DOWN_TO_RIGHT_BANKED_FLAT, statesForTrackElementRightBank),
  (TRACK_ELEM_RIGHT_BANKED_25_DEG_DOWN_TO_FLAT, statesForTrackElemFlat),
  (TRACK_ELEM_RIGHT_BANKED_QUARTER_TURN_5_TILE_25_DEG_DOWN, statesForTrackElem25DegDownRightBanked),
  (TRACK_ELEM_RIGHT_BANKED_QUARTER_TURN_3_TILE_25_DEG_DOWN, statesForTrackElem25DegDownRightBanked),
  (TRACK_ELEM_60_DEG_DOWN_TO_25_DEG_DOWN, statesForTrackElem25DegDown),
  (TRACK_ELEM_60_DEG_DOWN, statesForTrackElem60DegDown),
  (TRACK_ELEM_RIGHT_QUARTER_TURN_1_TILE_60_DEG_DOWN, statesForTrackElem60DegDown),
  (TRACK_ELEM_LEFT_QUARTER_TURN_1_TILE_60_DEG_DOWN, statesForTrackElem60DegDown),
  (TRACK_ELEM_LEFT_VERTICAL_LOOP, statesForTrackElem25DegDown),
  (TRACK_ELEM_RIGHT_VERTICAL_LOOP, statesForTrackElem25DegDown)]

def trackPieceForFlat : TrackPiece := ⟨[
    ⟨⟨0, 0, 0⟩, ⟨1, 1, 1, 1⟩⟩, ⟨⟨0, 0, 1⟩, ⟨1, 1, 1, 1⟩⟩],
  ⟨1, 0, 0⟩⟩

def trackPieceForFlatTo25DegUp : TrackPiece := ⟨[
    ⟨⟨0, 0, 0⟩, ⟨1, 1, 1, 1⟩⟩, ⟨⟨0, 0, 1⟩, ⟨1, 1, 1, 1⟩⟩],
  ⟨1, 0, 1⟩⟩

def trackPieceFor25DegUp : TrackPiece := ⟨[
    ⟨⟨0, 0, -1⟩, ⟨1, 1, 1, 1⟩⟩, ⟨⟨0, 0, 0⟩, ⟨1, 1, 1, 1⟩⟩, ⟨⟨0, 0, 1⟩, ⟨1, 1, 1, 1⟩⟩],
  ⟨1, 0, 1⟩⟩

def trackPieceFor25DegUpToFlat : TrackPiece := ⟨[
    ⟨⟨0, 0, -1⟩, ⟨1, 1, 1, 1⟩⟩, ⟨⟨0, 0, 0⟩, ⟨1, 1, 1, 1⟩⟩, ⟨⟨0, 0, 1⟩, ⟨1, 1, 1, 1⟩⟩],
  ⟨1, 0, 0⟩⟩

def trackPieceFor25DegUpTo60DegUp : TrackPiece := ⟨[
    ⟨⟨0, 0, -1⟩, ⟨1, 1, 1, 1⟩⟩, ⟨⟨0, 0, 0⟩, ⟨1, 1, 1, 1⟩⟩, ⟨⟨0, 0, 1⟩, ⟨1, 1, 1, 1⟩⟩,
    ⟨⟨0, 0, 2⟩, ⟨1, 1, 1, 1⟩⟩],
  ⟨1, 0, 2⟩⟩

def trackPieceFor60DegUp : TrackPiece := ⟨[
    ⟨⟨0, 0, -1⟩, ⟨1, 1, 1, 1⟩⟩, ⟨⟨0, 0, 0⟩, ⟨1, 1, 1, 1⟩⟩, ⟨⟨0, 0, 1⟩, ⟨1, 1, 1, 1⟩⟩,
    ⟨⟨0, 0, 2⟩, ⟨1, 1, 1, 1⟩⟩, ⟨⟨0, 0, 3⟩, ⟨1, 1, 1, 1⟩⟩, ⟨⟨0, 0, 4⟩, ⟨1, 1, 1, 1⟩⟩],
  ⟨1, 0, 4⟩⟩

def trackPieceFor25DegDown : TrackPiece := ⟨[
    ⟨⟨0, 0, -1⟩, ⟨1, 1, 1, 1⟩⟩, ⟨⟨0, 0, 0⟩, ⟨1, 1, 1, 1⟩⟩, ⟨⟨0, 0, 1⟩, ⟨1, 1, 1, 1⟩⟩],
  ⟨1, 0, -1⟩⟩

def trackPieceFor25DegDownToFloat : TrackPiece := ⟨[
    ⟨⟨0, 0, -1⟩, ⟨1, 1, 1, 1⟩⟩, ⟨⟨0, 0, 0⟩, ⟨1, 1, 1, 1⟩⟩, ⟨⟨0, 0, 1⟩, ⟨1, 1, 1, 1⟩⟩],
  ⟨1, 0, 0⟩⟩

def trackPieceFor25DegDownTo60DegDown : TrackPiece := ⟨[
    ⟨⟨0, 0, -2⟩, ⟨1, 1, 1, 1⟩⟩, ⟨⟨0, 0, -1⟩, ⟨1, 1, 1, 1⟩⟩, ⟨⟨0, 0, 0⟩, ⟨1, 1, 1, 1⟩⟩,
    ⟨⟨0, 0, 1⟩, ⟨1, 1, 1, 1⟩⟩],
  ⟨1, 0, -2⟩⟩

def trackPieceFor60DegDown : TrackPiece := ⟨[
    ⟨⟨0, 0, -4⟩, ⟨1, 1, 1, 1⟩⟩, ⟨⟨0, 0, -3⟩, ⟨1, 1, 1, 1⟩⟩, ⟨⟨0, 0, -2⟩, ⟨1, 1, 1, 1⟩⟩,
    ⟨⟨0, 0, -1⟩, ⟨1, 1, 1, 1⟩⟩, ⟨⟨0, 0, 0⟩, ⟨1, 1, 1, 1⟩⟩, ⟨⟨0, 0, 1⟩, ⟨1, 1, 1, 1⟩⟩],
  ⟨1, 0, -4⟩⟩

def trackPieceForQuarterTurn5Tiles : TrackPiece := ⟨[
    ⟨⟨0, 0, 0⟩, ⟨1, 1, 1, 1⟩⟩, ⟨⟨0, 1, 0⟩, ⟨0, 0, 1, 0⟩⟩, ⟨⟨1, 0, 0⟩, ⟨1, 1, 0, 1⟩⟩,
    ⟨⟨1, 1, 0⟩, ⟨1, 0, 1, 1⟩⟩, ⟨⟨1, 2, 0⟩, ⟨0, 0, 1, 0⟩⟩, ⟨⟨2, 1, 0⟩, ⟨1, 1, 0, 1⟩⟩,
    ⟨⟨2, 2, 0⟩, ⟨1, 1, 1, 1⟩⟩, ⟨⟨0, 0, 1⟩, ⟨1, 1, 1, 1⟩⟩, ⟨⟨0, 1, 1⟩, ⟨0, 0, 1, 0⟩⟩,
    ⟨⟨1, 0, 1⟩, ⟨1, 1, 0, 1⟩⟩, ⟨⟨1, 1, 1⟩, ⟨1, 0, 1, 1⟩⟩, ⟨⟨1, 2, 1⟩, ⟨0, 0, 1, 0⟩⟩,
    ⟨⟨2, 1, 1⟩, ⟨1, 1, 0, 1⟩⟩, ⟨⟨2, 2, 1⟩, ⟨1, 1, 1, 1⟩⟩],
  ⟨2, 3, 0⟩⟩

def trackPieceForQuarterTurn5Tiles25DegUp : TrackPiece := ⟨[
    ⟨⟨0, 0, -1⟩, ⟨1, 1, 1, 1⟩⟩, ⟨⟨0, 0, 0⟩, ⟨1, 1, 1, 1⟩⟩, ⟨⟨0, 0, 1⟩, ⟨1, 1, 1, 1⟩⟩,
    ⟨⟨0, 1, 0⟩, ⟨0, 0, 1, 0⟩⟩, ⟨⟨0, 1, 1⟩, ⟨0, 0, 1, 0⟩⟩, ⟨⟨1, 0, 0⟩, ⟨1, 1, 0, 1⟩⟩,
    ⟨⟨1, 0, 1⟩, ⟨1, 1, 0, 1⟩⟩, ⟨⟨1, 0, 2⟩, ⟨1, 1, 0, 1⟩⟩, ⟨⟨1, 1, 1⟩, ⟨1, 0, 1, 1⟩⟩,
    ⟨⟨1, 1, 2⟩, ⟨1, 0, 1, 1⟩⟩, ⟨⟨1, 1, 3⟩, ⟨1, 0, 1, 1⟩⟩, ⟨⟨2, 1, 1⟩, ⟨1, 1, 0, 1⟩⟩,
    ⟨⟨2, 1, 2⟩, ⟨1, 1, 0, 1⟩⟩, ⟨⟨2, 1, 3⟩, ⟨1, 1, 0, 1⟩⟩, ⟨⟨1, 2, 2⟩, ⟨0, 0, 1, 0⟩⟩,
    ⟨⟨1, 2, 3⟩, ⟨0, 0, 1, 0⟩⟩, ⟨⟨2, 2, 2⟩, ⟨1, 1, 1, 1⟩⟩, ⟨⟨2, 2, 3⟩, ⟨1, 1, 1, 1⟩⟩,
    ⟨⟨2, 2, 4⟩, ⟨1, 1, 1, 1⟩⟩],
  ⟨2, 3, 4⟩⟩

def trackPieceForQuarterTurn5Tiles25DegDown : TrackPiece := ⟨[
    ⟨⟨0, 0, -1⟩, ⟨1, 1, 1, 1⟩⟩, ⟨⟨0, 0, 0⟩, ⟨1, 1, 1, 1⟩⟩, ⟨⟨0, 0, 1⟩, ⟨1, 1, 1, 1⟩⟩,
    ⟨⟨0, 1, 0⟩, ⟨0, 0, 1, 0⟩⟩, ⟨⟨0, 1, -1⟩, ⟨0, 0, 1, 0⟩⟩, ⟨⟨1, 0, 1⟩, ⟨1, 1, 0, 1⟩⟩,
    ⟨⟨1, 0, 0⟩, ⟨1, 1, 0, 1⟩⟩, ⟨⟨1, 0, -1⟩, ⟨1, 1, 0, 1⟩⟩, ⟨⟨1, 0, -2⟩, ⟨1, 1, 0, 1⟩⟩,
    ⟨⟨1, 1, 0⟩, ⟨1, 0, 1, 1⟩⟩, ⟨⟨1, 1, -1⟩, ⟨1, 0, 1, 1⟩⟩, ⟨⟨1, 1, -2⟩, ⟨1, 0, 1, 1⟩⟩,
    ⟨⟨1, 1, -3⟩, ⟨1, 0, 1, 1⟩⟩, ⟨⟨2, 1, -1⟩, ⟨1, 1, 0, 1⟩⟩, ⟨⟨2, 1, -2⟩, ⟨1, 1, 0, 1⟩⟩,
    ⟨⟨2, 1, -3⟩, ⟨1, 1, 0, 1⟩⟩, ⟨⟨1, 2, -1⟩, ⟨0, 0, 1, 0⟩⟩, ⟨⟨1, 2, -2⟩, ⟨0, 0, 1, 0⟩⟩,
    ⟨⟨1, 2, -3⟩, ⟨0, 0, 1, 0⟩⟩, ⟨⟨2, 2, -2⟩, ⟨1, 1, 1, 1⟩⟩, ⟨⟨2, 2, -3⟩, ⟨1, 1, 1, 1⟩⟩,
    ⟨⟨2, 2, -4⟩, ⟨1, 1, 1, 1⟩⟩],
  ⟨2, 3, -4⟩⟩

def trackPieceForQuarterTurn3Tiles : TrackPiece := ⟨[
    ⟨⟨0, 0, 0⟩, ⟨1, 1, 0, 1⟩⟩, ⟨⟨0, 1, 0⟩, ⟨0, 0, 1, 0⟩⟩, ⟨⟨1, 0, 0⟩, ⟨0, 1, 0, 0⟩⟩,
    ⟨⟨1, 1, 0⟩, ⟨1, 1, 0, 1⟩⟩, ⟨⟨0, 0, 1⟩, ⟨1, 1, 0, 1⟩⟩, ⟨⟨0, 1, 1⟩, ⟨0, 0, 1, 0⟩⟩,
    ⟨⟨1, 0, 1⟩, ⟨0, 1, 0, 0⟩⟩, ⟨⟨1, 1, 1⟩, ⟨1, 1, 0, 1⟩⟩],
  ⟨1, 2, 0⟩⟩

def trackPieceForQuarterTurn3Tiles25DegUp : TrackPiece := ⟨[
    ⟨⟨0, 0, -1⟩, ⟨1, 1, 0, 1⟩⟩, ⟨⟨0, 0, 0⟩, ⟨1, 1, 0, 1⟩⟩, ⟨⟨0, 0, 1⟩, ⟨1, 1, 0, 1⟩⟩,
    ⟨⟨0, 1, 0⟩, ⟨0, 0, 1, 0⟩⟩, ⟨⟨0, 1, 1⟩, ⟨0, 0, 1, 0⟩⟩, ⟨⟨1, 0, 0⟩, ⟨0, 1, 0, 0⟩⟩,
    ⟨⟨1, 0, 1⟩, ⟨0, 1, 0, 0⟩⟩, ⟨⟨1, 1, 0⟩, ⟨1, 1, 0, 1⟩⟩, ⟨⟨1, 1, 1⟩, ⟨1, 1, 0, 1⟩⟩,
    ⟨⟨1, 1, 2⟩, ⟨1, 1, 0, 1⟩⟩],
  ⟨1, 2, 2⟩⟩

def trackPieceForQuarterTurn3Tiles25DegDown : TrackPiece := ⟨[
    ⟨⟨0, 0, -1⟩, ⟨1, 1, 0, 1⟩⟩, ⟨⟨0, 0, 0⟩, ⟨1, 1, 0, 1⟩⟩, ⟨⟨0, 0, 1⟩, ⟨1, 1, 0, 1⟩⟩,
    ⟨⟨0, 1, 0⟩, ⟨0, 0, 1, 0⟩⟩, ⟨⟨0, 1, -1⟩, ⟨0, 0, 1, 0⟩⟩, ⟨⟨1, 0, 0⟩, ⟨0, 1, 0, 0⟩⟩,
    ⟨⟨1, 0, -1⟩, ⟨0, 1, 0, 0⟩⟩, ⟨⟨1, 1, 0⟩, ⟨1, 1, 0, 1⟩⟩, ⟨⟨1, 1, -1⟩, ⟨1, 1, 0, 1⟩⟩,
    ⟨⟨1, 1, -2⟩, ⟨1, 1, 0, 1⟩⟩],
  ⟨1, 2, -2⟩⟩

def trackPieceForQuarterTurn3Tiles60DegUp : TrackPiece := ⟨[
    ⟨⟨0, 0, -1⟩, ⟨1, 1, 1, 1⟩⟩, ⟨⟨0, 0, 0⟩, ⟨1, 1, 1, 1⟩⟩, ⟨⟨0, 0, 1⟩, ⟨1, 1, 1, 1⟩⟩,
    ⟨⟨0, 0, 2⟩, ⟨1, 1, 1, 1⟩⟩, ⟨⟨0, 0, 3⟩, ⟨1, 1, 1, 1⟩⟩, ⟨⟨0, 0, 4⟩, ⟨1, 1, 1, 1⟩⟩],
  ⟨0, 1, 4⟩⟩

def trackPieceForQuarterTurn3Tiles60DegDown : TrackPiece := ⟨[
    ⟨⟨0, 0, 1⟩, ⟨1, 1, 1, 1⟩⟩, ⟨⟨0, 0, 0⟩, ⟨1, 1, 1, 1⟩⟩, ⟨⟨0, 0, -1⟩, ⟨1, 1, 1, 1⟩⟩,
    ⟨⟨0, 0, -2⟩, ⟨1, 1, 1, 1⟩⟩, ⟨⟨0, 0, -3⟩, ⟨1, 1, 1, 1⟩⟩, ⟨⟨0, 0, -4⟩, ⟨1, 1, 1, 1⟩⟩],
  ⟨0, 1, -4⟩⟩

def trackPieceForRightVerticalLoop : TrackPiece := ⟨[
    ⟨⟨0, 0, -1⟩, ⟨1, 1, 1, 1⟩⟩, ⟨⟨0, 0, 0⟩, ⟨1, 1, 1, 1⟩⟩, ⟨⟨0, 0, 1⟩, ⟨1, 1, 1, 1⟩⟩,
    ⟨⟨1, 0, 0⟩, ⟨1, 1, 1, 1⟩⟩, ⟨⟨1, 0, 1⟩, ⟨1, 1, 1, 1⟩⟩, ⟨⟨1, 0, 2⟩, ⟨1, 1, 1, 1⟩⟩,
    ⟨⟨1, 0, 7⟩, ⟨0, 1, 0, 1⟩⟩, ⟨⟨1, 0, 8⟩, ⟨0, 1, 0, 1⟩⟩, ⟨⟨1, 0, 9⟩, ⟨0, 1, 0, 1⟩⟩,
    ⟨⟨2, 0, 1⟩, ⟨0, 1, 0, 0⟩⟩, ⟨⟨2, 0, 2⟩, ⟨0, 1, 0, 0⟩⟩, ⟨⟨2, 0, 3⟩, ⟨0, 1, 0, 0⟩⟩,
    ⟨⟨2, 0, 4⟩, ⟨0, 1, 0, 0⟩⟩, ⟨⟨2, 0, 5⟩, ⟨0, 1, 0, 0⟩⟩, ⟨⟨2, 0, 6⟩, ⟨0, 1, 0, 0⟩⟩,
    ⟨⟨2, 0, 7⟩, ⟨0, 1, 0, 0⟩⟩, ⟨⟨2, 0, 8⟩, ⟨0, 1, 0, 0⟩⟩, ⟨⟨1, 1, -1⟩, ⟨1, 1, 1, 1⟩⟩,
    ⟨⟨1, 1, 0⟩, ⟨1, 1, 1, 1⟩⟩, ⟨⟨1, 1, 1⟩, ⟨1, 1, 1, 1⟩⟩, ⟨⟨0, 1, 0⟩, ⟨1, 1, 1, 1⟩⟩,
    ⟨⟨0, 1, 1⟩, ⟨1, 1, 1, 1⟩⟩, ⟨⟨0, 1, 2⟩, ⟨1, 1, 1, 1⟩⟩, ⟨⟨0, 1, 7⟩, ⟨1, 0, 1, 0⟩⟩,
    ⟨⟨0, 1, 8⟩, ⟨1, 0, 1, 0⟩⟩, ⟨⟨0, 1, 9⟩, ⟨1, 0, 1, 0⟩⟩, ⟨⟨-1, 1, 1⟩, ⟨0, 0, 1, 0⟩⟩,
    ⟨⟨-1, 1, 2⟩, ⟨0, 0, 1, 0⟩⟩, ⟨⟨-1, 1, 3⟩, ⟨0, 0, 1, 0⟩⟩, ⟨⟨-1, 1, 4⟩, ⟨0, 0, 1, 0⟩⟩,
    ⟨⟨-1, 1, 5⟩, ⟨0, 0, 1, 0⟩⟩, ⟨⟨-1, 1, 6⟩, ⟨0, 0, 1, 0⟩⟩, ⟨⟨-1, 1, 7⟩, ⟨0, 0, 1, 0⟩⟩,
    ⟨⟨-1, 1, 8⟩, ⟨0, 0, 1, 0⟩⟩],
  ⟨2, 1, -1⟩⟩

def trackData : List (track_type_t × TrackPiece) := [
  (TRACK_ELEM_BEGIN_STATION, trackPieceForFlat),
  (TRACK_ELEM_MIDDLE_STATION, trackPieceForFlat), (TRACK_ELEM_END_STATION, trackPieceForFlat),
  (TRACK_ELEM_FLAT, trackPieceForFlat), (TRACK_ELEM_FLAT_TO_RIGHT_BANK, trackPieceForFlat),
  (TRACK_ELEM_FLAT_TO_25_DEG_UP, trackPieceForFlatTo25DegUp),
  (TRACK_ELEM_FLAT_TO_RIGHT_BANKED_25_DEG_UP, trackPieceForFlatTo25DegUp),
  (TRACK_ELEM_FLAT_TO_25_DEG_DOWN, trackPieceFor25DegDown),
  (TRACK_ELEM_FLAT_TO_RIGHT_BANKED_25_DEG_DOWN, trackPieceFor25DegDown),
  (TRACK_ELEM_RIGHT_BANKED_FLAT_TO_RIGHT_BANKED_25_DEG_UP, trackPieceForFlatTo25DegUp),
  (TRACK_ELEM_RIGHT_BANKED_FLAT_TO_RIGHT_BANKED_25_DEG_DOWN, trackPieceFor25DegDown),
  (TRACK_ELEM_RIGHT_BANK, trackPieceForFlat),
  (TRACK_ELEM_RIGHT_BANK_TO_FLAT, trackPieceForFlat),
  (TRACK_ELEM_RIGHT_BANK_TO_25_DEG_UP, trackPieceForFlatTo25DegUp),
  (TRACK_ELEM_RIGHT_BANK_TO_25_DEG_DOWN, trackPieceFor25DegDown),
  (TRACK_ELEM_25_DEG_UP_RIGHT_BANKED, trackPieceFor25DegUp),
  (TRACK_ELEM_BANKED_RIGHT_QUARTER_TURN_5_TILES, trackPieceForQuarterTurn5Tiles),
  (TRACK_ELEM_RIGHT_QUARTER_TURN_3_TILES_BANK, trackPieceForQuarterTurn3Tiles),
  (TRACK_ELEM_25_DEG_UP_TO_FLAT, trackPieceFor25DegUpToFlat),
  (TRACK_ELEM_25_DEG_UP_TO_RIGHT_BANK, trackPieceFor25DegUpToFlat),
  (TRACK_ELEM_25_DEG_UP, trackPieceFor25DegUp),
  (TRACK_ELEM_25_DEG_UP_TO_RIGHT_BANKED_25_DEG_UP, trackPieceFor25DegUp),
  (TRACK_ELEM_25_DEG_UP_TO_60_DEG_UP, trackPieceFor25DegUpTo60DegUp),
  (TRACK_ELEM_RIGHT_BANKED_25_DEG_UP_TO_25_DEG_UP, trackPieceFor25DegUp),
  (TRACK_ELEM_RIGHT_BANKED_25_DEG_UP_TO_RIGHT_BANKED_FLAT, trackPieceFor25DegUpToFlat),
  (TRACK_ELEM_RIGHT_BANKED_25_DEG_UP_TO_FLAT, trackPieceFor25DegUpToFlat),
  (TRACK_ELEM_RIGHT_BANKED_QUARTER_TURN_5_TILE_25_DEG_UP, trackPieceForQuarterTurn5Tiles25DegUp),
  (TRACK_ELEM_RIGHT_BANKED_QUARTER_TURN_3_TILE_25_DEG_UP, trackPieceForQuarterTurn3Tiles25DegUp),
  (TRACK_ELEM_60_DEG_UP_TO_25_DEG_UP, trackPieceFor25DegUpTo60DegUp),
  (TRACK_ELEM_60_DEG_UP, trackPieceFor60DegUp),
  (TRACK_ELEM_RIGHT_QUARTER_TURN_1_TILE_60_DEG_UP, trackPieceForQuarterTurn3Tiles60DegUp),
  (TRACK_ELEM_25_DEG_DOWN_TO_FLAT, trackPieceFor25DegDownToFloat),
  (TRACK_ELEM_25_DEG_DOWN_TO_RIGHT_BANK, trackPieceFor25DegDownToFloat),
  (TRACK_ELEM_25_DEG_DOWN, trackPieceFor25DegDown),
  (TRACK_ELEM_25_DEG_DOWN_TO_RIGHT_BANKED_25_DEG_DOWN, trackPieceFor25DegDown),
  (TRACK_ELEM_25_DEG_DOWN_TO_60_DEG_DOWN, trackPieceFor25DegDownTo60DegDown),
  (TRACK_ELEM_25_DEG_DOWN_RIGHT_BANKED, trackPieceFor25DegDown),
  (TRACK_ELEM_RIGHT_BANKED_25_DEG_DOWN_TO_25_DEG_DOWN, trackPieceFor25DegDown),
  (TRACK_ELEM_RIGHT_BANKED_25_DEG_DOWN_TO_RIGHT_BANKED_FLAT, trackPieceFor25DegDownToFloat),
  (TRACK_ELEM_RIGHT_BANKED_25_DEG_DOWN_TO_FLAT, trackPieceFor25DegDownToFloat),
  (TRACK_ELEM_RIGHT_BANKED_QUARTER_TURN_5_TILE_25_DEG_DOWN, trackPieceForQuarterTurn5Tiles25DegDown),
  (TRACK_ELEM_RIGHT_BANKED_QUARTER_TURN_3_TILE_25_DEG_DOWN, trackPieceForQuarterTurn3Tiles25DegDown),
  (TRACK_ELEM_60_DEG_DOWN_TO_25_DEG_DOWN, trackPieceFor25DegDownTo60DegDown),
  (TRACK_ELEM_60_DEG_DOWN, trackPieceFor60DegDown),
  (TRACK_ELEM_RIGHT_QUARTER_TURN_1_TILE_60_DEG_DOWN, trackPieceForQuarterTurn3Tiles60DegDown),
  (TRACK_ELEM_RIGHT_VERTICAL_LOOP, trackPieceForRightVerticalLoop),
  (TRACK_ELEM_RIGHT_QUARTER_TURN_3_TILES, trackPieceForQuarterTurn3Tiles)]

def mirrorMap : List (track_type_t × track_type_t) := [
  (TRACK_ELEM_FLAT_TO_LEFT_BANK, TRACK_ELEM_FLAT_TO_RIGHT_BANK),
  (TRACK_ELEM_FLAT_TO_LEFT_BANKED_25_DEG_UP, TRACK_ELEM_FLAT_TO_RIGHT_BANKED_25_DEG_UP),
  (TRACK_ELEM_FLAT_TO_LEFT_BANKED_25_DEG_DOWN, TRACK_ELEM_FLAT_TO_RIGHT_BANKED_25_DEG_DOWN),
  (TRACK_ELEM_LEFT_BANK, TRACK_ELEM_RIGHT_BANK),
  (TRACK_ELEM_LEFT_BANK_TO_FLAT, TRACK_ELEM_RIGHT_BANK_TO_FLAT),
  (TRACK_ELEM_LEFT_BANK_TO_25_DEG_UP, TRACK_ELEM_RIGHT_BANK_TO_25_DEG_UP),
  (TRACK_ELEM_LEFT_BANK_TO_25_DEG_DOWN, TRACK_ELEM_RIGHT_BANK_TO_25_DEG_DOWN),
  (TRACK_ELEM_LEFT_BANKED_FLAT_TO_LEFT_BANKED_25_DEG_UP, TRACK_ELEM_RIGHT_BANKED_FLAT_TO_RIGHT_BANKED_25_DEG_UP),
  (TRACK_ELEM_LEFT_BANKED_FLAT_TO_LEFT_BANKED_25_DEG_DOWN, TRACK_ELEM_RIGHT_BANKED_FLAT_TO_RIGHT_BANKED_25_DEG_DOWN),
  (TRACK_ELEM_25_DEG_UP_LEFT_BANKED, TRACK_ELEM_25_DEG_UP_RIGHT_BANKED),
  (TRACK_ELEM_BANKED_LEFT_QUARTER_TURN_5_TILES, TRACK_ELEM_BANKED_RIGHT_QUARTER_TURN_5_TILES),
  (TRACK_ELEM_LEFT_QUARTER_TURN_3_TILES_BANK, TRACK_ELEM_RIGHT_QUARTER_TURN_3_TILES_BANK),
  (TRACK_ELEM_25_DEG_UP_TO_LEFT_BANK, TRACK_ELEM_25_DEG_UP_TO_RIGHT_BANK),
  (TRACK_ELEM_25_DEG_UP_TO_LEFT_BANKED_25_DEG_UP, TRACK_ELEM_25_DEG_UP_TO_RIGHT_BANKED_25_DEG_UP),
  (TRACK_ELEM_LEFT_BANKED_25_DEG_UP_TO_25_DEG_UP, TRACK_ELEM_RIGHT_BANKED_25_DEG_UP_TO_25_DEG_UP),
  (TRACK_ELEM_LEFT_BANKED_25_DEG_UP_TO_LEFT_BANKED_FLAT, TRACK_ELEM_RIGHT_BANKED_25_DEG_UP_TO_RIGHT_BANKED_FLAT),
  (TRACK_ELEM_LEFT_BANKED_25_DEG_UP_TO_FLAT, TRACK_ELEM_RIGHT_BANKED_25_DEG_UP_TO_FLAT),
  (TRACK_ELEM_LEFT_BANKED_QUARTER_TURN_5_TILE_25_DEG_UP, TRACK_ELEM_RIGHT_BANKED_QUARTER_TURN_5_TILE_25_DEG_UP),
  (TRACK_ELEM_LEFT_BANKED_QUARTER_TURN_3_TILE_25_DEG_UP, TRACK_ELEM_RIGHT_BANKED_QUARTER_TURN_3_TILE_25_DEG_UP),
  (TRACK_ELEM_LEFT_QUARTER_TURN_1_TILE_60_DEG_UP, TRACK_ELEM_RIGHT_QUARTER_TURN_1_TILE_60_DEG_UP),
  (TRACK_ELEM_25_DEG_DOWN_TO_LEFT_BANK, TRACK_ELEM_25_DEG_DOWN_TO_RIGHT_BANK),
  (TRACK_ELEM_25_DEG_DOWN_TO_LEFT_BANKED_25_DEG_DOWN, TRACK_ELEM_25_DEG_DOWN_TO_RIGHT_BANKED_25_DEG_DOWN),
  (TRACK_ELEM_25_DEG_DOWN_LEFT_BANKED, TRACK_ELEM_25_DEG_DOWN_RIGHT_BANKED),
  (TRACK_ELEM_LEFT_BANKED_25_DEG_DOWN_TO_25_DEG_DOWN, TRACK_ELEM_RIGHT_BANKED_25_DEG_DOWN_TO_25_DEG_DOWN),
  (TRACK_ELEM_LEFT_BANKED_25_DEG_DOWN_TO_LEFT_BANKED_FLAT, TRACK_ELEM_RIGHT_BANKED_25_DEG_DOWN_TO_RIGHT_BANKED_FLAT),
  (TRACK_ELEM_LEFT_BANKED_25_DEG_DOWN_TO_FLAT, TRACK_ELEM_RIGHT_BANKED_25_DEG_DOWN_TO_FLAT),
  (TRACK_ELEM_LEFT_BANKED_QUARTER_TURN_5_TILE_25_DEG_DOWN, TRACK_ELEM_RIGHT_BANKED_QUARTER_TURN_5_TILE_25_DEG_DOWN),
  (TRACK_ELEM_LEFT_BANKED_QUARTER_TURN_3_TILE_25_DEG_DOWN, TRACK_ELEM_RIGHT_BANKED_QUARTER_TURN_3_TILE_25_DEG_DOWN),
  (TRACK_ELEM_LEFT_QUARTER_TURN_1_TILE_60_DEG_DOWN, TRACK_ELEM_RIGHT_QUARTER_TURN_1_TILE_60_DEG_DOWN),
  (TRACK_ELEM_LEFT_VERTICAL_LOOP, TRACK_ELEM_RIGHT_VERTICAL_LOOP),
  (TRACK_ELEM_LEFT_QUARTER_TURN_3_TILES, TRACK_ELEM_RIGHT_QUARTER_TURN_3_TILES)]

def AddCoords (c0 c1 : Coord) : Coord :=
  ⟨c0.y + c1.y, c0.x + c1.x, c0.z + c1.z⟩

def OutOfBounds (coord : Coord) : Bool :=
  if coord.y < 0 ∨ coord.y ≥ kSizeY then true
  else if coord.x < 0 ∨ coord.x ≥ kSizeX then true
  else if coord.z < 0 ∨ coord.z ≥ kSizeZ then true
  else false

def MirrorCoord (coord : Coord) : Coord :=
  ⟨coord.y, -coord.x, coord.z⟩

def MirrorTrackCell (tc : TrackCell) : TrackCell :=
  ⟨MirrorCoord tc.coord, ⟨tc.cell.c01, tc.cell.c00, tc.cell.c11, tc.cell.c10⟩⟩

def MirrorTrackPiece (tp : TrackPiece) : TrackPiece :=
  ⟨tp.shape.map MirrorTrackCell, MirrorCoord tp.ptr⟩

def RotateCoord (coord : Coord) : Coord :=
  ⟨-coord.x, coord.y, coord.z⟩

def RotateTrackCell (tc : TrackCell) : TrackCell :=
  ⟨RotateCoord tc.coord, ⟨tc.cell.c01, tc.cell.c11, tc.cell.c00, tc.cell.c10⟩⟩

def RotateTrackPiece (tp : TrackPiece) : TrackPiece :=
  ⟨tp.shape.map RotateTrackCell, RotateCoord tp.ptr⟩

/-- The offset `kSizeX * kSizeY * ptr.z + kSizeX * ptr.y + ptr.x` of `ReadSpace`/`WriteSpace`. -/
def linearIndex (ptr : Coord) : Int :=
  kSizeX * kSizeY * ptr.z + kSizeX * ptr.y + ptr.x

def ReadSpace (space : Space) (ptr : Coord) : Cell :=
  space (linearIndex ptr)

def WriteSpace (space : Space) (ptr : Coord) (newCells : Cell) : Space :=
  fun i => if i = linearIndex ptr then newCells else space i

/-- The first `n` iterations of the loop of `CopySpace`. -/
def CopySpaceLoop (source : Space) : Nat → Space → Space
  | 0, dest => dest
  | n + 1, dest =>
    let d := CopySpaceLoop source n dest
    fun i => if i = (n : Int) then source (n : Int) else d i

def CopySpace (source dest : Space) : Space :=
  CopySpaceLoop source (kSizeY * kSizeX * kSizeZ).toNat dest

def ResolveCells (c0 c1 : Cell) : Option Cell :=
  if c0.c00 = 1 ∧ c1.c00 = 1 then none
  else if c0.c01 = 1 ∧ c1.c01 = 1 then none
  else if c0.c10 = 1 ∧ c1.c10 = 1 then none
  else if c0.c11 = 1 ∧ c1.c11 = 1 then none
  else some ⟨Int.lor c0.c00 c1.c00, Int.lor c0.c01 c1.c01,
             Int.lor c0.c10 c1.c10, Int.lor c0.c11 c1.c11⟩

/-! ### Catalogue construction (the first two loops of `Generate`) -/

/-- The value-initialised `TrackPiece` that `operator[]` yields for a missing key. -/
def emptyTrackPiece : TrackPiece := ⟨[], ⟨0, 0, 0⟩⟩

/-- The loop "Generate mirrored data": `trackData[left] = MirrorTrackPiece(trackData[right])`. -/
def GenerateMirroredData (mm : List (track_type_t × track_type_t))
    (td : List (track_type_t × TrackPiece)) : List (track_type_t × TrackPiece) :=
  mm.foldl (fun td lr => mapAssign td lr.1 (MirrorTrackPiece ((mapFind td lr.2).getD emptyTrackPiece)))
    td

/-- The body of the loop "Generate rotated data" for one entry of `trackData`. -/
def GenerateRotatedEntry (rot : List ((track_type_t × DirectionType) × TrackPiece))
    (trackType : track_type_t) (trackPiece : TrackPiece) :
    List ((track_type_t × DirectionType) × TrackPiece) :=
  let rot0 := mapAssign rot (trackType, kNorth) trackPiece
  ([kEast, kSouth, kWest].foldl
    (fun (st : TrackPiece × List ((track_type_t × DirectionType) × TrackPiece)) dir =>
      let curTrack := RotateTrackPiece st.1
      (curTrack, mapAssign st.2 (trackType, dir) curTrack))
    (trackPiece, rot0)).2

/-- The loop "Generate rotated data". -/
def GenerateRotatedData (td : List (track_type_t × TrackPiece)) :
    List ((track_type_t × DirectionType) × TrackPiece) :=
  td.foldl (fun rot e => GenerateRotatedEntry rot e.1 e.2) []

/-- The global `trackData` after the mirror loop of `Generate`. -/
def trackDataMirrored : List (track_type_t × TrackPiece) :=
  GenerateMirroredData mirrorMap trackData

/-- The global `trackDataRot` after the rotation loop of `Generate`. -/
def trackDataRot : List ((track_type_t × DirectionType) × TrackPiece) :=
  GenerateRotatedData trackDataMirrored

/-- The read `trackDataRot[{type, dir}]`. -/
def trackDataRotAt (type : track_type_t) (dir : DirectionType) : TrackPiece :=
  (mapFind trackDataRot (type, dir)).getD emptyTrackPiece

/-! ### Placement -/

/-- The loop of `AddTrackToSpace` over the cells of the oriented piece.  The first component is
the returned flag together with the grid as the loop leaves it (partial writes included); the
second component lists, in order, every coordinate handed to `ReadSpace` and to `WriteSpace`. -/
def AddTrackToSpaceTraced (ptr : Coord) : List TrackCell → Space → (Bool × Space) × List Coord
  | [], space => ((true, space), [])
  | tc :: rest, space =>
    let newPtr := AddCoords ptr tc.coord
    if OutOfBounds newPtr then ((false, space), [])
    else
      let origCell := ReadSpace space newPtr
      match ResolveCells origCell tc.cell with
      | none => ((false, space), [newPtr])
      | some newCell =>
        let r := AddTrackToSpaceTraced ptr rest (WriteSpace space newPtr newCell)
        (r.1, newPtr :: newPtr :: r.2)

/-- The flag and grid that the loop of `AddTrackToSpace` produces. -/
def AddTrackToSpaceLoop (ptr : Coord) (shape : List TrackCell) (space : Space) : Bool × Space :=
  (AddTrackToSpaceTraced ptr shape space).1

def AddTrackToSpace (space : Space) (ptr : Coord) (dir : DirectionType)
    (track : TrackDesignTrackElement) : Bool × Space :=
  AddTrackToSpaceLoop ptr (trackDataRotAt track.type dir).shape space

/-- The coordinates that `AddTrackToSpace` hands to `ReadSpace` and `WriteSpace`. -/
def AddTrackToSpaceAccesses (space : Space) (ptr : Coord) (dir : DirectionType)
    (track : TrackDesignTrackElement) : List Coord :=
  (AddTrackToSpaceTraced ptr (trackDataRotAt track.type dir).shape space).2

/-- The heading after a piece: the `dirStateMachine` lookup of `AddTrackToStack`. -/
def newDirOf (type : track_type_t) (dir : DirectionType) : DirectionType :=
  match mapFind dirStateMachine type with
  | some f => f dir
  | none => dir

/-- The memory returned by `malloc`; every cell of it is overwritten by `CopySpace` before it is
read. -/
def mallocSpace : Space := fun _ => ⟨0, 0, 0, 0⟩

/-- The height limit of `AddTrackToStack` for a frame holding `n` pieces. -/
def heightLimit (n : Nat) : ℚ :=
  let fLimit : ℚ := ((kSizeZ : Int) : ℚ)
  let fTrackSize : ℚ := (n : ℚ)
  if n > 10 then fLimit - fTrackSize * (5 / 100) else fLimit

/-- The function `AddTrackToStack`: `none` when `stack->at(stack->size() - 1)` throws, otherwise the returned
flag and the stack afterwards. -/
def AddTrackToStack (stack : List GeneratorInfo) (track : TrackDesignTrackElement) :
    Option (Bool × List GeneratorInfo) :=
  match stack.getLast? with
  | none => none
  | some lastInfo =>
    let trackPiece := trackDataRotAt track.type lastInfo.dir
    let newPtr := AddCoords lastInfo.ptr trackPiece.ptr
    if OutOfBounds newPtr then some (false, stack)
    else
      let fZ : ℚ := ((newPtr.z : Int) : ℚ)
      let limit := heightLimit lastInfo.tracks.length
      if fZ > limit then some (false, stack)
      else
        let newTracks := lastInfo.tracks ++ [track]
        let newDir := newDirOf track.type lastInfo.dir
        let newSpace := CopySpace lastInfo.space mallocSpace
        let placed := AddTrackToSpace newSpace lastInfo.ptr lastInfo.dir track
        if placed.1 = false then some (false, stack)
        else some (true, stack ++ [⟨placed.2, newTracks, newPtr, newDir, []⟩])

/-- The `while (true)` loop of `ChooseTrack`, at most `fuel` iterations: the returned flag, the
stack, the failed set, and the number of random values drawn. -/
def ChooseTrackLoop (rand : Nat → Nat) :
    Nat → List GeneratorInfo → List track_type_t → List track_type_t → Nat →
    Option (Bool × List GeneratorInfo × List track_type_t × Nat)
  | 0, _, _, _, _ => none
  | fuel + 1, stack, failedTracks, nextPossibleUpdated, k =>
    if nextPossibleUpdated.isEmpty then some (false, stack, failedTracks, k)
    else
      let i0 : Option Nat := none
      let i1 := match findIndex nextPossibleUpdated TRACK_ELEM_RIGHT_VERTICAL_LOOP with
        | some j => some j
        | none => i0
      let i2 := match findIndex nextPossibleUpdated TRACK_ELEM_LEFT_VERTICAL_LOOP with
        | some j => some j
        | none => i1
      let ik : Nat × Nat := match i2 with
        | some j => (j, k)
        | none => (rand k % nextPossibleUpdated.length, k + 1)
      match nextPossibleUpdated.get? ik.1 with
      | none => none
      | some nextTrack =>
        match AddTrackToStack stack ⟨nextTrack, 4⟩ with
        | none => none
        | some (true, stack') => some (true, stack', failedTracks, ik.2)
        | some (false, stack') =>
          ChooseTrackLoop rand fuel stack' (setInsert failedTracks nextTrack)
            (nextPossibleUpdated.eraseIdx ik.1) ik.2

/-- The function `ChooseTrack`.  The list `nextPossibleUpdated` loses an element in every iteration that does
not return, so `length + 1` iterations always suffice. -/
def ChooseTrack (rand : Nat → Nat) (stack : List GeneratorInfo) (failedTracks : List track_type_t)
    (nextPossibleTracks : List track_type_t) (k : Nat) :
    Option (Bool × List GeneratorInfo × List track_type_t × Nat) :=
  let nextPossibleUpdated := nextPossibleTracks.filter (fun npt => decide (npt ∉ failedTracks))
  ChooseTrackLoop rand (nextPossibleUpdated.length + 1) stack failedTracks nextPossibleUpdated k

/-! ### The attempt of `Generate` -/

def endCoord : Coord := ⟨0, 3, 0⟩

/-- The grid at the start of an attempt: all cells empty, then the two reserved cells. -/
def initialSpace : Space :=
  WriteSpace (WriteSpace (fun _ => ⟨0, 0, 0, 0⟩) endCoord ⟨1, 1, 1, 1⟩) ⟨0, 3, 1⟩ ⟨1, 1, 1, 1⟩

/-- The frame pushed at the start of an attempt. -/
def initialInfo : GeneratorInfo := ⟨initialSpace, [], ⟨0, 4, 0⟩, kEast, []⟩

def tracksToAdd : List TrackDesignTrackElement :=
  [⟨TRACK_ELEM_BEGIN_STATION, 4⟩, ⟨TRACK_ELEM_MIDDLE_STATION, 4⟩, ⟨TRACK_ELEM_MIDDLE_STATION, 4⟩,
   ⟨TRACK_ELEM_END_STATION, 4⟩, ⟨TRACK_ELEM_FLAT_TO_LEFT_BANKED_25_DEG_UP, 4⟩,
   ⟨TRACK_ELEM_LEFT_BANKED_QUARTER_TURN_5_TILE_25_DEG_UP, 4⟩,
   ⟨TRACK_ELEM_LEFT_BANKED_QUARTER_TURN_5_TILE_25_DEG_UP, 4⟩]

/-- The loop over `tracksToAdd`: `some (true, stack)` when every piece was added,
`some (false, stack)` at the first piece that `AddTrackToStack` refuses. -/
def AddInitialTracks : List TrackDesignTrackElement → List GeneratorInfo →
    Option (Bool × List GeneratorInfo)
  | [], stack => some (true, stack)
  | track :: rest, stack =>
    match AddTrackToStack stack track with
    | none => none
    | some (false, stack') => some (false, stack')
    | some (true, stack') => AddInitialTracks rest stack'

/-- The test "Check end condition" of the search loop: `none` when the loop goes on, otherwise
the value assigned to `success` before the `break`. -/
def CheckEndCondition (lastInfo : GeneratorInfo) : Option Bool :=
  if lastInfo.ptr = endCoord ∧ lastInfo.dir = kEast then
    some (decide (lastInfo.tracks.length > kMinimumTrackSize))
  else none

/-- The frame `info` with its failed set replaced. -/
def withFailedTracks (info : GeneratorInfo) (failedTracks : List track_type_t) : GeneratorInfo :=
  { info with failedTracks := failedTracks }

/-- The stack with the failed set of the frame at position `i` replaced.  `ChooseTrack` receives
a pointer to the failed set of the frame that is on top when it is called; this writes the set
it leaves behind into that frame. -/
def storeFailedTracks : List GeneratorInfo → Nat → List track_type_t → List GeneratorInfo
  | [], _, _ => []
  | info :: rest, 0, failedTracks => withFailedTracks info failedTracks :: rest
  | info :: rest, i + 1, failedTracks => info :: storeFailedTracks rest i failedTracks

/-- The step "Backtrack": pop the top frame and record the piece in the frame below; `none`
when no frame is left below. -/
def Backtrack (stack : List GeneratorInfo) (lastTrack : TrackDesignTrackElement) :
    Option (List GeneratorInfo) :=
  let popped := stack.dropLast
  match popped.getLast? with
  | none => none
  | some lastInfo =>
    some (popped.dropLast ++ [withFailedTracks lastInfo (setInsert lastInfo.failedTracks lastTrack.type)])

inductive SearchResult where
  /-- The loop was left by `break` with this value of `success`, this stack and this many
  backtrack steps. -/
  | finished (success : Bool) (stack : List GeneratorInfo) (steps : Nat) (k : Nat)
  /-- The loop ran into undefined behaviour. -/
  | fault
  /-- The iteration budget of the model ran out. -/
  | outOfFuel

/-- The inner `while (true)` loop of `Generate`, at most `fuel` iterations. -/
def SearchLoop (rand : Nat → Nat) : Nat → List GeneratorInfo → Nat → Nat → SearchResult
  | 0, _, _, _ => SearchResult.outOfFuel
  | fuel + 1, stack, steps, k =>
    match stack.getLast? with
    | none => SearchResult.fault
    | some lastInfo =>
      match CheckEndCondition lastInfo with
      | some success => SearchResult.finished success stack steps k
      | none =>
        match lastInfo.tracks.getLast? with
        | none => SearchResult.fault
        | some lastTrack =>
          match mapFind trackStateMachine lastTrack.type with
          | none => SearchResult.fault
          | some nextPossibleTracks =>
            match ChooseTrack rand stack lastInfo.failedTracks nextPossibleTracks k with
            | none => SearchResult.fault
            | some (true, stack', failedTracks', k') =>
              SearchLoop rand fuel (storeFailedTracks stack' (stack.length - 1) failedTracks') steps k'
            | some (false, stack', failedTracks', k') =>
              match Backtrack (storeFailedTracks stack' (stack.length - 1) failedTracks') lastTrack with
              | none => SearchResult.fault
              | some stack'' =>
                if steps + 1 > kTryPerAttempt then SearchResult.finished false stack'' (steps + 1) k'
                else SearchLoop rand fuel stack'' (steps + 1) k'

inductive AttemptResult where
  /-- The call `Generate()` returns this sequence. -/
  | returned (tracks : List TrackDesignTrackElement) (k : Nat)
  /-- The attempt ended without success; the outer loop starts the next attempt. -/
  | again (k : Nat)
  | fault
  | outOfFuel

/-- One iteration of the outer `while (true)` loop of `Generate`. -/
def Attempt (rand : Nat → Nat) (fuel : Nat) (k : Nat) : AttemptResult :=
  match AddInitialTracks tracksToAdd [initialInfo] with
  | none => AttemptResult.fault
  | some (false, _) => AttemptResult.returned [] k
  | some (true, stack) =>
    match SearchLoop rand fuel stack 0 k with
    | SearchResult.fault => AttemptResult.fault
    | SearchResult.outOfFuel => AttemptResult.outOfFuel
    | SearchResult.finished success stack' _ k' =>
      match stack'.getLast? with
      | none => AttemptResult.fault
      | some top => if success then AttemptResult.returned top.tracks k' else AttemptResult.again k'

/-- The function `Generate`, at most `attempts` iterations of the outer loop with `fuel` iterations of the
inner loop each; `none` when the budget runs out or an attempt faults. -/
def Generate (rand : Nat → Nat) (fuel : Nat) : Nat → Nat → Option (List TrackDesignTrackElement)
  | 0, _ => none
  | attempts + 1, k =>
    match Attempt rand fuel k with
    | AttemptResult.returned tracks _ => some tracks
    | AttemptResult.again k' => Generate rand fuel attempts k'
    | AttemptResult.fault => none
    | AttemptResult.outOfFuel => none

/-! # Notions used by the statements -/

/-- A quadrant value is a bit. -/
def IsBit (v : Int) : Prop := v = 0 ∨ v = 1

/-- All four quadrants of a cell are `0` or `1`. -/
def IsBitCell (c : Cell) : Prop := IsBit c.c00 ∧ IsBit c.c01 ∧ IsBit c.c10 ∧ IsBit c.c11

instance instDecidableIsBitCell (c : Cell) : Decidable (IsBitCell c) := by
  unfold IsBitCell IsBit
  infer_instance

/-- Some quadrant is set in both cells. -/
def CellsCollide (a b : Cell) : Prop :=
  (a.c00 = 1 ∧ b.c00 = 1) ∨ (a.c01 = 1 ∧ b.c01 = 1) ∨ (a.c10 = 1 ∧ b.c10 = 1) ∨
    (a.c11 = 1 ∧ b.c11 = 1)

instance instDecidableCellsCollide (a b : Cell) : Decidable (CellsCollide a b) := by
  unfold CellsCollide
  infer_instance

/-- The quadrant-wise "or" of two bits, written without the bitwise operator. -/
def bitOr (u v : Int) : Int := if u = 1 ∨ v = 1 then 1 else 0

/-- A frame at the end pose holding exactly `n` flat pieces. -/
def endFrame (n : Nat) : GeneratorInfo :=
  ⟨initialSpace, List.replicate n ⟨TRACK_ELEM_FLAT, 4⟩, ⟨0, 3, 0⟩, kEast, []⟩

/-- The piece `p` turned to heading `dir`, starting from heading north: one application of
`RotateTrackPiece` for east, two for south, three for west. -/
def rotateTimes (dir : DirectionType) (p : TrackPiece) : TrackPiece :=
  match dir with
  | kNorth => p
  | kEast => RotateTrackPiece p
  | kSouth => RotateTrackPiece (RotateTrackPiece p)
  | kWest => RotateTrackPiece (RotateTrackPiece (RotateTrackPiece p))

/-- The entry of `trackData` for a piece after the mirror loop (the piece at heading north). -/
def trackDataAt (type : track_type_t) : TrackPiece :=
  (mapFind trackDataMirrored type).getD emptyTrackPiece

/-- A piece whose footprint coordinates are pairwise distinct and whose quadrants are bits. -/
def WellFormedPiece (p : TrackPiece) : Prop :=
  (p.shape.map (fun tc => tc.coord)).Nodup ∧ ∀ tc ∈ p.shape, IsBitCell tc.cell

instance instDecidableWellFormedPiece (p : TrackPiece) : Decidable (WellFormedPiece p) := by
  unfold WellFormedPiece
  infer_instance

/-- The quadrant-wise bitwise or of two cells, the cell that `ResolveCells` returns when there is
no collision. -/
def cellOr (a b : Cell) : Cell :=
  ⟨Int.lor a.c00 b.c00, Int.lor a.c01 b.c01, Int.lor a.c10 b.c10, Int.lor a.c11 b.c11⟩

/-- The disjoint-or of a list of cells: the quadrant-wise or of all of them. -/
def orCells (cs : List Cell) : Cell :=
  cs.foldl cellOr ⟨0, 0, 0, 0⟩

/-- The cell `v` is the disjoint-or of the bit cells `cs`, no two of which share a set quadrant. -/
def DisjointOr (v : Cell) (cs : List Cell) : Prop :=
  v = orCells cs ∧ cs.Pairwise (fun a b => ¬ CellsCollide a b) ∧ ∀ x ∈ cs, IsBitCell x

/-- The footprint cells that a shape placed at anchor `ptr` puts on the coordinate `c`. -/
def cellsAt (c : Coord) (ptr : Coord) (shape : List TrackCell) : List Cell :=
  (shape.filter (fun tc => decide (AddCoords ptr tc.coord = c))).map (fun tc => tc.cell)

/-- The anchor and heading reached from `(ptr, dir)` after the pieces of a sequence, each piece
advancing the anchor by its oriented exit and the heading by its `dirStateMachine` entry, as
`AddTrackToStack` does. -/
def poseAfter : Coord → DirectionType → List TrackDesignTrackElement → Coord × DirectionType
  | ptr, dir, [] => (ptr, dir)
  | ptr, dir, track :: rest =>
    poseAfter (AddCoords ptr (trackDataRotAt track.type dir).ptr) (newDirOf track.type dir) rest

/-- The footprint cells that the pieces of a sequence put on the coordinate `c`, in the order of
placement, the first piece being placed at `(ptr, dir)`. -/
def footprintsAt (c : Coord) : Coord → DirectionType → List TrackDesignTrackElement → List Cell
  | _, _, [] => []
  | ptr, dir, track :: rest =>
    cellsAt c ptr (trackDataRotAt track.type dir).shape ++
      footprintsAt c (AddCoords ptr (trackDataRotAt track.type dir).ptr)
        (newDirOf track.type dir) rest

/-- The stacks that the search can hold: the initial stack of an attempt, and every stack obtained
from such a stack by a successful `AddTrackToStack`, by a change of the failed set of a frame (as
`ChooseTrack` does on the top frame), or by a backtrack step. -/
inductive ReachableStack : List GeneratorInfo → Prop where
  | initial : ReachableStack [initialInfo]
  | push (stack stack' : List GeneratorInfo) (track : TrackDesignTrackElement) :
      ReachableStack stack → AddTrackToStack stack track = some (true, stack') →
      ReachableStack stack'
  | failed (stack : List GeneratorInfo) (i : Nat) (failedTracks : List track_type_t) :
      ReachableStack stack → ReachableStack (storeFailedTracks stack i failedTracks)
  | backtrack (stack stack' : List GeneratorInfo) (lastTrack : TrackDesignTrackElement) :
      ReachableStack stack → Backtrack stack lastTrack = some stack' → ReachableStack stack'

/-- The invariant of a frame: its anchor and heading are those reached from `(0,4,0)`, east, after
its sequence, and every in-bounds cell of its grid is the disjoint-or of the cell of the initial
grid and the footprint cells that the pieces of its sequence put on that coordinate. -/
def FrameInv (info : GeneratorInfo) : Prop :=
  poseAfter ⟨0, 4, 0⟩ kEast info.tracks = (info.ptr, info.dir) ∧
  ∀ c : Coord, OutOfBounds c = false →
    DisjointOr (ReadSpace info.space c)
      (ReadSpace initialSpace c :: footprintsAt c ⟨0, 4, 0⟩ kEast info.tracks)

/-- The frame that `AddTrackToStack` pushes when it succeeds on the top frame `lastInfo`. -/
def pushedFrame (lastInfo : GeneratorInfo) (track : TrackDesignTrackElement) : GeneratorInfo :=
  ⟨(AddTrackToSpace (CopySpace lastInfo.space mallocSpace) lastInfo.ptr lastInfo.dir track).2,
    lastInfo.tracks ++ [track],
    AddCoords lastInfo.ptr (trackDataRotAt track.type lastInfo.dir).ptr,
    newDirOf track.type lastInfo.dir, []⟩

/-- The successor sets of the pieces that end on a downward slope. -/
def downStates : List (List track_type_t) :=
  [statesForTrackElem25DegDown, statesForTrackElem25DegDownLeftBanked,
   statesForTrackElem25DegDownRightBanked, statesForTrackElem60DegDown]

/-- The successor sets of the pieces that end on an upward slope. -/
def upStates : List (List track_type_t) :=
  [statesForTrackElem25DegUp, statesForTrackElem25DegUpLeftBanked,
   statesForTrackElem25DegUpRightBanked, statesForTrackElem60DegUp]

/-- A piece begins on an upward slope: it continues an upward exit profile, that is, it is listed
in one of the four upward successor sets. -/
def BeginsUp (t : track_type_t) : Prop := ∃ states ∈ upStates, t ∈ states

/-- A piece begins on a downward slope: it is listed in one of the four downward successor
sets. -/
def BeginsDown (t : track_type_t) : Prop := ∃ states ∈ downStates, t ∈ states

instance instDecidableBeginsUp (t : track_type_t) : Decidable (BeginsUp t) := by
  unfold BeginsUp
  infer_instance

instance instDecidableBeginsDown (t : track_type_t) : Decidable (BeginsDown t) := by
  unfold BeginsDown
  infer_instance

/-- A frame holding `n` flat pieces with its anchor at `ptr`, heading east, on the initial
grid. -/
def flatFrame (n : Nat) (ptr : Coord) : GeneratorInfo :=
  ⟨initialSpace, List.replicate n ⟨TRACK_ELEM_FLAT, 4⟩, ptr, kEast, []⟩

/-- The index `i` that an iteration of the loop of `ChooseTrack` computes from the remaining
candidates (the two `std::find` calls, then `rand()` when `i` is still `-1`), together with the
number of random values drawn afterwards. -/
def ChooseIndex (rand : Nat → Nat) (nextPossibleUpdated : List track_type_t) (k : Nat) :
    Nat × Nat :=
  let i0 : Option Nat := none
  let i1 := match findIndex nextPossibleUpdated TRACK_ELEM_RIGHT_VERTICAL_LOOP with
    | some j => some j
    | none => i0
  let i2 := match findIndex nextPossibleUpdated TRACK_ELEM_LEFT_VERTICAL_LOOP with
    | some j => some j
    | none => i1
  match i2 with
  | some j => (j, k)
  | none => (rand k % nextPossibleUpdated.length, k + 1)

/-- The rest of an iteration of the loop of `ChooseTrack` once the candidate `nextTrack` at index
`i` has been picked: the call of `AddTrackToStack`, then either the `break` or the bookkeeping and
the next iteration. -/
def ChooseTrackAttempt (rand : Nat → Nat) (fuel : Nat) (stack : List GeneratorInfo)
    (failedTracks : List track_type_t) (nextPossibleUpdated : List track_type_t) (i : Nat)
    (nextTrack : track_type_t) (k : Nat) :
    Option (Bool × List GeneratorInfo × List track_type_t × Nat) :=
  match AddTrackToStack stack ⟨nextTrack, 4⟩ with
  | none => none
  | some (true, stack') => some (true, stack', failedTracks, k)
  | some (false, stack') =>
    ChooseTrackLoop rand fuel stack' (setInsert failedTracks nextTrack)
      (nextPossibleUpdated.eraseIdx i) k

/-- A frame whose last piece is `FLAT` and whose failed set already holds every successor of
`FLAT`: a dead end of the search. -/
def deadEndFrame : GeneratorInfo :=
  ⟨initialSpace, [⟨TRACK_ELEM_FLAT, 4⟩], ⟨0, 5, 0⟩, kEast, statesForTrackElemFlat⟩

/-- One iteration of the outer loop of `Generate`, as `Attempt`, with the list of forced pieces
as a parameter (`Attempt` is the instance at `tracksToAdd`). -/
def AttemptWith (toAdd : List TrackDesignTrackElement) (rand : Nat → Nat) (fuel : Nat) (k : Nat) :
    AttemptResult :=
  match AddInitialTracks toAdd [initialInfo] with
  | none => AttemptResult.fault
  | some (false, _) => AttemptResult.returned [] k
  | some (true, stack) =>
    match SearchLoop rand fuel stack 0 k with
    | SearchResult.fault => AttemptResult.fault
    | SearchResult.outOfFuel => AttemptResult.outOfFuel
    | SearchResult.finished success stack' _ k' =>
      match stack'.getLast? with
      | none => AttemptResult.fault
      | some top => if success then AttemptResult.returned top.tracks k' else AttemptResult.again k'

/-- The function `Generate`, as above, with the list of forced pieces as a parameter. -/
def GenerateWith (toAdd : List TrackDesignTrackElement) (rand : Nat → Nat) (fuel : Nat) :
    Nat → Nat → Option (List TrackDesignTrackElement)
  | 0, _ => none
  | attempts + 1, k =>
    match AttemptWith toAdd rand fuel k with
    | AttemptResult.returned tracks _ => some tracks
    | AttemptResult.again k' => GenerateWith toAdd rand fuel attempts k'
    | AttemptResult.fault => none
    | AttemptResult.outOfFuel => none

/-- The outer `while (true)` loop of `Generate`, as in `Generate`, with one iteration (the
attempt) as a parameter: `Generate rand fuel` is the instance at `Attempt rand fuel`. -/
def GenerateBy (attempt : Nat → AttemptResult) :
    Nat → Nat → Option (List TrackDesignTrackElement)
  | 0, _ => none
  | attempts + 1, k =>
    match attempt k with
    | AttemptResult.returned tracks _ => some tracks
    | AttemptResult.again k' => GenerateBy attempt attempts k'
    | AttemptResult.fault => none
    | AttemptResult.outOfFuel => none

/-- The frame that `AddTrackToStack` pushes on top of `info` for `track` when the oriented
catalogue piece of `track` is `piece`. -/
def pushWith (info : GeneratorInfo) (track : TrackDesignTrackElement) (piece : TrackPiece) :
    GeneratorInfo :=
  ⟨(AddTrackToSpaceLoop info.ptr piece.shape (CopySpace info.space mallocSpace)).2,
    info.tracks ++ [track], AddCoords info.ptr piece.ptr, newDirOf track.type info.dir, []⟩

/-- The footprint cells that a list of placements (anchor and oriented piece) puts on the
coordinate `c`, in the order of placement. -/
def placedCellsAt (c : Coord) : List (Coord × TrackPiece) → List Cell
  | [] => []
  | p :: rest => cellsAt c p.1 p.2.shape ++ placedCellsAt c rest

/-- Every in-bounds cell of the grid of the frame is the disjoint-or of the cell of the initial
grid and the footprint cells of the listed placements. -/
def GridOf (info : GeneratorInfo) (placements : List (Coord × TrackPiece)) : Prop :=
  ∀ c : Coord, OutOfBounds c = false →
    DisjointOr (ReadSpace info.space c) (ReadSpace initialSpace c :: placedCellsAt c placements)

/-- The oriented piece `piece`, placed at `ptr`, is inside the grid and none of its cells shares
a set quadrant with the initial grid or with a cell of the listed placements. -/
def FitsAt (ptr : Coord) (piece : TrackPiece) (placements : List (Coord × TrackPiece)) : Prop :=
  ∀ tc ∈ piece.shape, OutOfBounds (AddCoords ptr tc.coord) = false ∧
    ∀ x ∈ ReadSpace initialSpace (AddCoords ptr tc.coord) ::
        placedCellsAt (AddCoords ptr tc.coord) placements, ¬ CellsCollide x tc.cell

instance instDecidableFitsAt (ptr : Coord) (piece : TrackPiece)
    (placements : List (Coord × TrackPiece)) : Decidable (FitsAt ptr piece placements) := by
  unfold FitsAt
  infer_instance

/-- The oriented pieces of the prologue. -/
def prologuePiece1 : TrackPiece := rotateTimes kEast trackPieceForFlat

def prologuePiece5 : TrackPiece := rotateTimes kEast (MirrorTrackPiece trackPieceForFlatTo25DegUp)

def prologuePiece6 : TrackPiece :=
  rotateTimes kEast (MirrorTrackPiece trackPieceForQuarterTurn5Tiles25DegUp)

def prologuePiece7 : TrackPiece :=
  rotateTimes kNorth (MirrorTrackPiece trackPieceForQuarterTurn5Tiles25DegUp)

/-- The frames that the seven forced pieces of the prologue push, one after the other. -/
def prologueFrame1 : GeneratorInfo :=
  pushWith initialInfo ⟨TRACK_ELEM_BEGIN_STATION, 4⟩ prologuePiece1

def prologueFrame2 : GeneratorInfo :=
  pushWith prologueFrame1 ⟨TRACK_ELEM_MIDDLE_STATION, 4⟩ prologuePiece1

def prologueFrame3 : GeneratorInfo :=
  pushWith prologueFrame2 ⟨TRACK_ELEM_MIDDLE_STATION, 4⟩ prologuePiece1

def prologueFrame4 : GeneratorInfo :=
  pushWith prologueFrame3 ⟨TRACK_ELEM_END_STATION, 4⟩ prologuePiece1

def prologueFrame5 : GeneratorInfo :=
  pushWith prologueFrame4 ⟨TRACK_ELEM_FLAT_TO_LEFT_BANKED_25_DEG_UP, 4⟩ prologuePiece5

def prologueFrame6 : GeneratorInfo :=
  pushWith prologueFrame5 ⟨TRACK_ELEM_LEFT_BANKED_QUARTER_TURN_5_TILE_25_DEG_UP, 4⟩
    prologuePiece6

def prologueFrame7 : GeneratorInfo :=
  pushWith prologueFrame6 ⟨TRACK_ELEM_LEFT_BANKED_QUARTER_TURN_5_TILE_25_DEG_UP, 4⟩
    prologuePiece7

/-- The stack after the prologue. -/
def prologueStack : List GeneratorInfo :=
  [initialInfo, prologueFrame1, prologueFrame2, prologueFrame3, prologueFrame4, prologueFrame5,
   prologueFrame6, prologueFrame7]

/-- The placements of the prologue: the anchor and the oriented piece of each forced piece. -/
def prologuePlacements : List (Coord × TrackPiece) :=
  [(⟨0, 4, 0⟩, prologuePiece1), (⟨0, 5, 0⟩, prologuePiece1), (⟨0, 6, 0⟩, prologuePiece1),
   (⟨0, 7, 0⟩, prologuePiece1), (⟨0, 8, 0⟩, prologuePiece5), (⟨0, 9, 1⟩, prologuePiece6),
   (⟨3, 11, 5⟩, prologuePiece7)]


/-- The piece ids of the catalogue for which `trackStateMachine` has no entry: the three station
pieces and the two plain quarter turns of 3 tiles. -/
def noSuccessorIds : List track_type_t :=
  [TRACK_ELEM_BEGIN_STATION, TRACK_ELEM_MIDDLE_STATION, TRACK_ELEM_END_STATION,
   TRACK_ELEM_LEFT_QUARTER_TURN_3_TILES, TRACK_ELEM_RIGHT_QUARTER_TURN_3_TILES]

/-- Every footprint cell of the piece has at least one quadrant set. -/
def NoEmptyCell (p : TrackPiece) : Prop :=
  ∀ tc ∈ p.shape, CellsCollide tc.cell tc.cell

instance instDecidableNoEmptyCell (p : TrackPiece) : Decidable (NoEmptyCell p) := by
  unfold NoEmptyCell
  infer_instance

/-- The stacks that the inner loop of `Generate` holds at the start of an iteration: the stack
left by the prologue, and every stack that an iteration of the loop produces from such a stack,
either by a successful `ChooseTrack` or by the backtrack step after a failed one. -/
inductive SearchReachable : List GeneratorInfo → Prop where
  | prologue (stack : List GeneratorInfo) :
      AddInitialTracks tracksToAdd [initialInfo] = some (true, stack) → SearchReachable stack
  | chosen (rand : Nat → Nat) (stack : List GeneratorInfo) (lastInfo : GeneratorInfo)
      (lastTrack : TrackDesignTrackElement) (nextPossibleTracks : List track_type_t) (k : Nat)
      (stack' : List GeneratorInfo) (failedTracks' : List track_type_t) (k' : Nat) :
      SearchReachable stack → stack.getLast? = some lastInfo →
      CheckEndCondition lastInfo = none → lastInfo.tracks.getLast? = some lastTrack →
      mapFind trackStateMachine lastTrack.type = some nextPossibleTracks →
      ChooseTrack rand stack lastInfo.failedTracks nextPossibleTracks k =
        some (true, stack', failedTracks', k') →
      SearchReachable (storeFailedTracks stack' (stack.length - 1) failedTracks')
  | backtracked (rand : Nat → Nat) (stack : List GeneratorInfo) (lastInfo : GeneratorInfo)
      (lastTrack : TrackDesignTrackElement) (nextPossibleTracks : List track_type_t) (k : Nat)
      (stack' : List GeneratorInfo) (failedTracks' : List track_type_t) (k' : Nat)
      (stack'' : List GeneratorInfo) :
      SearchReachable stack → stack.getLast? = some lastInfo →
      CheckEndCondition lastInfo = none → lastInfo.tracks.getLast? = some lastTrack →
      mapFind trackStateMachine lastTrack.type = some nextPossibleTracks →
      ChooseTrack rand stack lastInfo.failedTracks nextPossibleTracks k =
        some (false, stack', failedTracks', k') →
      Backtrack (storeFailedTracks stack' (stack.length - 1) failedTracks') lastTrack =
        some stack'' →
      SearchReachable stack''

/-- The piece id is one of the two vertical loops. -/
def IsVerticalLoop (t : track_type_t) : Prop :=
  t = TRACK_ELEM_LEFT_VERTICAL_LOOP ∨ t = TRACK_ELEM_RIGHT_VERTICAL_LOOP

/-- The oriented pieces `FLAT_TO_25_DEG_UP` and `LEFT_VERTICAL_LOOP` at heading east. -/
def loopPiece1 : TrackPiece := rotateTimes kEast trackPieceForFlatTo25DegUp

def loopPiece2 : TrackPiece := rotateTimes kEast (MirrorTrackPiece trackPieceForRightVerticalLoop)

/-- The frame that `FLAT_TO_25_DEG_UP` pushes on the initial frame; its anchor is `(0,5,1)`. -/
def loopFrame1 : GeneratorInfo :=
  pushWith initialInfo ⟨TRACK_ELEM_FLAT_TO_25_DEG_UP, 4⟩ loopPiece1

/-- The frame that `LEFT_VERTICAL_LOOP` pushes on top of that. -/
def loopFrame2 : GeneratorInfo :=
  pushWith loopFrame1 ⟨TRACK_ELEM_LEFT_VERTICAL_LOOP, 4⟩ loopPiece2

/-- A stack on which a vertical loop has been placed. -/
def loopStack : List GeneratorInfo := [initialInfo, loopFrame1, loopFrame2]

/-- The replay of a sequence of pieces on a grid: each piece is placed with `AddTrackToSpace` at
the current anchor and heading, then the anchor advances by the oriented exit of the piece and the
heading by its `dirStateMachine` entry; `none` as soon as a placement fails. -/
def Replay : Space → Coord → DirectionType → List TrackDesignTrackElement →
    Option (Space × Coord × DirectionType)
  | space, ptr, dir, [] => some (space, ptr, dir)
  | space, ptr, dir, track :: rest =>
    if (AddTrackToSpace space ptr dir track).1 = true then
      Replay (AddTrackToSpace space ptr dir track).2
        (AddCoords ptr (trackDataRotAt track.type dir).ptr) (newDirOf track.type dir) rest
    else none

/-- Two grids hold the same cells: they agree on every offset of the array of
`kSizeY * kSizeX * kSizeZ` cells. -/
def SameCells (a b : Space) : Prop :=
  ∀ i : Int, 0 ≤ i → i < kSizeY * kSizeX * kSizeZ → a i = b i

/-- The piece `cur` is listed in the successor list that `trackStateMachine` holds for the piece
`prev`. -/
def IsSuccessor (prev cur : TrackDesignTrackElement) : Prop :=
  ∃ states, mapFind trackStateMachine prev.type = some states ∧ cur.type ∈ states

/-- From the sixth piece of the sequence onward, every piece is a successor of the piece
immediately before it. -/
def FollowsSuccessors (tracks : List TrackDesignTrackElement) : Prop :=
  ∀ i prev cur, 5 ≤ i → tracks.get? (i - 1) = some prev → tracks.get? i = some cur →
    IsSuccessor prev cur

/-- The four station pieces with which the prologue starts. -/
def stationTracks : List TrackDesignTrackElement :=
  [⟨TRACK_ELEM_BEGIN_STATION, 4⟩, ⟨TRACK_ELEM_MIDDLE_STATION, 4⟩,
   ⟨TRACK_ELEM_MIDDLE_STATION, 4⟩, ⟨TRACK_ELEM_END_STATION, 4⟩]

/-- The sequence begins with the station, as far as it goes, and every element carries the
value 4. -/
def BeginsWithStation (tracks : List TrackDesignTrackElement) : Prop :=
  tracks.take 4 = stationTracks.take tracks.length ∧ ∀ e ∈ tracks, e.flags = 4

/-- The eleven successor lists of the source, `statesForTrackElemFlat` to
`statesForTrackElem60DegDown`. -/
def successorLists : List (List track_type_t) :=
  [statesForTrackElemFlat, statesForTrackElementLeftBank, statesForTrackElementRightBank,
   statesForTrackElem25DegUp, statesForTrackElem25DegUpLeftBanked,
   statesForTrackElem25DegUpRightBanked, statesForTrackElem60DegUp,
   statesForTrackElem25DegDown, statesForTrackElem25DegDownLeftBanked,
   statesForTrackElem25DegDownRightBanked, statesForTrackElem60DegDown]

/-- A number of iterations that suffices for the inner loop of `Generate`: at most
`kTryPerAttempt + 1` backtrack steps, and fewer than 222 pushes before the first and after each
of them. -/
def searchFuel : Nat := (kTryPerAttempt + 2) * 222

/-! # Theorems -/

/-! ### Cells and `ResolveCells` -/

theorem int_lor_comm (a b : Int) : Int.lor a b = Int.lor b a := by
  cases a <;> cases b <;> simp [Int.lor, Nat.lor_comm, Nat.land_comm]

theorem int_lor_zero (a : Int) : Int.lor a 0 = a := by
  cases a with
  | ofNat m => show Int.lor (Int.ofNat m) (Int.ofNat 0) = _; simp [Int.lor]
  | negSucc m => show Int.lor (Int.negSucc m) (Int.ofNat 0) = _; simp [Int.lor, Nat.ldiff]

theorem int_lor_bits (u v : Int) (hu : IsBit u) (hv : IsBit v) : Int.lor u v = bitOr u v := by
  rcases hu with rfl | rfl <;> rcases hv with rfl | rfl <;> decide

theorem ResolveCells_eq_none_iff (a b : Cell) : ResolveCells a b = none ↔ CellsCollide a b := by
  unfold ResolveCells CellsCollide
  by_cases g0 : a.c00 = 1 ∧ b.c00 = 1 <;> by_cases g1 : a.c01 = 1 ∧ b.c01 = 1 <;>
    by_cases g2 : a.c10 = 1 ∧ b.c10 = 1 <;> by_cases g3 : a.c11 = 1 ∧ b.c11 = 1 <;>
    simp only [g0, g1, g2, g3, if_true, if_false, or_true, true_or, or_false, false_or] <;>
    simp

theorem ResolveCells_of_not_collide (a b : Cell) (h : ¬ CellsCollide a b) :
    ResolveCells a b = some ⟨Int.lor a.c00 b.c00, Int.lor a.c01 b.c01,
                             Int.lor a.c10 b.c10, Int.lor a.c11 b.c11⟩ := by
  unfold CellsCollide at h
  simp only [not_or] at h
  obtain ⟨h0, h1, h2, h3⟩ := h
  unfold ResolveCells
  rw [if_neg h0, if_neg h1, if_neg h2, if_neg h3]

theorem ResolveCells_eq_some (a b c : Cell) (h : ResolveCells a b = some c) :
    ¬ CellsCollide a b ∧ c = ⟨Int.lor a.c00 b.c00, Int.lor a.c01 b.c01,
                             Int.lor a.c10 b.c10, Int.lor a.c11 b.c11⟩ := by
  have hn : ¬ CellsCollide a b := by
    intro hc
    rw [(ResolveCells_eq_none_iff a b).mpr hc] at h
    exact Option.noConfusion h
  refine ⟨hn, ?_⟩
  rw [ResolveCells_of_not_collide a b hn] at h
  exact (Option.some.inj h).symm

/-- C7: for cells `a` and `b` whose quadrants are `0` or `1`, `ResolveCells a b` is `none` exactly
when some quadrant is set in both, and otherwise it is the cell whose every quadrant is the
bitwise or of the two inputs (which is `1` exactly when one of the two quadrants is `1`). -/
theorem ResolveCells_bits (a b : Cell) (ha : IsBitCell a) (hb : IsBitCell b) :
    (ResolveCells a b = none ↔ CellsCollide a b) ∧
    (¬ CellsCollide a b →
      ResolveCells a b = some ⟨Int.lor a.c00 b.c00, Int.lor a.c01 b.c01,
                               Int.lor a.c10 b.c10, Int.lor a.c11 b.c11⟩ ∧
      ResolveCells a b = some ⟨bitOr a.c00 b.c00, bitOr a.c01 b.c01,
                               bitOr a.c10 b.c10, bitOr a.c11 b.c11⟩) := by
  obtain ⟨a0, a1, a2, a3⟩ := ha
  obtain ⟨b0, b1, b2, b3⟩ := hb
  refine ⟨ResolveCells_eq_none_iff a b, fun hc => ?_⟩
  have hr := ResolveCells_of_not_collide a b hc
  refine ⟨hr, ?_⟩
  rw [hr, int_lor_bits _ _ a0 b0, int_lor_bits _ _ a1 b1, int_lor_bits _ _ a2 b2,
    int_lor_bits _ _ a3 b3]

/-- Witness for C7 at `a = {1,0,0,0}`, `b = {0,1,0,1}`. -/
theorem ResolveCells_bits_witness :
    IsBitCell ⟨1, 0, 0, 0⟩ ∧ IsBitCell ⟨0, 1, 0, 1⟩ ∧
    ((ResolveCells ⟨1, 0, 0, 0⟩ ⟨0, 1, 0, 1⟩ = none ↔ CellsCollide ⟨1, 0, 0, 0⟩ ⟨0, 1, 0, 1⟩) ∧
     (¬ CellsCollide ⟨1, 0, 0, 0⟩ ⟨0, 1, 0, 1⟩ →
      ResolveCells ⟨1, 0, 0, 0⟩ ⟨0, 1, 0, 1⟩ =
        some ⟨Int.lor 1 0, Int.lor 0 1, Int.lor 0 0, Int.lor 0 1⟩ ∧
      ResolveCells ⟨1, 0, 0, 0⟩ ⟨0, 1, 0, 1⟩ =
        some ⟨bitOr 1 0, bitOr 0 1, bitOr 0 0, bitOr 0 1⟩)) :=
  ⟨by decide, by decide, ResolveCells_bits ⟨1, 0, 0, 0⟩ ⟨0, 1, 0, 1⟩ (by decide) (by decide)⟩

/-- C8: `ResolveCells` is symmetric in its two arguments, and resolving any cell against the
empty cell `{0,0,0,0}` returns exactly that cell, never a collision. -/
theorem ResolveCells_comm_zero (a b : Cell) :
    ResolveCells a b = ResolveCells b a ∧ ResolveCells a ⟨0, 0, 0, 0⟩ = some a := by
  constructor
  · unfold ResolveCells
    simp only [int_lor_comm a.c00, int_lor_comm a.c01, int_lor_comm a.c10, int_lor_comm a.c11,
      and_comm (a := a.c00 = 1), and_comm (a := a.c01 = 1), and_comm (a := a.c10 = 1),
      and_comm (a := a.c11 = 1)]
  · unfold ResolveCells
    simp [int_lor_zero]

/-! ### Rotation and mirror -/

/-- C9: four applications of `RotateTrackPiece` give back the piece: the cells in their order,
with their coordinates and quadrants, and the exit offset. -/
theorem RotateTrackPiece_four (p : TrackPiece) :
    RotateTrackPiece (RotateTrackPiece (RotateTrackPiece (RotateTrackPiece p))) = p := by
  have hc : ∀ tc : TrackCell,
      RotateTrackCell (RotateTrackCell (RotateTrackCell (RotateTrackCell tc))) = tc := by
    intro tc
    simp [RotateTrackCell, RotateCoord]
  obtain ⟨shape, ptr⟩ := p
  simp only [RotateTrackPiece, List.map_map, TrackPiece.mk.injEq]
  constructor
  · have : (RotateTrackCell ∘ RotateTrackCell ∘ RotateTrackCell ∘ RotateTrackCell) = id := by
      funext tc
      exact hc tc
    rw [this, List.map_id]
  · simp [RotateCoord]

/-- C10: two applications of `MirrorTrackPiece` give back the piece: coordinates, quadrants and
exit offset. -/
theorem MirrorTrackPiece_two (p : TrackPiece) :
    MirrorTrackPiece (MirrorTrackPiece p) = p := by
  obtain ⟨shape, ptr⟩ := p
  simp only [MirrorTrackPiece, List.map_map, TrackPiece.mk.injEq]
  constructor
  · have : (MirrorTrackCell ∘ MirrorTrackCell) = id := by
      funext tc
      simp [MirrorTrackCell, MirrorCoord]
    rw [this, List.map_id]
  · simp [MirrorCoord]

/-! ### The end condition and the search loop -/

theorem CheckEndCondition_eq_some_true (info : GeneratorInfo) :
    CheckEndCondition info = some true ↔
      info.ptr = ⟨0, 3, 0⟩ ∧ info.dir = kEast ∧ kMinimumTrackSize < info.tracks.length := by
  unfold CheckEndCondition endCoord
  by_cases h : info.ptr = ⟨0, 3, 0⟩ ∧ info.dir = kEast
  · rw [if_pos h]
    simp [h.1, h.2]
  · rw [if_neg h]
    constructor
    · intro hc
      exact Option.noConfusion hc
    · intro hc
      exact absurd ⟨hc.1, hc.2.1⟩ h

/-- Whenever the search loop is left with `success = true`, the stack it leaves has a top frame
and the end-condition test succeeds on that frame. -/
theorem SearchLoop_finished_true (rand : Nat → Nat) (fuel : Nat) :
    ∀ (stack : List GeneratorInfo) (steps k : Nat) (stack' : List GeneratorInfo) (steps' k' : Nat),
      SearchLoop rand fuel stack steps k = SearchResult.finished true stack' steps' k' →
      ∃ top, stack'.getLast? = some top ∧ CheckEndCondition top = some true := by
  induction fuel with
  | zero =>
    intro stack steps k stack' steps' k' h
    simp [SearchLoop] at h
  | succ fuel ih =>
    intro stack steps k stack' steps' k' h
    unfold SearchLoop at h
    split at h
    · exact SearchResult.noConfusion h
    · rename_i lastInfo hlast
      split at h
      · rename_i success hend
        injection h with h1 h2 h3 h4
        subst h1 h2
        exact ⟨lastInfo, hlast, hend⟩
      · split at h
        · exact SearchResult.noConfusion h
        · split at h
          · exact SearchResult.noConfusion h
          · split at h
            · exact SearchResult.noConfusion h
            · exact ih _ _ _ _ _ _ h
            · split at h
              · exact SearchResult.noConfusion h
              · split at h
                · injection h with h1
                  exact Bool.noConfusion h1
                · exact ih _ _ _ _ _ _ h

/-- C2: whenever the search loop of `Generate` is left with `success = true`, the top frame of
the stack, whose sequence is the one returned, has anchor `(0,3,0)` and heading east. -/
theorem SearchLoop_success_pose (rand : Nat → Nat) (fuel : Nat) (stack : List GeneratorInfo)
    (steps k : Nat) (stack' : List GeneratorInfo) (steps' k' : Nat)
    (h : SearchLoop rand fuel stack steps k = SearchResult.finished true stack' steps' k') :
    ∃ top, stack'.getLast? = some top ∧ top.ptr = ⟨0, 3, 0⟩ ∧ top.dir = kEast := by
  obtain ⟨top, htop, hend⟩ := SearchLoop_finished_true rand fuel stack steps k stack' steps' k' h
  have hc := (CheckEndCondition_eq_some_true top).mp hend
  exact ⟨top, htop, hc.1, hc.2.1⟩

/-- Witness for C2: the loop started on a stack whose single frame is at the end pose with 101
pieces. -/
theorem SearchLoop_success_pose_witness :
    SearchLoop (fun _ => 0) 1 [endFrame 101] 0 0 = SearchResult.finished true [endFrame 101] 0 0 ∧
    ∃ top, [endFrame 101].getLast? = some top ∧ top.ptr = ⟨0, 3, 0⟩ ∧ top.dir = kEast :=
  ⟨rfl, SearchLoop_success_pose (fun _ => 0) 1 [endFrame 101] 0 0 [endFrame 101] 0 0 rfl⟩

/-- Whenever the search loop of `Generate` is left with `success = true`, the sequence of the
top frame holds at least 101 pieces. -/
theorem SearchLoop_finished_length (rand : Nat → Nat) (fuel : Nat) (stack : List GeneratorInfo)
    (steps k : Nat) (stack' : List GeneratorInfo) (steps' k' : Nat)
    (h : SearchLoop rand fuel stack steps k = SearchResult.finished true stack' steps' k') :
    ∃ top, stack'.getLast? = some top ∧ 101 ≤ top.tracks.length := by
  obtain ⟨top, htop, hend⟩ := SearchLoop_finished_true rand fuel stack steps k stack' steps' k' h
  have hc := (CheckEndCondition_eq_some_true top).mp hend
  exact ⟨top, htop, hc.2.2⟩

/-- C4 as stated fails: at the end pose with exactly 100 pieces the test does not report success,
although the anchor is `(0,3,0)`, the heading is east and 100 pieces have been placed. -/
theorem CheckEndCondition_hundred_fails :
    ¬ (CheckEndCondition (endFrame 100) = some true ↔
        ((endFrame 100).ptr = ⟨0, 3, 0⟩ ∧ (endFrame 100).dir = kEast ∧
          100 ≤ (endFrame 100).tracks.length)) := by
  decide

/-- C4, amended: the end-condition test reports success if and only if the anchor of the frame is
`(0,3,0)`, its heading is east, and more than 100 pieces (at least 101) have been placed. -/
theorem CheckEndCondition_success_iff (info : GeneratorInfo) :
    CheckEndCondition info = some true ↔
      info.ptr = ⟨0, 3, 0⟩ ∧ info.dir = kEast ∧ 101 ≤ info.tracks.length :=
  CheckEndCondition_eq_some_true info

/-! ### Bounds and the linear index -/

theorem OutOfBounds_eq_false_iff (c : Coord) :
    OutOfBounds c = false ↔
      0 ≤ c.y ∧ c.y < kSizeY ∧ 0 ≤ c.x ∧ c.x < kSizeX ∧ 0 ≤ c.z ∧ c.z < kSizeZ := by
  unfold OutOfBounds
  by_cases hy : c.y < 0 ∨ c.y ≥ kSizeY
  · rw [if_pos hy]
    constructor
    · intro h
      exact Bool.noConfusion h
    · intro h
      rcases hy with hy | hy <;> omega
  · rw [if_neg hy]
    by_cases hx : c.x < 0 ∨ c.x ≥ kSizeX
    · rw [if_pos hx]
      constructor
      · intro h
        exact Bool.noConfusion h
      · intro h
        rcases hx with hx | hx <;> omega
    · rw [if_neg hx]
      by_cases hz : c.z < 0 ∨ c.z ≥ kSizeZ
      · rw [if_pos hz]
        constructor
        · intro h
          exact Bool.noConfusion h
        · intro h
          rcases hz with hz | hz <;> omega
      · rw [if_neg hz]
        simp only [true_iff]
        omega

theorem linearIndex_range (c : Coord) (h : OutOfBounds c = false) :
    0 ≤ linearIndex c ∧ linearIndex c < kSizeY * kSizeX * kSizeZ := by
  have hb := (OutOfBounds_eq_false_iff c).mp h
  unfold linearIndex
  simp only [kSizeX, kSizeY, kSizeZ] at hb ⊢
  omega

theorem linearIndex_inj (c c' : Coord) (h : OutOfBounds c = false) (h' : OutOfBounds c' = false)
    (he : linearIndex c = linearIndex c') : c = c' := by
  have hb := (OutOfBounds_eq_false_iff c).mp h
  have hb' := (OutOfBounds_eq_false_iff c').mp h'
  unfold linearIndex at he
  simp only [kSizeX, kSizeY, kSizeZ] at hb hb' he
  obtain ⟨y, x, z⟩ := c
  obtain ⟨y', x', z'⟩ := c'
  simp only at hb hb' he
  have hz : z = z' := by omega
  have hy : y = y' := by omega
  have hx : x = x' := by omega
  subst hz hy hx
  rfl

theorem ReadSpace_WriteSpace_same (space : Space) (p : Coord) (v : Cell) :
    ReadSpace (WriteSpace space p v) p = v := by
  simp [ReadSpace, WriteSpace]

theorem ReadSpace_WriteSpace_other (space : Space) (p q : Coord) (v : Cell)
    (hp : OutOfBounds p = false) (hq : OutOfBounds q = false) (hne : q ≠ p) :
    ReadSpace (WriteSpace space p v) q = ReadSpace space q := by
  have hi : linearIndex q ≠ linearIndex p := fun he => hne (linearIndex_inj q p hq hp he)
  simp [ReadSpace, WriteSpace, hi]

theorem AddCoords_left_cancel (p a b : Coord) (h : AddCoords p a = AddCoords p b) : a = b := by
  obtain ⟨ay, ax, az⟩ := a
  obtain ⟨b1, b2, b3⟩ := b
  simp only [AddCoords, Coord.mk.injEq] at h
  obtain ⟨h1, h2, h3⟩ := h
  have e1 : ay = b1 := by omega
  have e2 : ax = b2 := by omega
  have e3 : az = b3 := by omega
  subst e1 e2 e3
  rfl

/-! ### The loop of `AddTrackToSpace` -/

theorem AddTrackToSpaceLoop_nil (ptr : Coord) (space : Space) :
    AddTrackToSpaceLoop ptr [] space = (true, space) := rfl

theorem AddTrackToSpaceLoop_cons_oob (ptr : Coord) (tc : TrackCell) (rest : List TrackCell)
    (space : Space) (h : OutOfBounds (AddCoords ptr tc.coord) = true) :
    AddTrackToSpaceLoop ptr (tc :: rest) space = (false, space) := by
  simp [AddTrackToSpaceLoop, AddTrackToSpaceTraced, h]

theorem AddTrackToSpaceLoop_cons_none (ptr : Coord) (tc : TrackCell) (rest : List TrackCell)
    (space : Space) (h : OutOfBounds (AddCoords ptr tc.coord) = false)
    (hr : ResolveCells (ReadSpace space (AddCoords ptr tc.coord)) tc.cell = none) :
    AddTrackToSpaceLoop ptr (tc :: rest) space = (false, space) := by
  simp [AddTrackToSpaceLoop, AddTrackToSpaceTraced, h, hr]

theorem AddTrackToSpaceLoop_cons_some (ptr : Coord) (tc : TrackCell) (rest : List TrackCell)
    (space : Space) (newCell : Cell) (h : OutOfBounds (AddCoords ptr tc.coord) = false)
    (hr : ResolveCells (ReadSpace space (AddCoords ptr tc.coord)) tc.cell = some newCell) :
    AddTrackToSpaceLoop ptr (tc :: rest) space =
      AddTrackToSpaceLoop ptr rest (WriteSpace space (AddCoords ptr tc.coord) newCell) := by
  simp [AddTrackToSpaceLoop, AddTrackToSpaceTraced, h, hr]

/-- What a successful run of the loop on `tc :: rest` went through. -/
theorem AddTrackToSpaceLoop_cons_true (ptr : Coord) (tc : TrackCell) (rest : List TrackCell)
    (space space' : Space) (h : AddTrackToSpaceLoop ptr (tc :: rest) space = (true, space')) :
    OutOfBounds (AddCoords ptr tc.coord) = false ∧
    ∃ newCell, ResolveCells (ReadSpace space (AddCoords ptr tc.coord)) tc.cell = some newCell ∧
      AddTrackToSpaceLoop ptr rest (WriteSpace space (AddCoords ptr tc.coord) newCell)
        = (true, space') := by
  cases ho : OutOfBounds (AddCoords ptr tc.coord) with
  | true =>
    rw [AddTrackToSpaceLoop_cons_oob ptr tc rest space ho] at h
    simp at h
  | false =>
    refine ⟨rfl, ?_⟩
    cases hr : ResolveCells (ReadSpace space (AddCoords ptr tc.coord)) tc.cell with
    | none =>
      rw [AddTrackToSpaceLoop_cons_none ptr tc rest space ho hr] at h
      simp at h
    | some newCell =>
      rw [AddTrackToSpaceLoop_cons_some ptr tc rest space newCell ho hr] at h
      exact ⟨newCell, rfl, h⟩

theorem AddTrackToSpaceTraced_in_bounds (ptr : Coord) (shape : List TrackCell) :
    ∀ (space : Space), ∀ c ∈ (AddTrackToSpaceTraced ptr shape space).2, OutOfBounds c = false := by
  induction shape with
  | nil =>
    intro space c hc
    simp [AddTrackToSpaceTraced] at hc
  | cons tc rest ih =>
    intro space c hc
    unfold AddTrackToSpaceTraced at hc
    cases ho : OutOfBounds (AddCoords ptr tc.coord) with
    | true => simp [ho] at hc
    | false =>
      cases hr : ResolveCells (ReadSpace space (AddCoords ptr tc.coord)) tc.cell with
      | none =>
        simp [ho, hr] at hc
        rw [hc]
        exact ho
      | some newCell =>
        simp only [ho, hr, Bool.false_eq_true, if_false, List.mem_cons] at hc
        rcases hc with hc | hc | hc
        · rw [hc]; exact ho
        · rw [hc]; exact ho
        · exact ih _ c hc

/-- C5: every coordinate that `AddTrackToSpace` hands to `ReadSpace` or `WriteSpace`, for any
grid, anchor, heading and piece, lies in `[0,9) × [0,12) × [0,11)`, and the linear index computed
from it lies inside the array of `9 * 12 * 11` cells. -/
theorem AddTrackToSpace_accesses_in_bounds (space : Space) (ptr : Coord) (dir : DirectionType)
    (track : TrackDesignTrackElement) (c : Coord)
    (hc : c ∈ AddTrackToSpaceAccesses space ptr dir track) :
    (0 ≤ c.y ∧ c.y < 9 ∧ 0 ≤ c.x ∧ c.x < 12 ∧ 0 ≤ c.z ∧ c.z < 11) ∧
    0 ≤ linearIndex c ∧ linearIndex c < 9 * 12 * 11 := by
  have ho := AddTrackToSpaceTraced_in_bounds ptr (trackDataRotAt track.type dir).shape space c hc
  exact ⟨(OutOfBounds_eq_false_iff c).mp ho, linearIndex_range c ho⟩

/-- Witness for C5: placing `FLAT` at `(0,4,0)` heading east on the initial grid accesses
`(0,4,1)`. -/
theorem AddTrackToSpace_accesses_in_bounds_witness :
    (⟨0, 4, 1⟩ : Coord) ∈ AddTrackToSpaceAccesses initialSpace ⟨0, 4, 0⟩ kEast ⟨TRACK_ELEM_FLAT, 4⟩ ∧
    ((0 ≤ (⟨0, 4, 1⟩ : Coord).y ∧ (⟨0, 4, 1⟩ : Coord).y < 9 ∧ 0 ≤ (⟨0, 4, 1⟩ : Coord).x ∧
      (⟨0, 4, 1⟩ : Coord).x < 12 ∧ 0 ≤ (⟨0, 4, 1⟩ : Coord).z ∧ (⟨0, 4, 1⟩ : Coord).z < 11) ∧
     0 ≤ linearIndex ⟨0, 4, 1⟩ ∧ linearIndex ⟨0, 4, 1⟩ < 9 * 12 * 11) :=
  ⟨by decide!, AddTrackToSpace_accesses_in_bounds initialSpace ⟨0, 4, 0⟩ kEast ⟨TRACK_ELEM_FLAT, 4⟩
    ⟨0, 4, 1⟩ (by decide!)⟩

/-! ### Association lists -/

theorem mapFind_mapAssign_same {K V : Type} [DecidableEq K] (m : List (K × V)) (k : K) (v : V) :
    mapFind (mapAssign m k v) k = some v := by
  induction m with
  | nil => simp [mapAssign, mapFind]
  | cons e rest ih =>
    obtain ⟨k', v'⟩ := e
    by_cases h : k' = k
    · simp [mapAssign, mapFind, h]
    · simp [mapAssign, mapFind, h, ih]

theorem mapFind_mapAssign_other {K V : Type} [DecidableEq K] (m : List (K × V)) (k k' : K)
    (v : V) (hne : k ≠ k') : mapFind (mapAssign m k v) k' = mapFind m k' := by
  induction m with
  | nil => simp [mapAssign, mapFind, hne]
  | cons e rest ih =>
    obtain ⟨k0, v0⟩ := e
    by_cases h : k0 = k
    · subst h
      simp [mapAssign, mapFind, hne]
    · by_cases h' : k0 = k'
      · subst h'
        simp [mapAssign, mapFind, h]
      · simp [mapAssign, mapFind, h, h', ih]

theorem mapFind_eq_none_of_not_mem {K V : Type} [DecidableEq K] (m : List (K × V)) (k : K)
    (h : k ∉ m.map Prod.fst) : mapFind m k = none := by
  induction m with
  | nil => rfl
  | cons e rest ih =>
    obtain ⟨k0, v0⟩ := e
    simp only [List.map_cons, List.mem_cons, not_or] at h
    have h0 : ¬ k0 = k := fun he => h.1 he.symm
    simp [mapFind, h0, ih h.2]

theorem mem_of_mapFind_eq_some {K V : Type} [DecidableEq K] (m : List (K × V)) (k : K) (v : V)
    (h : mapFind m k = some v) : (k, v) ∈ m := by
  induction m with
  | nil => simp [mapFind] at h
  | cons e rest ih =>
    obtain ⟨k0, v0⟩ := e
    by_cases h0 : k0 = k
    · simp [mapFind, h0] at h
      simp [h0, h]
    · simp [mapFind, h0] at h
      exact List.mem_cons_of_mem _ (ih h)

/-! ### The rotation loop in closed form -/

theorem mapFind_GenerateRotatedEntry (rot : List ((track_type_t × DirectionType) × TrackPiece))
    (t t' : track_type_t) (p : TrackPiece) (d : DirectionType) :
    mapFind (GenerateRotatedEntry rot t p) (t', d) =
      if t = t' then some (rotateTimes d p) else mapFind rot (t', d) := by
  by_cases h : t = t'
  · subst h
    rw [if_pos rfl]
    cases d <;>
      simp [GenerateRotatedEntry, List.foldl, rotateTimes, mapFind_mapAssign_same,
        mapFind_mapAssign_other]
  · rw [if_neg h]
    have hne : ∀ d0 : DirectionType, (t, d0) ≠ (t', d) := by
      intro d0 he
      exact h (Prod.mk.inj he).1
    simp [GenerateRotatedEntry, List.foldl, mapFind_mapAssign_other, hne]

theorem mapFind_foldl_GenerateRotatedEntry (td : List (track_type_t × TrackPiece)) :
    ∀ (rot : List ((track_type_t × DirectionType) × TrackPiece)) (t : track_type_t)
      (d : DirectionType), (td.map Prod.fst).Nodup →
      mapFind (td.foldl (fun rot e => GenerateRotatedEntry rot e.1 e.2) rot) (t, d) =
        match mapFind td t with
        | some p => some (rotateTimes d p)
        | none => mapFind rot (t, d) := by
  induction td with
  | nil =>
    intro rot t d _
    simp [mapFind]
  | cons e rest ih =>
    intro rot t d hnd
    obtain ⟨t0, p0⟩ := e
    simp only [List.map_cons, List.nodup_cons] at hnd
    rw [List.foldl_cons, ih _ t d hnd.2]
    by_cases h : t0 = t
    · subst h
      have hn := mapFind_eq_none_of_not_mem rest t0 hnd.1
      simp [mapFind, hn, mapFind_GenerateRotatedEntry]
    · simp only [mapFind, h, if_false]
      cases hr : mapFind rest t with
      | some p => rfl
      | none => simp [mapFind_GenerateRotatedEntry, h]

theorem trackDataMirrored_keys_nodup : (trackDataMirrored.map Prod.fst).Nodup := by
  decide!

theorem rotateTimes_emptyTrackPiece (d : DirectionType) :
    rotateTimes d emptyTrackPiece = emptyTrackPiece := by
  cases d <;> rfl

/-- The catalogue entry for a piece and a heading is the mirrored-data entry of the piece,
rotated once for east, twice for south and three times for west. -/
theorem trackDataRotAt_eq (t : track_type_t) (d : DirectionType) :
    trackDataRotAt t d = rotateTimes d (trackDataAt t) := by
  unfold trackDataRotAt trackDataAt trackDataRot GenerateRotatedData
  rw [mapFind_foldl_GenerateRotatedEntry trackDataMirrored [] t d trackDataMirrored_keys_nodup]
  cases h : mapFind trackDataMirrored t with
  | some p => rfl
  | none => simp [mapFind, rotateTimes_emptyTrackPiece]

/-! ### Well-formed pieces -/

theorem RotateCoord_injective : Function.Injective RotateCoord := by
  intro a b h
  obtain ⟨ay, ax, az⟩ := a
  obtain ⟨b1, b2, b3⟩ := b
  simp only [RotateCoord, Coord.mk.injEq] at h
  obtain ⟨h1, h2, h3⟩ := h
  have e1 : ax = b2 := by omega
  subst e1 h2 h3
  rfl

theorem WellFormedPiece_rotate (p : TrackPiece) (h : WellFormedPiece p) :
    WellFormedPiece (RotateTrackPiece p) := by
  obtain ⟨hn, hb⟩ := h
  constructor
  · have : (RotateTrackPiece p).shape.map (fun tc => tc.coord) =
        (p.shape.map (fun tc => tc.coord)).map RotateCoord := by
      simp [RotateTrackPiece, RotateTrackCell, List.map_map, Function.comp_def]
    rw [this]
    exact hn.map RotateCoord_injective
  · intro tc htc
    simp only [RotateTrackPiece, List.mem_map] at htc
    obtain ⟨tc0, h0, rfl⟩ := htc
    obtain ⟨b0, b1, b2, b3⟩ := hb tc0 h0
    exact ⟨b1, b3, b0, b2⟩

theorem WellFormedPiece_rotateTimes (d : DirectionType) (p : TrackPiece) (h : WellFormedPiece p) :
    WellFormedPiece (rotateTimes d p) := by
  cases d
  · exact h
  · exact WellFormedPiece_rotate _ h
  · exact WellFormedPiece_rotate _ (WellFormedPiece_rotate _ h)
  · exact WellFormedPiece_rotate _ (WellFormedPiece_rotate _ (WellFormedPiece_rotate _ h))

theorem trackDataMirrored_wellFormed : ∀ e ∈ trackDataMirrored, WellFormedPiece e.2 := by
  decide!

/-- Every catalogue entry, for every piece and heading, has pairwise distinct footprint
coordinates and bit-valued quadrants. -/
theorem trackDataRotAt_wellFormed (t : track_type_t) (d : DirectionType) :
    WellFormedPiece (trackDataRotAt t d) := by
  rw [trackDataRotAt_eq]
  apply WellFormedPiece_rotateTimes
  unfold trackDataAt
  cases h : mapFind trackDataMirrored t with
  | some p => exact trackDataMirrored_wellFormed (t, p) (mem_of_mapFind_eq_some _ _ _ h)
  | none => exact ⟨List.nodup_nil, fun tc htc => absurd htc (List.not_mem_nil tc)⟩

/-! ### Placement of a piece with pairwise distinct footprint coordinates -/

theorem ResolveCells_eq_some_cellOr (a b c : Cell) (h : ResolveCells a b = some c) :
    c = cellOr a b :=
  (ResolveCells_eq_some a b c h).2

theorem AddTrackToSpaceLoop_true_in_bounds (ptr : Coord) (shape : List TrackCell) :
    ∀ (space space' : Space), AddTrackToSpaceLoop ptr shape space = (true, space') →
      ∀ tc ∈ shape, OutOfBounds (AddCoords ptr tc.coord) = false := by
  induction shape with
  | nil =>
    intro space space' _ tc htc
    exact absurd htc (List.not_mem_nil tc)
  | cons tc0 rest ih =>
    intro space space' h tc htc
    obtain ⟨ho, newCell, _, hrest⟩ := AddTrackToSpaceLoop_cons_true ptr tc0 rest space space' h
    rcases List.mem_cons.mp htc with rfl | hmem
    · exact ho
    · exact ih _ _ hrest tc hmem

theorem AddTrackToSpaceLoop_nodup_iff (ptr : Coord) (shape : List TrackCell) :
    ∀ (space : Space), (shape.map (fun tc => tc.coord)).Nodup →
      ((AddTrackToSpaceLoop ptr shape space).1 = true ↔
        ∀ tc ∈ shape, OutOfBounds (AddCoords ptr tc.coord) = false ∧
          ResolveCells (ReadSpace space (AddCoords ptr tc.coord)) tc.cell ≠ none) := by
  induction shape with
  | nil =>
    intro space _
    simp [AddTrackToSpaceLoop_nil]
  | cons tc0 rest ih =>
    intro space hnd
    simp only [List.map_cons, List.nodup_cons] at hnd
    obtain ⟨hnot, hnd'⟩ := hnd
    cases ho : OutOfBounds (AddCoords ptr tc0.coord) with
    | true =>
      rw [AddTrackToSpaceLoop_cons_oob ptr tc0 rest space ho]
      constructor
      · intro h
        exact Bool.noConfusion h
      · intro h
        have := (h tc0 (List.mem_cons_self _ _)).1
        rw [ho] at this
        exact Bool.noConfusion this
    | false =>
      cases hr : ResolveCells (ReadSpace space (AddCoords ptr tc0.coord)) tc0.cell with
      | none =>
        rw [AddTrackToSpaceLoop_cons_none ptr tc0 rest space ho hr]
        constructor
        · intro h
          exact Bool.noConfusion h
        · intro h
          exact absurd hr (h tc0 (List.mem_cons_self _ _)).2
      | some newCell =>
        rw [AddTrackToSpaceLoop_cons_some ptr tc0 rest space newCell ho hr, ih _ hnd']
        have hread : ∀ tc ∈ rest, OutOfBounds (AddCoords ptr tc.coord) = false →
            ReadSpace (WriteSpace space (AddCoords ptr tc0.coord) newCell) (AddCoords ptr tc.coord)
              = ReadSpace space (AddCoords ptr tc.coord) := by
          intro tc htc hob
          apply ReadSpace_WriteSpace_other _ _ _ _ ho hob
          intro he
          have hc : tc.coord = tc0.coord := AddCoords_left_cancel ptr _ _ he
          apply hnot
          rw [← hc]
          exact List.mem_map_of_mem _ htc
        constructor
        · intro h tc htc
          rcases List.mem_cons.mp htc with rfl | hmem
          · refine ⟨ho, ?_⟩
            rw [hr]
            exact Option.some_ne_none newCell
          · have h1 := h tc hmem
            refine ⟨h1.1, ?_⟩
            rw [← hread tc hmem h1.1]
            exact h1.2
        · intro h tc htc
          have h1 := h tc (List.mem_cons_of_mem _ htc)
          refine ⟨h1.1, ?_⟩
          rw [hread tc htc h1.1]
          exact h1.2

theorem AddTrackToSpaceLoop_nodup_result (ptr : Coord) (shape : List TrackCell) :
    ∀ (space space' : Space), (shape.map (fun tc => tc.coord)).Nodup →
      AddTrackToSpaceLoop ptr shape space = (true, space') →
      (∀ tc ∈ shape, ReadSpace space' (AddCoords ptr tc.coord) =
          cellOr (ReadSpace space (AddCoords ptr tc.coord)) tc.cell) ∧
      (∀ i : Int, (∀ tc ∈ shape, i ≠ linearIndex (AddCoords ptr tc.coord)) → space' i = space i) := by
  induction shape with
  | nil =>
    intro space space' _ h
    rw [AddTrackToSpaceLoop_nil] at h
    have hs : space = space' := (Prod.mk.inj h).2
    subst hs
    exact ⟨fun tc htc => absurd htc (List.not_mem_nil tc), fun i _ => rfl⟩
  | cons tc0 rest ih =>
    intro space space' hnd h
    simp only [List.map_cons, List.nodup_cons] at hnd
    obtain ⟨hnot, hnd'⟩ := hnd
    obtain ⟨ho, newCell, hr, hrest⟩ := AddTrackToSpaceLoop_cons_true ptr tc0 rest space space' h
    have hin := AddTrackToSpaceLoop_true_in_bounds ptr rest _ _ hrest
    obtain ⟨ih1, ih2⟩ := ih _ _ hnd' hrest
    have hne : ∀ tc ∈ rest, AddCoords ptr tc.coord ≠ AddCoords ptr tc0.coord := by
      intro tc htc he
      have hc : tc.coord = tc0.coord := AddCoords_left_cancel ptr _ _ he
      apply hnot
      rw [← hc]
      exact List.mem_map_of_mem _ htc
    have hidx : ∀ tc ∈ rest,
        linearIndex (AddCoords ptr tc0.coord) ≠ linearIndex (AddCoords ptr tc.coord) := by
      intro tc htc he
      exact hne tc htc (linearIndex_inj _ _ (hin tc htc) ho he.symm)
    constructor
    · intro tc htc
      rcases List.mem_cons.mp htc with rfl | hmem
      · have h1 : space' (linearIndex (AddCoords ptr tc.coord)) =
            WriteSpace space (AddCoords ptr tc.coord) newCell (linearIndex (AddCoords ptr tc.coord)) :=
          ih2 _ hidx
        have h2 : ReadSpace space' (AddCoords ptr tc.coord) = newCell := by
          unfold ReadSpace
          rw [h1]
          simp [WriteSpace]
        rw [h2]
        exact ResolveCells_eq_some_cellOr _ _ _ hr
      · rw [ih1 tc hmem, ReadSpace_WriteSpace_other _ _ _ _ ho (hin tc hmem) (hne tc hmem)]
    · intro i hi
      have h0 : i ≠ linearIndex (AddCoords ptr tc0.coord) := hi tc0 (List.mem_cons_self _ _)
      rw [ih2 i (fun tc htc => hi tc (List.mem_cons_of_mem _ htc))]
      simp [WriteSpace, h0]

/-- C6: for every grid, anchor, heading and catalogue piece, `AddTrackToSpace` returns `true` if
and only if every absolute coordinate `anchor + cell.coord` of the oriented footprint is in bounds
and `ResolveCells` of the prior cell of the grid there with the footprint cell is not a collision;
and when it returns `true`, the resulting grid holds at each footprint coordinate the or of the
prior cell with the footprint cell and is unchanged at every other coordinate (indeed at every
other array index). -/
theorem AddTrackToSpace_true_iff_and_result (space : Space) (ptr : Coord) (dir : DirectionType)
    (track : TrackDesignTrackElement) :
    ((AddTrackToSpace space ptr dir track).1 = true ↔
      ∀ tc ∈ (trackDataRotAt track.type dir).shape,
        OutOfBounds (AddCoords ptr tc.coord) = false ∧
        ResolveCells (ReadSpace space (AddCoords ptr tc.coord)) tc.cell ≠ none) ∧
    ((AddTrackToSpace space ptr dir track).1 = true →
      (∀ tc ∈ (trackDataRotAt track.type dir).shape,
        ReadSpace (AddTrackToSpace space ptr dir track).2 (AddCoords ptr tc.coord) =
          cellOr (ReadSpace space (AddCoords ptr tc.coord)) tc.cell) ∧
      (∀ q : Coord, OutOfBounds q = false →
        (∀ tc ∈ (trackDataRotAt track.type dir).shape, q ≠ AddCoords ptr tc.coord) →
        ReadSpace (AddTrackToSpace space ptr dir track).2 q = ReadSpace space q) ∧
      (∀ i : Int,
        (∀ tc ∈ (trackDataRotAt track.type dir).shape, i ≠ linearIndex (AddCoords ptr tc.coord)) →
        (AddTrackToSpace space ptr dir track).2 i = space i)) := by
  have hnd := (trackDataRotAt_wellFormed track.type dir).1
  refine ⟨AddTrackToSpaceLoop_nodup_iff ptr _ space hnd, ?_⟩
  intro h
  have hres : AddTrackToSpaceLoop ptr (trackDataRotAt track.type dir).shape space =
      (true, (AddTrackToSpace space ptr dir track).2) := by
    unfold AddTrackToSpace at h ⊢
    rw [← h]
  have hin := AddTrackToSpaceLoop_true_in_bounds ptr _ _ _ hres
  obtain ⟨h1, h2⟩ := AddTrackToSpaceLoop_nodup_result ptr _ _ _ hnd hres
  refine ⟨h1, ?_, h2⟩
  intro q hq hne
  unfold ReadSpace
  apply h2
  intro tc htc he
  exact hne tc htc (linearIndex_inj _ _ hq (hin tc htc) he)

/-! ### Cells as disjoint unions of footprints -/

theorem int_zero_lor (a : Int) : Int.lor 0 a = a := by
  rw [int_lor_comm, int_lor_zero]

theorem cellOr_zero_left (a : Cell) : cellOr ⟨0, 0, 0, 0⟩ a = a := by
  simp [cellOr, int_zero_lor]

theorem IsBit_bitOr (u v : Int) : IsBit (bitOr u v) := by
  unfold bitOr IsBit
  by_cases h : u = 1 ∨ v = 1
  · simp [h]
  · simp [h]

theorem IsBitCell_cellOr (a b : Cell) (ha : IsBitCell a) (hb : IsBitCell b) :
    IsBitCell (cellOr a b) := by
  obtain ⟨a0, a1, a2, a3⟩ := ha
  obtain ⟨b0, b1, b2, b3⟩ := hb
  unfold cellOr IsBitCell
  simp only [int_lor_bits _ _ a0 b0, int_lor_bits _ _ a1 b1, int_lor_bits _ _ a2 b2,
    int_lor_bits _ _ a3 b3]
  exact ⟨IsBit_bitOr _ _, IsBit_bitOr _ _, IsBit_bitOr _ _, IsBit_bitOr _ _⟩

theorem bitOr_eq_one_left (u v : Int) (h : u = 1) : bitOr u v = 1 := by
  simp [bitOr, h]

theorem bitOr_eq_one_right (u v : Int) (h : v = 1) : bitOr u v = 1 := by
  simp [bitOr, h]

theorem CellsCollide_cellOr_left (a b n : Cell) (ha : IsBitCell a) (hb : IsBitCell b)
    (h : CellsCollide a n) : CellsCollide (cellOr a b) n := by
  obtain ⟨a0, a1, a2, a3⟩ := ha
  obtain ⟨b0, b1, b2, b3⟩ := hb
  unfold CellsCollide cellOr at *
  simp only [int_lor_bits _ _ a0 b0, int_lor_bits _ _ a1 b1, int_lor_bits _ _ a2 b2,
    int_lor_bits _ _ a3 b3]
  rcases h with h | h | h | h
  · exact Or.inl ⟨bitOr_eq_one_left _ _ h.1, h.2⟩
  · exact Or.inr (Or.inl ⟨bitOr_eq_one_left _ _ h.1, h.2⟩)
  · exact Or.inr (Or.inr (Or.inl ⟨bitOr_eq_one_left _ _ h.1, h.2⟩))
  · exact Or.inr (Or.inr (Or.inr ⟨bitOr_eq_one_left _ _ h.1, h.2⟩))

theorem CellsCollide_cellOr_right (a b n : Cell) (ha : IsBitCell a) (hb : IsBitCell b)
    (h : CellsCollide b n) : CellsCollide (cellOr a b) n := by
  obtain ⟨a0, a1, a2, a3⟩ := ha
  obtain ⟨b0, b1, b2, b3⟩ := hb
  unfold CellsCollide cellOr at *
  simp only [int_lor_bits _ _ a0 b0, int_lor_bits _ _ a1 b1, int_lor_bits _ _ a2 b2,
    int_lor_bits _ _ a3 b3]
  rcases h with h | h | h | h
  · exact Or.inl ⟨bitOr_eq_one_right _ _ h.1, h.2⟩
  · exact Or.inr (Or.inl ⟨bitOr_eq_one_right _ _ h.1, h.2⟩)
  · exact Or.inr (Or.inr (Or.inl ⟨bitOr_eq_one_right _ _ h.1, h.2⟩))
  · exact Or.inr (Or.inr (Or.inr ⟨bitOr_eq_one_right _ _ h.1, h.2⟩))

theorem IsBitCell_foldl_cellOr (cs : List Cell) :
    ∀ acc : Cell, IsBitCell acc → (∀ x ∈ cs, IsBitCell x) → IsBitCell (cs.foldl cellOr acc) := by
  induction cs with
  | nil =>
    intro acc hacc _
    exact hacc
  | cons x rest ih =>
    intro acc hacc hcs
    rw [List.foldl_cons]
    exact ih _ (IsBitCell_cellOr _ _ hacc (hcs x (List.mem_cons_self _ _)))
      (fun y hy => hcs y (List.mem_cons_of_mem _ hy))

/-- A cell that collides with the accumulator or with a member of the list collides with the
or of all of them. -/
theorem CellsCollide_foldl_cellOr (cs : List Cell) (n : Cell) :
    ∀ acc : Cell, IsBitCell acc → (∀ x ∈ cs, IsBitCell x) →
      (CellsCollide acc n ∨ ∃ x ∈ cs, CellsCollide x n) →
      CellsCollide (cs.foldl cellOr acc) n := by
  induction cs with
  | nil =>
    intro acc _ _ h
    rcases h with h | ⟨x, hx, _⟩
    · exact h
    · exact absurd hx (List.not_mem_nil x)
  | cons x rest ih =>
    intro acc hacc hcs h
    rw [List.foldl_cons]
    have hx : IsBitCell x := hcs x (List.mem_cons_self _ _)
    apply ih _ (IsBitCell_cellOr _ _ hacc hx) (fun y hy => hcs y (List.mem_cons_of_mem _ hy))
    rcases h with h | ⟨y, hy, hyn⟩
    · exact Or.inl (CellsCollide_cellOr_left _ _ _ hacc hx h)
    · rcases List.mem_cons.mp hy with rfl | hmem
      · exact Or.inl (CellsCollide_cellOr_right _ _ _ hacc hx hyn)
      · exact Or.inr ⟨y, hmem, hyn⟩

theorem DisjointOr_isBitCell (v : Cell) (cs : List Cell) (h : DisjointOr v cs) : IsBitCell v := by
  obtain ⟨hv, _, hb⟩ := h
  rw [hv]
  exact IsBitCell_foldl_cellOr cs _ (by decide) hb

theorem DisjointOr_singleton (v : Cell) (h : IsBitCell v) : DisjointOr v [v] := by
  refine ⟨?_, List.pairwise_singleton _ _, ?_⟩
  · simp [orCells, cellOr_zero_left]
  · intro x hx
    rw [List.mem_singleton.mp hx]
    exact h

/-- Merging one more footprint cell by `ResolveCells` keeps the disjoint-or description. -/
theorem DisjointOr_snoc (v : Cell) (cs : List Cell) (n m : Cell) (h : DisjointOr v cs)
    (hn : IsBitCell n) (hr : ResolveCells v n = some m) : DisjointOr m (cs ++ [n]) := by
  obtain ⟨hv, hp, hb⟩ := h
  obtain ⟨hnc, hm⟩ := ResolveCells_eq_some v n m hr
  refine ⟨?_, ?_, ?_⟩
  · show m = orCells (cs ++ [n])
    unfold orCells at hv ⊢
    rw [List.foldl_append, ← hv]
    exact hm
  · rw [List.pairwise_append]
    refine ⟨hp, List.pairwise_singleton _ _, ?_⟩
    intro a ha b hb'
    rw [List.mem_singleton.mp hb']
    intro hcol
    apply hnc
    rw [hv]
    exact CellsCollide_foldl_cellOr cs n _ (by decide) hb (Or.inr ⟨a, ha, hcol⟩)
  · intro x hx
    rcases List.mem_append.mp hx with hx | hx
    · exact hb x hx
    · rw [List.mem_singleton.mp hx]
      exact hn

theorem cellsAt_cons_eq (c ptr : Coord) (tc : TrackCell) (rest : List TrackCell)
    (h : AddCoords ptr tc.coord = c) : cellsAt c ptr (tc :: rest) = tc.cell :: cellsAt c ptr rest := by
  simp [cellsAt, List.filter_cons, h]

theorem cellsAt_cons_ne (c ptr : Coord) (tc : TrackCell) (rest : List TrackCell)
    (h : AddCoords ptr tc.coord ≠ c) : cellsAt c ptr (tc :: rest) = cellsAt c ptr rest := by
  simp [cellsAt, List.filter_cons, h]

/-- A successful run of the loop of `AddTrackToSpace` appends, at every in-bounds coordinate, the
footprint cells of the shape on that coordinate to the disjoint-or description of the cell. -/
theorem AddTrackToSpaceLoop_disjointOr (ptr : Coord) (shape : List TrackCell) :
    ∀ (space space' : Space), (∀ tc ∈ shape, IsBitCell tc.cell) →
      AddTrackToSpaceLoop ptr shape space = (true, space') →
      ∀ (c : Coord), OutOfBounds c = false → ∀ (cs : List Cell),
        DisjointOr (ReadSpace space c) cs →
        DisjointOr (ReadSpace space' c) (cs ++ cellsAt c ptr shape) := by
  induction shape with
  | nil =>
    intro space space' _ h c _ cs hd
    rw [AddTrackToSpaceLoop_nil] at h
    have hs : space = space' := (Prod.mk.inj h).2
    subst hs
    simpa [cellsAt] using hd
  | cons tc rest ih =>
    intro space space' hbits h c hc cs hd
    obtain ⟨ho, newCell, hr, hrest⟩ := AddTrackToSpaceLoop_cons_true ptr tc rest space space' h
    have hbits' : ∀ tc' ∈ rest, IsBitCell tc'.cell :=
      fun tc' h' => hbits tc' (List.mem_cons_of_mem _ h')
    by_cases hcoord : AddCoords ptr tc.coord = c
    · rw [cellsAt_cons_eq c ptr tc rest hcoord]
      have hd1 : DisjointOr (ReadSpace (WriteSpace space (AddCoords ptr tc.coord) newCell) c)
          (cs ++ [tc.cell]) := by
        rw [← hcoord, ReadSpace_WriteSpace_same]
        rw [← hcoord] at hd
        exact DisjointOr_snoc _ cs tc.cell newCell hd (hbits tc (List.mem_cons_self _ _)) hr
      have := ih _ _ hbits' hrest c hc _ hd1
      simpa [List.append_assoc] using this
    · rw [cellsAt_cons_ne c ptr tc rest hcoord]
      have hd1 : DisjointOr (ReadSpace (WriteSpace space (AddCoords ptr tc.coord) newCell) c)
          cs := by
        rw [ReadSpace_WriteSpace_other _ _ _ _ ho hc (fun he => hcoord he.symm)]
        exact hd
      exact ih _ _ hbits' hrest c hc _ hd1

/-! ### Frames and stacks -/

theorem CopySpaceLoop_apply (source : Space) (n : Nat) (dest : Space) (i : Int) :
    CopySpaceLoop source n dest i = if 0 ≤ i ∧ i < (n : Int) then source i else dest i := by
  induction n with
  | zero =>
    have : ¬ (0 ≤ i ∧ i < ((0 : Nat) : Int)) := by omega
    simp only [CopySpaceLoop]
    rw [if_neg this]
  | succ n ih =>
    simp only [CopySpaceLoop]
    by_cases h : i = (n : Int)
    · subst h
      have : (0 : Int) ≤ (n : Int) ∧ (n : Int) < ((n + 1 : Nat) : Int) := by omega
      simp [this]
    · rw [if_neg h, ih]
      by_cases h1 : 0 ≤ i ∧ i < (n : Int)
      · have h2 : 0 ≤ i ∧ i < ((n + 1 : Nat) : Int) := by omega
        rw [if_pos h1, if_pos h2]
      · have h2 : ¬ (0 ≤ i ∧ i < ((n + 1 : Nat) : Int)) := by omega
        rw [if_neg h1, if_neg h2]

theorem ReadSpace_CopySpace (source dest : Space) (c : Coord) (h : OutOfBounds c = false) :
    ReadSpace (CopySpace source dest) c = ReadSpace source c := by
  have hr := linearIndex_range c h
  unfold ReadSpace CopySpace
  rw [CopySpaceLoop_apply]
  have : 0 ≤ linearIndex c ∧ linearIndex c < (((kSizeY * kSizeX * kSizeZ).toNat : Nat) : Int) := by
    simp only [kSizeX, kSizeY, kSizeZ] at hr ⊢
    omega
  rw [if_pos this]

/-- What a successful call of `AddTrackToStack` went through and what it pushed. -/
theorem AddTrackToStack_eq_true (stack stack' : List GeneratorInfo)
    (track : TrackDesignTrackElement) (h : AddTrackToStack stack track = some (true, stack')) :
    ∃ lastInfo, stack.getLast? = some lastInfo ∧
      OutOfBounds (AddCoords lastInfo.ptr (trackDataRotAt track.type lastInfo.dir).ptr) = false ∧
      ¬ ((((AddCoords lastInfo.ptr (trackDataRotAt track.type lastInfo.dir).ptr).z : Int) : ℚ) >
          heightLimit lastInfo.tracks.length) ∧
      (AddTrackToSpace (CopySpace lastInfo.space mallocSpace) lastInfo.ptr lastInfo.dir track).1
        = true ∧
      stack' = stack ++
        [⟨(AddTrackToSpace (CopySpace lastInfo.space mallocSpace) lastInfo.ptr lastInfo.dir track).2,
          lastInfo.tracks ++ [track],
          AddCoords lastInfo.ptr (trackDataRotAt track.type lastInfo.dir).ptr,
          newDirOf track.type lastInfo.dir, []⟩] := by
  unfold AddTrackToStack at h
  split at h
  · exact Option.noConfusion h
  · rename_i lastInfo hlast
    refine ⟨lastInfo, hlast, ?_⟩
    simp only at h
    split at h
    · simp at h
    · rename_i hob
      split at h
      · simp at h
      · rename_i hlim
        split at h
        · simp at h
        · rename_i hplaced
          simp only [Option.some.injEq, Prod.mk.injEq, true_and] at h
          refine ⟨by simpa using hob, hlim, by simpa using hplaced, h.symm⟩

theorem poseAfter_append (tracks : List TrackDesignTrackElement) (track : TrackDesignTrackElement) :
    ∀ (ptr : Coord) (dir : DirectionType),
      poseAfter ptr dir (tracks ++ [track]) =
        (AddCoords (poseAfter ptr dir tracks).1
            (trackDataRotAt track.type (poseAfter ptr dir tracks).2).ptr,
          newDirOf track.type (poseAfter ptr dir tracks).2) := by
  induction tracks with
  | nil =>
    intro ptr dir
    rfl
  | cons t rest ih =>
    intro ptr dir
    simp only [List.cons_append, poseAfter]
    exact ih _ _

theorem footprintsAt_append (c : Coord) (tracks : List TrackDesignTrackElement)
    (track : TrackDesignTrackElement) :
    ∀ (ptr : Coord) (dir : DirectionType),
      footprintsAt c ptr dir (tracks ++ [track]) =
        footprintsAt c ptr dir tracks ++
          cellsAt c (poseAfter ptr dir tracks).1
            (trackDataRotAt track.type (poseAfter ptr dir tracks).2).shape := by
  induction tracks with
  | nil =>
    intro ptr dir
    simp [footprintsAt, poseAfter]
  | cons t rest ih =>
    intro ptr dir
    rw [List.cons_append, footprintsAt, footprintsAt, poseAfter, ih, List.append_assoc]

theorem IsBitCell_initialSpace (i : Int) : IsBitCell (initialSpace i) := by
  unfold initialSpace WriteSpace
  by_cases h1 : i = linearIndex ⟨0, 3, 1⟩
  · rw [if_pos h1]
    decide
  · rw [if_neg h1]
    by_cases h0 : i = linearIndex endCoord
    · rw [if_pos h0]
      decide
    · rw [if_neg h0]
      show IsBitCell ⟨0, 0, 0, 0⟩
      decide

theorem FrameInv_initialInfo : FrameInv initialInfo := by
  constructor
  · rfl
  · intro c _
    show DisjointOr (ReadSpace initialSpace c) (ReadSpace initialSpace c :: [])
    exact DisjointOr_singleton _ (IsBitCell_initialSpace _)

/-- The frame pushed by a successful `AddTrackToStack` satisfies the invariant if the top frame
does. -/
theorem FrameInv_push (lastInfo : GeneratorInfo) (track : TrackDesignTrackElement)
    (hinv : FrameInv lastInfo)
    (hplaced : (AddTrackToSpace (CopySpace lastInfo.space mallocSpace) lastInfo.ptr lastInfo.dir
      track).1 = true) :
    FrameInv
      ⟨(AddTrackToSpace (CopySpace lastInfo.space mallocSpace) lastInfo.ptr lastInfo.dir track).2,
        lastInfo.tracks ++ [track],
        AddCoords lastInfo.ptr (trackDataRotAt track.type lastInfo.dir).ptr,
        newDirOf track.type lastInfo.dir, []⟩ := by
  obtain ⟨hpose, hcells⟩ := hinv
  constructor
  · show poseAfter ⟨0, 4, 0⟩ kEast (lastInfo.tracks ++ [track]) = _
    rw [poseAfter_append, hpose]
  · intro c hc
    have hres : AddTrackToSpaceLoop lastInfo.ptr (trackDataRotAt track.type lastInfo.dir).shape
        (CopySpace lastInfo.space mallocSpace) =
        (true, (AddTrackToSpace (CopySpace lastInfo.space mallocSpace) lastInfo.ptr lastInfo.dir
          track).2) := by
      unfold AddTrackToSpace at hplaced ⊢
      rw [← hplaced]
    have hstart : DisjointOr (ReadSpace (CopySpace lastInfo.space mallocSpace) c)
        (ReadSpace initialSpace c :: footprintsAt c ⟨0, 4, 0⟩ kEast lastInfo.tracks) := by
      rw [ReadSpace_CopySpace _ _ c hc]
      exact hcells c hc
    have hd := AddTrackToSpaceLoop_disjointOr lastInfo.ptr
      (trackDataRotAt track.type lastInfo.dir).shape (CopySpace lastInfo.space mallocSpace)
      (AddTrackToSpace (CopySpace lastInfo.space mallocSpace) lastInfo.ptr lastInfo.dir track).2
      (trackDataRotAt_wellFormed _ _).2 hres c hc
      (ReadSpace initialSpace c :: footprintsAt c ⟨0, 4, 0⟩ kEast lastInfo.tracks) hstart
    have hfp : footprintsAt c ⟨0, 4, 0⟩ kEast (lastInfo.tracks ++ [track]) =
        footprintsAt c ⟨0, 4, 0⟩ kEast lastInfo.tracks ++
          cellsAt c lastInfo.ptr (trackDataRotAt track.type lastInfo.dir).shape := by
      rw [footprintsAt_append, hpose]
    simp only [hfp]
    rw [List.cons_append] at hd
    exact hd

theorem FrameInv_withFailedTracks (info : GeneratorInfo) (failedTracks : List track_type_t)
    (h : FrameInv info) : FrameInv (withFailedTracks info failedTracks) := h

theorem mem_storeFailedTracks (stack : List GeneratorInfo) (failedTracks : List track_type_t) :
    ∀ (i : Nat), ∀ f ∈ storeFailedTracks stack i failedTracks,
      f ∈ stack ∨ ∃ g ∈ stack, f = withFailedTracks g failedTracks := by
  induction stack with
  | nil =>
    intro i f hf
    simp [storeFailedTracks] at hf
  | cons info rest ih =>
    intro i f hf
    cases i with
    | zero =>
      simp only [storeFailedTracks, List.mem_cons] at hf
      rcases hf with rfl | hf
      · exact Or.inr ⟨info, List.mem_cons_self _ _, rfl⟩
      · exact Or.inl (List.mem_cons_of_mem _ hf)
    | succ i =>
      simp only [storeFailedTracks, List.mem_cons] at hf
      rcases hf with rfl | hf
      · exact Or.inl (List.mem_cons_self _ _)
      · rcases ih i f hf with h | ⟨g, hg, rfl⟩
        · exact Or.inl (List.mem_cons_of_mem _ h)
        · exact Or.inr ⟨g, List.mem_cons_of_mem _ hg, rfl⟩

theorem mem_Backtrack (stack stack' : List GeneratorInfo) (lastTrack : TrackDesignTrackElement)
    (h : Backtrack stack lastTrack = some stack') :
    ∀ f ∈ stack', f ∈ stack ∨ ∃ g ∈ stack, ∃ failedTracks, f = withFailedTracks g failedTracks := by
  unfold Backtrack at h
  simp only at h
  split at h
  · exact Option.noConfusion h
  · rename_i lastInfo hlast
    have hs := Option.some.inj h
    subst hs
    intro f hf
    have hmemLast : lastInfo ∈ stack :=
      List.dropLast_subset _ (List.mem_of_getLast?_eq_some hlast)
    rcases List.mem_append.mp hf with hf | hf
    · exact Or.inl (List.dropLast_subset _ (List.dropLast_subset _ hf))
    · rw [List.mem_singleton.mp hf]
      exact Or.inr ⟨lastInfo, hmemLast, _, rfl⟩

/-- Every frame of every reachable stack satisfies the frame invariant. -/
theorem ReachableStack_frameInv (stack : List GeneratorInfo) (h : ReachableStack stack) :
    ∀ f ∈ stack, FrameInv f := by
  induction h with
  | initial =>
    intro f hf
    rw [List.mem_singleton.mp hf]
    exact FrameInv_initialInfo
  | push stack stack' track _ hpush ih =>
    obtain ⟨lastInfo, hlast, _, _, hplaced, hst⟩ := AddTrackToStack_eq_true stack stack' track hpush
    intro f hf
    rw [hst] at hf
    rcases List.mem_append.mp hf with hf | hf
    · exact ih f hf
    · rw [List.mem_singleton.mp hf]
      exact FrameInv_push lastInfo track (ih lastInfo (List.mem_of_getLast?_eq_some hlast)) hplaced
  | failed stack i failedTracks _ ih =>
    intro f hf
    rcases mem_storeFailedTracks stack failedTracks i f hf with h | ⟨g, hg, rfl⟩
    · exact ih f h
    · exact FrameInv_withFailedTracks g failedTracks (ih g hg)
  | backtrack stack stack' lastTrack _ hback ih =>
    intro f hf
    rcases mem_Backtrack stack stack' lastTrack hback f hf with h | ⟨g, hg, ft, rfl⟩
    · exact ih f h
    · exact FrameInv_withFailedTracks g ft (ih g hg)

/-- C1 as stated fails: on the initial stack of an attempt the in-bounds cell `(0,3,0)` of the
grid reads `{1,1,1,1}`, while the (empty) sequence of the frame puts no footprint cell there. -/
theorem initial_grid_not_footprints :
    ReachableStack [initialInfo] ∧ initialInfo ∈ [initialInfo] ∧
    OutOfBounds ⟨0, 3, 0⟩ = false ∧
    ReadSpace initialInfo.space ⟨0, 3, 0⟩ ≠
      orCells (footprintsAt ⟨0, 3, 0⟩ ⟨0, 4, 0⟩ kEast initialInfo.tracks) :=
  ⟨ReachableStack.initial, List.mem_singleton.mpr rfl, by decide, by decide⟩

/-- C1, amended: for every frame of every stack reachable from the initial stack of an attempt,
every in-bounds cell of the grid of the frame equals the disjoint-or of the cell of the initial
grid (the two reserved cells `(0,3,0)` and `(0,3,1)` are full, all others empty) and the footprint
cells that the pieces of the sequence of the frame put on that coordinate, and no two of these
cells share a set quadrant. -/
theorem ReachableStack_grid_disjointOr (stack : List GeneratorInfo) (h : ReachableStack stack)
    (f : GeneratorInfo) (hf : f ∈ stack) (c : Coord) (hc : OutOfBounds c = false) :
    ReadSpace f.space c =
      orCells (ReadSpace initialSpace c :: footprintsAt c ⟨0, 4, 0⟩ kEast f.tracks) ∧
    (ReadSpace initialSpace c :: footprintsAt c ⟨0, 4, 0⟩ kEast f.tracks).Pairwise
      (fun a b => ¬ CellsCollide a b) := by
  obtain ⟨hv, hp, _⟩ := (ReachableStack_frameInv stack h f hf).2 c hc
  exact ⟨hv, hp⟩

/-! ### A reachable stack with one placed piece -/

/-- The frame that `AddTrackToStack` pushes on top of `lastInfo` for `track`. -/
theorem AddTrackToStack_of_placed (stack : List GeneratorInfo) (lastInfo : GeneratorInfo)
    (track : TrackDesignTrackElement) (hlast : stack.getLast? = some lastInfo)
    (hob : OutOfBounds (AddCoords lastInfo.ptr (trackDataRotAt track.type lastInfo.dir).ptr) = false)
    (hlim : ¬ ((((AddCoords lastInfo.ptr (trackDataRotAt track.type lastInfo.dir).ptr).z : Int) : ℚ) >
          heightLimit lastInfo.tracks.length))
    (hplaced : (AddTrackToSpace (CopySpace lastInfo.space mallocSpace) lastInfo.ptr lastInfo.dir
      track).1 = true) :
    AddTrackToStack stack track = some (true, stack ++ [pushedFrame lastInfo track]) := by
  unfold AddTrackToStack
  rw [hlast]
  simp only [hob, Bool.false_eq_true, if_false, hlim, hplaced, pushedFrame]
  rw [if_neg (by decide)]

/-- Witness for C1: the stack after the first station piece has been pushed, at the cell
`(0,4,0)` that this piece occupies. -/
theorem ReachableStack_grid_disjointOr_witness :
    ReachableStack ([initialInfo] ++ [pushedFrame initialInfo ⟨TRACK_ELEM_BEGIN_STATION, 4⟩]) ∧
    pushedFrame initialInfo ⟨TRACK_ELEM_BEGIN_STATION, 4⟩ ∈
      [initialInfo] ++ [pushedFrame initialInfo ⟨TRACK_ELEM_BEGIN_STATION, 4⟩] ∧
    OutOfBounds ⟨0, 4, 0⟩ = false ∧
    (ReadSpace (pushedFrame initialInfo ⟨TRACK_ELEM_BEGIN_STATION, 4⟩).space ⟨0, 4, 0⟩ =
      orCells (ReadSpace initialSpace ⟨0, 4, 0⟩ :: footprintsAt ⟨0, 4, 0⟩ ⟨0, 4, 0⟩ kEast
        (pushedFrame initialInfo ⟨TRACK_ELEM_BEGIN_STATION, 4⟩).tracks) ∧
     (ReadSpace initialSpace ⟨0, 4, 0⟩ :: footprintsAt ⟨0, 4, 0⟩ ⟨0, 4, 0⟩ kEast
        (pushedFrame initialInfo ⟨TRACK_ELEM_BEGIN_STATION, 4⟩).tracks).Pairwise
      (fun a b => ¬ CellsCollide a b)) :=
  have hreach : ReachableStack
      ([initialInfo] ++ [pushedFrame initialInfo ⟨TRACK_ELEM_BEGIN_STATION, 4⟩]) :=
    ReachableStack.push [initialInfo] _ ⟨TRACK_ELEM_BEGIN_STATION, 4⟩ ReachableStack.initial
      (AddTrackToStack_of_placed [initialInfo] initialInfo ⟨TRACK_ELEM_BEGIN_STATION, 4⟩ rfl
        (by decide!) (by decide!) (by decide!))
  ⟨hreach, List.mem_append_right _ (List.mem_singleton.mpr rfl), by decide,
    ReachableStack_grid_disjointOr _ hreach _
      (List.mem_append_right _ (List.mem_singleton.mpr rfl)) ⟨0, 4, 0⟩ (by decide)⟩

/-! ### Headings -/

/-- C11: for every heading `h`, `TurnLeft (TurnRight h) = h`; `TurnLeft` maps (N,E,S,W) to
(W,N,E,S) and `TurnRight` maps (N,E,S,W) to (E,S,W,N). -/
theorem TurnLeft_TurnRight (h : DirectionType) :
    TurnLeft (TurnRight h) = h ∧
    [kNorth, kEast, kSouth, kWest].map TurnLeft = [kWest, kNorth, kEast, kSouth] ∧
    [kNorth, kEast, kSouth, kWest].map TurnRight = [kEast, kSouth, kWest, kNorth] := by
  refine ⟨?_, rfl, rfl⟩
  cases h <;> rfl

/-! ### The successor sets -/

theorem trackStateMachine_slopes :
    ∀ e ∈ trackStateMachine,
      (e.2 ∈ downStates → ∀ s ∈ e.2, ¬ BeginsUp s) ∧
      (e.2 ∈ upStates → ∀ s ∈ e.2, ¬ BeginsDown s) := by
  decide!

theorem trackStateMachine_loops :
    mapFind trackStateMachine TRACK_ELEM_LEFT_VERTICAL_LOOP = some statesForTrackElem25DegDown ∧
    mapFind trackStateMachine TRACK_ELEM_RIGHT_VERTICAL_LOOP =
      some statesForTrackElem25DegDown := by
  decide!

/-- C20: in `trackStateMachine`, no piece that ends on a downward slope (a piece mapped to one of
the four downward successor sets, which includes both vertical loops) has a successor that begins
on an upward slope, and no piece that ends on an upward slope (mapped to one of the four upward
successor sets) has a successor that begins on a downward slope. -/
theorem trackStateMachine_no_slope_reversal (t : track_type_t) (states : List track_type_t)
    (h : mapFind trackStateMachine t = some states) :
    (states ∈ downStates → ∀ s ∈ states, ¬ BeginsUp s) ∧
    (states ∈ upStates → ∀ s ∈ states, ¬ BeginsDown s) ∧
    mapFind trackStateMachine TRACK_ELEM_LEFT_VERTICAL_LOOP = some statesForTrackElem25DegDown ∧
    mapFind trackStateMachine TRACK_ELEM_RIGHT_VERTICAL_LOOP = some statesForTrackElem25DegDown ∧
    statesForTrackElem25DegDown ∈ downStates := by
  have hm := trackStateMachine_slopes (t, states) (mem_of_mapFind_eq_some _ _ _ h)
  exact ⟨hm.1, hm.2, trackStateMachine_loops.1, trackStateMachine_loops.2, by decide⟩

/-- Witness for C20: the left vertical loop, mapped to the 25-degree-down successor set. -/
theorem trackStateMachine_no_slope_reversal_witness :
    mapFind trackStateMachine TRACK_ELEM_LEFT_VERTICAL_LOOP = some statesForTrackElem25DegDown ∧
    ((statesForTrackElem25DegDown ∈ downStates → ∀ s ∈ statesForTrackElem25DegDown, ¬ BeginsUp s) ∧
     (statesForTrackElem25DegDown ∈ upStates →
        ∀ s ∈ statesForTrackElem25DegDown, ¬ BeginsDown s) ∧
     mapFind trackStateMachine TRACK_ELEM_LEFT_VERTICAL_LOOP = some statesForTrackElem25DegDown ∧
     mapFind trackStateMachine TRACK_ELEM_RIGHT_VERTICAL_LOOP = some statesForTrackElem25DegDown ∧
     statesForTrackElem25DegDown ∈ downStates) :=
  ⟨by decide!, trackStateMachine_no_slope_reversal TRACK_ELEM_LEFT_VERTICAL_LOOP
    statesForTrackElem25DegDown (by decide!)⟩

/-! ### `AddTrackToStack` -/

theorem heightLimit_eq (n : Nat) :
    heightLimit n = if n > 10 then (11 : ℚ) - (5 / 100) * (n : ℚ) else 11 := by
  unfold heightLimit
  by_cases h : n > 10
  · simp only [h, if_true]
    push_cast
    ring
  · simp only [h, if_false]
    push_cast
    ring

theorem gt_heightLimit_iff (z : Int) (n : Nat) (hz : z < kSizeZ) :
    ((z : ℚ) > heightLimit n) ↔ (n > 10 ∧ (z : ℚ) > 11 - (5 / 100) * (n : ℚ)) := by
  rw [heightLimit_eq]
  by_cases h : n > 10
  · simp [h]
  · have hz' : (z : ℚ) < 11 := by exact_mod_cast hz
    simp only [h, if_false, false_and, iff_false, not_lt, gt_iff_lt]
    exact le_of_lt hz'

/-- The result of `AddTrackToStack` on a stack whose top frame is `lastInfo`, test by test. -/
theorem AddTrackToStack_eq (stack : List GeneratorInfo) (lastInfo : GeneratorInfo)
    (track : TrackDesignTrackElement) (hlast : stack.getLast? = some lastInfo) :
    AddTrackToStack stack track =
      if OutOfBounds (AddCoords lastInfo.ptr (trackDataRotAt track.type lastInfo.dir).ptr) = true
      then some (false, stack)
      else if
        (((AddCoords lastInfo.ptr (trackDataRotAt track.type lastInfo.dir).ptr).z : Int) : ℚ) >
          heightLimit lastInfo.tracks.length
      then some (false, stack)
      else if (AddTrackToSpace (CopySpace lastInfo.space mallocSpace) lastInfo.ptr lastInfo.dir
          track).1 = false
      then some (false, stack)
      else some (true, stack ++ [pushedFrame lastInfo track]) := by
  unfold AddTrackToStack
  rw [hlast]
  rfl

/-- A call of `AddTrackToStack` that returns `false` leaves the stack as it was. -/
theorem AddTrackToStack_eq_false (stack stack' : List GeneratorInfo)
    (track : TrackDesignTrackElement) (h : AddTrackToStack stack track = some (false, stack')) :
    stack' = stack := by
  cases hlast : stack.getLast? with
  | none =>
    unfold AddTrackToStack at h
    rw [hlast] at h
    exact Option.noConfusion h
  | some lastInfo =>
    rw [AddTrackToStack_eq stack lastInfo track hlast] at h
    split at h
    · exact ((Prod.mk.inj (Option.some.inj h)).2).symm
    · split at h
      · exact ((Prod.mk.inj (Option.some.inj h)).2).symm
      · split at h
        · exact ((Prod.mk.inj (Option.some.inj h)).2).symm
        · exact Bool.noConfusion (Prod.mk.inj (Option.some.inj h)).1

theorem getLast?_isSome_of_ne_nil {α : Type} (l : List α) (h : l ≠ []) :
    ∃ a, l.getLast? = some a := by
  cases hl : l.getLast? with
  | none => exact absurd (List.getLast?_eq_none_iff.mp hl) h
  | some a => exact ⟨a, rfl⟩

/-- C14: on a top frame with `n` placed pieces and a candidate whose new anchor is in bounds,
`AddTrackToStack` rejects for height exactly when `n > 10` and `new_anchor.z > 11 - 0.05 * n` (in
exact rational arithmetic); otherwise, in particular whenever `n ≤ 10` (so also for `n = 10` and
`z = 10`), the outcome is that of the placement alone. -/
theorem AddTrackToStack_height_prune (stack : List GeneratorInfo) (lastInfo : GeneratorInfo)
    (track : TrackDesignTrackElement) (hlast : stack.getLast? = some lastInfo)
    (hob : OutOfBounds (AddCoords lastInfo.ptr (trackDataRotAt track.type lastInfo.dir).ptr)
      = false) :
    ((lastInfo.tracks.length > 10 ∧
        (((AddCoords lastInfo.ptr (trackDataRotAt track.type lastInfo.dir).ptr).z : Int) : ℚ) >
          11 - (5 / 100) * (lastInfo.tracks.length : ℚ)) →
      AddTrackToStack stack track = some (false, stack)) ∧
    (¬ (lastInfo.tracks.length > 10 ∧
        (((AddCoords lastInfo.ptr (trackDataRotAt track.type lastInfo.dir).ptr).z : Int) : ℚ) >
          11 - (5 / 100) * (lastInfo.tracks.length : ℚ)) →
      AddTrackToStack stack track =
        if (AddTrackToSpace (CopySpace lastInfo.space mallocSpace) lastInfo.ptr lastInfo.dir
          track).1 = true
        then some (true, stack ++ [pushedFrame lastInfo track])
        else some (false, stack)) ∧
    (lastInfo.tracks.length ≤ 10 →
      AddTrackToStack stack track =
        if (AddTrackToSpace (CopySpace lastInfo.space mallocSpace) lastInfo.ptr lastInfo.dir
          track).1 = true
        then some (true, stack ++ [pushedFrame lastInfo track])
        else some (false, stack)) := by
  have hz : (AddCoords lastInfo.ptr (trackDataRotAt track.type lastInfo.dir).ptr).z < kSizeZ :=
    ((OutOfBounds_eq_false_iff _).mp hob).2.2.2.2.2
  have hiff := gt_heightLimit_iff _ lastInfo.tracks.length hz
  have hno : ¬ (lastInfo.tracks.length > 10 ∧
        (((AddCoords lastInfo.ptr (trackDataRotAt track.type lastInfo.dir).ptr).z : Int) : ℚ) >
          11 - (5 / 100) * (lastInfo.tracks.length : ℚ)) →
      AddTrackToStack stack track =
        if (AddTrackToSpace (CopySpace lastInfo.space mallocSpace) lastInfo.ptr lastInfo.dir
          track).1 = true
        then some (true, stack ++ [pushedFrame lastInfo track])
        else some (false, stack) := by
    intro hn
    rw [AddTrackToStack_eq stack lastInfo track hlast, hob]
    rw [if_neg (by decide), if_neg (fun hgt => hn (hiff.mp hgt))]
    cases hp : (AddTrackToSpace (CopySpace lastInfo.space mallocSpace) lastInfo.ptr lastInfo.dir
        track).1 with
    | true => simp
    | false => simp
  refine ⟨?_, hno, ?_⟩
  · intro hgt
    rw [AddTrackToStack_eq stack lastInfo track hlast, hob]
    rw [if_neg (by decide), if_pos (hiff.mpr hgt)]
  · intro hle
    exact hno (fun hgt => absurd hgt.1 (by omega))

/-- Witness for C14: a top frame with 10 pieces and anchor `(0,4,9)` heading east, and the piece
`FLAT_TO_25_DEG_UP`, whose new anchor `(0,5,10)` has `z = 10`. -/
theorem AddTrackToStack_height_prune_witness :
    [flatFrame 10 ⟨0, 4, 9⟩].getLast? = some (flatFrame 10 ⟨0, 4, 9⟩) ∧
    OutOfBounds (AddCoords (flatFrame 10 ⟨0, 4, 9⟩).ptr
      (trackDataRotAt TRACK_ELEM_FLAT_TO_25_DEG_UP (flatFrame 10 ⟨0, 4, 9⟩).dir).ptr) = false ∧
    (AddCoords (flatFrame 10 ⟨0, 4, 9⟩).ptr
      (trackDataRotAt TRACK_ELEM_FLAT_TO_25_DEG_UP (flatFrame 10 ⟨0, 4, 9⟩).dir).ptr).z = 10 ∧
    (flatFrame 10 ⟨0, 4, 9⟩).tracks.length = 10 ∧
    AddTrackToStack [flatFrame 10 ⟨0, 4, 9⟩] ⟨TRACK_ELEM_FLAT_TO_25_DEG_UP, 4⟩ =
      (if (AddTrackToSpace (CopySpace (flatFrame 10 ⟨0, 4, 9⟩).space mallocSpace)
          (flatFrame 10 ⟨0, 4, 9⟩).ptr (flatFrame 10 ⟨0, 4, 9⟩).dir
          ⟨TRACK_ELEM_FLAT_TO_25_DEG_UP, 4⟩).1 = true
        then some (true, [flatFrame 10 ⟨0, 4, 9⟩] ++
          [pushedFrame (flatFrame 10 ⟨0, 4, 9⟩) ⟨TRACK_ELEM_FLAT_TO_25_DEG_UP, 4⟩])
        else some (false, [flatFrame 10 ⟨0, 4, 9⟩])) :=
  by
    have hat : trackDataAt TRACK_ELEM_FLAT_TO_25_DEG_UP = trackPieceForFlatTo25DegUp := by
      decide!
    have hob : OutOfBounds (AddCoords (flatFrame 10 ⟨0, 4, 9⟩).ptr
        (trackDataRotAt TRACK_ELEM_FLAT_TO_25_DEG_UP (flatFrame 10 ⟨0, 4, 9⟩).dir).ptr)
        = false := by
      rw [trackDataRotAt_eq, hat]
      decide
    have hz : (AddCoords (flatFrame 10 ⟨0, 4, 9⟩).ptr
        (trackDataRotAt TRACK_ELEM_FLAT_TO_25_DEG_UP (flatFrame 10 ⟨0, 4, 9⟩).dir).ptr).z
        = 10 := by
      rw [trackDataRotAt_eq, hat]
      decide
    exact ⟨rfl, hob, hz, by decide,
      (AddTrackToStack_height_prune [flatFrame 10 ⟨0, 4, 9⟩] (flatFrame 10 ⟨0, 4, 9⟩)
        ⟨TRACK_ELEM_FLAT_TO_25_DEG_UP, 4⟩ rfl hob).2.2 (by decide)⟩

/-- C18: on a non-empty stack, `AddTrackToStack` either returns `false` and leaves the stack
unchanged, or returns `true` and appends exactly one frame to the unchanged earlier frames; the
new frame has as grid the copy of the top grid (equal to it on every in-bounds cell) with the
piece placed at the old anchor and heading, as sequence the old sequence followed by the piece,
as anchor the old anchor plus the oriented exit, as heading the heading delta of the piece (its
`dirStateMachine` entry, `newDirOf`) applied to the old heading, and an empty failed set. -/
theorem AddTrackToStack_frame_effect (stack : List GeneratorInfo)
    (track : TrackDesignTrackElement) (hne : stack ≠ []) :
    ∃ lastInfo, stack.getLast? = some lastInfo ∧
      (AddTrackToStack stack track = some (false, stack) ∨
       ∃ newInfo, AddTrackToStack stack track = some (true, stack ++ [newInfo]) ∧
         newInfo.space =
           (AddTrackToSpace (CopySpace lastInfo.space mallocSpace) lastInfo.ptr lastInfo.dir
             track).2 ∧
         (AddTrackToSpace (CopySpace lastInfo.space mallocSpace) lastInfo.ptr lastInfo.dir
             track).1 = true ∧
         (∀ c : Coord, OutOfBounds c = false →
           ReadSpace (CopySpace lastInfo.space mallocSpace) c = ReadSpace lastInfo.space c) ∧
         newInfo.tracks = lastInfo.tracks ++ [track] ∧
         newInfo.ptr = AddCoords lastInfo.ptr (trackDataRotAt track.type lastInfo.dir).ptr ∧
         newInfo.dir = newDirOf track.type lastInfo.dir ∧
         newInfo.failedTracks = []) := by
  obtain ⟨lastInfo, hlast⟩ := getLast?_isSome_of_ne_nil stack hne
  refine ⟨lastInfo, hlast, ?_⟩
  rw [AddTrackToStack_eq stack lastInfo track hlast]
  split
  · exact Or.inl rfl
  · split
    · exact Or.inl rfl
    · split
      · exact Or.inl rfl
      · rename_i hplaced
        refine Or.inr ⟨pushedFrame lastInfo track, rfl, ?_, ?_, ?_, ?_, ?_, ?_, ?_⟩
        · simp only [pushedFrame]
        · simpa using hplaced
        · intro c hc
          exact ReadSpace_CopySpace _ _ c hc
        · simp only [pushedFrame]
        · simp only [pushedFrame]
        · simp only [pushedFrame]
        · simp only [pushedFrame]

/-- Witness for C18: the initial stack of an attempt. -/
theorem AddTrackToStack_frame_effect_witness :
    [initialInfo] ≠ [] ∧
    ∃ lastInfo, [initialInfo].getLast? = some lastInfo ∧
      (AddTrackToStack [initialInfo] ⟨TRACK_ELEM_BEGIN_STATION, 4⟩ = some (false, [initialInfo]) ∨
       ∃ newInfo, AddTrackToStack [initialInfo] ⟨TRACK_ELEM_BEGIN_STATION, 4⟩ =
           some (true, [initialInfo] ++ [newInfo]) ∧
         newInfo.space =
           (AddTrackToSpace (CopySpace lastInfo.space mallocSpace) lastInfo.ptr lastInfo.dir
             ⟨TRACK_ELEM_BEGIN_STATION, 4⟩).2 ∧
         (AddTrackToSpace (CopySpace lastInfo.space mallocSpace) lastInfo.ptr lastInfo.dir
             ⟨TRACK_ELEM_BEGIN_STATION, 4⟩).1 = true ∧
         (∀ c : Coord, OutOfBounds c = false →
           ReadSpace (CopySpace lastInfo.space mallocSpace) c = ReadSpace lastInfo.space c) ∧
         newInfo.tracks = lastInfo.tracks ++ [⟨TRACK_ELEM_BEGIN_STATION, 4⟩] ∧
         newInfo.ptr = AddCoords lastInfo.ptr
           (trackDataRotAt (⟨TRACK_ELEM_BEGIN_STATION, 4⟩ : TrackDesignTrackElement).type
             lastInfo.dir).ptr ∧
         newInfo.dir =
           newDirOf (⟨TRACK_ELEM_BEGIN_STATION, 4⟩ : TrackDesignTrackElement).type lastInfo.dir ∧
         newInfo.failedTracks = []) :=
  ⟨by simp, AddTrackToStack_frame_effect [initialInfo] ⟨TRACK_ELEM_BEGIN_STATION, 4⟩ (by simp)⟩

/-! ### `ChooseTrack` -/

/-- One iteration of the loop of `ChooseTrack`, in terms of the picked index. -/
theorem ChooseTrackLoop_succ (rand : Nat → Nat) (fuel : Nat) (stack : List GeneratorInfo)
    (failedTracks nextPossibleUpdated : List track_type_t) (k : Nat) :
    ChooseTrackLoop rand (fuel + 1) stack failedTracks nextPossibleUpdated k =
      if nextPossibleUpdated.isEmpty then some (false, stack, failedTracks, k)
      else
        match nextPossibleUpdated.get? (ChooseIndex rand nextPossibleUpdated k).1 with
        | none => none
        | some nextTrack =>
          ChooseTrackAttempt rand fuel stack failedTracks nextPossibleUpdated
            (ChooseIndex rand nextPossibleUpdated k).1 nextTrack
            (ChooseIndex rand nextPossibleUpdated k).2 := by
  rfl

theorem findIndex_eq_some (l : List track_type_t) (t : track_type_t) :
    ∀ j, findIndex l t = some j → l.get? j = some t := by
  induction l with
  | nil =>
    intro j h
    simp [findIndex] at h
  | cons a rest ih =>
    intro j h
    by_cases ha : a = t
    · simp [findIndex, ha] at h
      subst h
      simp [ha]
    · simp only [findIndex, ha, if_false, Option.map_eq_some'] at h
      obtain ⟨j', hj', rfl⟩ := h
      simpa using ih j' hj'

theorem findIndex_of_mem (l : List track_type_t) (t : track_type_t) (h : t ∈ l) :
    ∃ j, findIndex l t = some j := by
  induction l with
  | nil => exact absurd h (List.not_mem_nil t)
  | cons a rest ih =>
    by_cases ha : a = t
    · exact ⟨0, by simp [findIndex, ha]⟩
    · have hr : t ∈ rest := by
        rcases List.mem_cons.mp h with h | h
        · exact absurd h.symm ha
        · exact h
      obtain ⟨j, hj⟩ := ih hr
      exact ⟨j + 1, by simp [findIndex, ha, hj]⟩

theorem findIndex_eq_none (l : List track_type_t) (t : track_type_t) (h : t ∉ l) :
    findIndex l t = none := by
  cases hf : findIndex l t with
  | none => rfl
  | some j => exact absurd (List.get?_mem (findIndex_eq_some l t j hf)) h

theorem ChooseIndex_left (rand : Nat → Nat) (l : List track_type_t) (k : Nat)
    (h : TRACK_ELEM_LEFT_VERTICAL_LOOP ∈ l) :
    ∃ j, findIndex l TRACK_ELEM_LEFT_VERTICAL_LOOP = some j ∧ ChooseIndex rand l k = (j, k) := by
  obtain ⟨j, hj⟩ := findIndex_of_mem l _ h
  exact ⟨j, hj, by simp [ChooseIndex, hj]⟩

theorem ChooseIndex_right (rand : Nat → Nat) (l : List track_type_t) (k : Nat)
    (hl : TRACK_ELEM_LEFT_VERTICAL_LOOP ∉ l) (h : TRACK_ELEM_RIGHT_VERTICAL_LOOP ∈ l) :
    ∃ j, findIndex l TRACK_ELEM_RIGHT_VERTICAL_LOOP = some j ∧ ChooseIndex rand l k = (j, k) := by
  obtain ⟨j, hj⟩ := findIndex_of_mem l _ h
  exact ⟨j, hj, by simp [ChooseIndex, hj, findIndex_eq_none l _ hl]⟩

theorem ChooseIndex_rand (rand : Nat → Nat) (l : List track_type_t) (k : Nat)
    (hl : TRACK_ELEM_LEFT_VERTICAL_LOOP ∉ l) (hr : TRACK_ELEM_RIGHT_VERTICAL_LOOP ∉ l) :
    ChooseIndex rand l k = (rand k % l.length, k + 1) := by
  simp [ChooseIndex, findIndex_eq_none l _ hl, findIndex_eq_none l _ hr]

/-- The picked index always points at a candidate of a non-empty list. -/
theorem ChooseIndex_valid (rand : Nat → Nat) (l : List track_type_t) (k : Nat) (hne : l ≠ []) :
    ∃ t, l.get? (ChooseIndex rand l k).1 = some t := by
  by_cases hl : TRACK_ELEM_LEFT_VERTICAL_LOOP ∈ l
  · obtain ⟨j, hj, hc⟩ := ChooseIndex_left rand l k hl
    exact ⟨_, by rw [hc]; exact findIndex_eq_some l _ j hj⟩
  · by_cases hr : TRACK_ELEM_RIGHT_VERTICAL_LOOP ∈ l
    · obtain ⟨j, hj, hc⟩ := ChooseIndex_right rand l k hl hr
      exact ⟨_, by rw [hc]; exact findIndex_eq_some l _ j hj⟩
    · rw [ChooseIndex_rand rand l k hl hr]
      have hpos : 0 < l.length := List.length_pos.mpr hne
      have hlt : rand k % l.length < l.length := Nat.mod_lt _ hpos
      exact ⟨l.get ⟨_, hlt⟩, List.get?_eq_get hlt⟩

theorem mem_setInsert (s : List track_type_t) (t u : track_type_t) :
    u ∈ setInsert s t ↔ u ∈ s ∨ u = t := by
  unfold setInsert
  by_cases h : t ∈ s
  · rw [if_pos h]
    constructor
    · intro hu
      exact Or.inl hu
    · intro hu
      rcases hu with hu | hu
      · exact hu
      · rw [hu]
        exact h
  · rw [if_neg h]
    simp

theorem mem_iff_eq_or_mem_eraseIdx (l : List track_type_t) (i : Nat) (t u : track_type_t)
    (h : l.get? i = some t) : u ∈ l ↔ u = t ∨ u ∈ l.eraseIdx i := by
  constructor
  · intro hu
    obtain ⟨n, hn⟩ := List.get?_of_mem hu
    by_cases hni : n = i
    · subst hni
      rw [h] at hn
      exact Or.inl (Option.some.inj hn).symm
    · rw [List.get?_eq_getElem?] at hn
      exact Or.inr (List.mem_eraseIdx_iff_getElem?.mpr ⟨n, hni, hn⟩)
  · intro hu
    rcases hu with hu | hu
    · rw [hu]
      exact List.get?_mem h
    · exact List.mem_of_mem_eraseIdx hu

theorem length_eraseIdx_of_get? (l : List track_type_t) (i : Nat) (t : track_type_t)
    (h : l.get? i = some t) : (l.eraseIdx i).length + 1 = l.length := by
  have hlt : i < l.length := by
    by_contra hge
    rw [List.get?_eq_none.mpr (by omega)] at h
    exact Option.noConfusion h
  rw [List.length_eraseIdx_of_lt hlt]
  omega

/-- When the loop of `ChooseTrack` returns `false`, the stack is the one it was given, every
remaining candidate was refused by `AddTrackToStack`, and the failed set has grown by exactly the
remaining candidates. -/
theorem ChooseTrackLoop_false (rand : Nat → Nat) (fuel : Nat) :
    ∀ (stack : List GeneratorInfo) (failedTracks l : List track_type_t) (k : Nat)
      (stack' : List GeneratorInfo) (failedTracks' : List track_type_t) (k' : Nat),
      ChooseTrackLoop rand fuel stack failedTracks l k = some (false, stack', failedTracks', k') →
      stack' = stack ∧
      (∀ t ∈ l, AddTrackToStack stack ⟨t, 4⟩ = some (false, stack)) ∧
      (∀ u, u ∈ failedTracks' ↔ u ∈ failedTracks ∨ u ∈ l) := by
  induction fuel with
  | zero =>
    intro stack failedTracks l k stack' failedTracks' k' h
    simp [ChooseTrackLoop] at h
  | succ fuel ih =>
    intro stack failedTracks l k stack' failedTracks' k' h
    rw [ChooseTrackLoop_succ] at h
    by_cases he : l.isEmpty = true
    · rw [if_pos he] at h
      have hl : l = [] := List.isEmpty_iff.mp he
      simp only [Option.some.injEq, Prod.mk.injEq, true_and] at h
      obtain ⟨h1, h2, _⟩ := h
      subst h1 h2 hl
      exact ⟨rfl, fun t ht => absurd ht (List.not_mem_nil t), fun u => by simp⟩
    · rw [if_neg he] at h
      cases hg : l.get? (ChooseIndex rand l k).1 with
      | none =>
        rw [hg] at h
        exact Option.noConfusion h
      | some t =>
        rw [hg] at h
        simp only at h
        unfold ChooseTrackAttempt at h
        cases ha : AddTrackToStack stack ⟨t, 4⟩ with
        | none =>
          rw [ha] at h
          exact Option.noConfusion h
        | some r =>
          obtain ⟨b, stack1⟩ := r
          cases b with
          | true =>
            rw [ha] at h
            simp at h
          | false =>
            rw [ha] at h
            simp only at h
            have hs1 : stack1 = stack := AddTrackToStack_eq_false stack stack1 _ ha
            subst hs1
            obtain ⟨h1, h2, h3⟩ := ih _ _ _ _ _ _ _ h
            refine ⟨h1, ?_, ?_⟩
            · intro u hu
              rcases (mem_iff_eq_or_mem_eraseIdx l _ t u hg).mp hu with hu | hu
              · rw [hu]
                exact ha
              · exact h2 u hu
            · intro u
              rw [h3 u, mem_setInsert, mem_iff_eq_or_mem_eraseIdx l _ t u hg]
              tauto

/-- When the loop of `ChooseTrack` returns `true`, the stack is the result of a successful
`AddTrackToStack` of one of the remaining candidates on the stack it was given, and the failed set
has grown only by remaining candidates that `AddTrackToStack` refused. -/
theorem ChooseTrackLoop_true (rand : Nat → Nat) (fuel : Nat) :
    ∀ (stack : List GeneratorInfo) (failedTracks l : List track_type_t) (k : Nat)
      (stack' : List GeneratorInfo) (failedTracks' : List track_type_t) (k' : Nat),
      ChooseTrackLoop rand fuel stack failedTracks l k = some (true, stack', failedTracks', k') →
      (∃ t ∈ l, AddTrackToStack stack ⟨t, 4⟩ = some (true, stack')) ∧
      (∀ u ∈ failedTracks, u ∈ failedTracks') ∧
      (∀ u ∈ failedTracks', u ∈ failedTracks ∨
        (u ∈ l ∧ AddTrackToStack stack ⟨u, 4⟩ = some (false, stack))) := by
  induction fuel with
  | zero =>
    intro stack failedTracks l k stack' failedTracks' k' h
    simp [ChooseTrackLoop] at h
  | succ fuel ih =>
    intro stack failedTracks l k stack' failedTracks' k' h
    rw [ChooseTrackLoop_succ] at h
    by_cases he : l.isEmpty = true
    · rw [if_pos he] at h
      simp at h
    · rw [if_neg he] at h
      cases hg : l.get? (ChooseIndex rand l k).1 with
      | none =>
        rw [hg] at h
        exact Option.noConfusion h
      | some t =>
        rw [hg] at h
        simp only at h
        unfold ChooseTrackAttempt at h
        have htl : t ∈ l := List.get?_mem hg
        cases ha : AddTrackToStack stack ⟨t, 4⟩ with
        | none =>
          rw [ha] at h
          exact Option.noConfusion h
        | some r =>
          obtain ⟨b, stack1⟩ := r
          cases b with
          | true =>
            rw [ha] at h
            simp only [Option.some.injEq, Prod.mk.injEq, true_and] at h
            obtain ⟨h1, h2, _⟩ := h
            subst h1 h2
            exact ⟨⟨t, htl, ha⟩, fun u hu => hu, fun u hu => Or.inl hu⟩
          | false =>
            rw [ha] at h
            simp only at h
            have hs1 : stack1 = stack := AddTrackToStack_eq_false stack stack1 _ ha
            subst hs1
            obtain ⟨⟨t', ht', hadd⟩, h2, h3⟩ := ih _ _ _ _ _ _ _ h
            refine ⟨⟨t', List.mem_of_mem_eraseIdx ht', hadd⟩, ?_, ?_⟩
            · intro u hu
              exact h2 u ((mem_setInsert _ _ _).mpr (Or.inl hu))
            · intro u hu
              rcases h3 u hu with hu' | ⟨hu1, hu2⟩
              · rcases (mem_setInsert _ _ _).mp hu' with hu' | hu'
                · exact Or.inl hu'
                · rw [hu']
                  exact Or.inr ⟨htl, ha⟩
              · exact Or.inr ⟨List.mem_of_mem_eraseIdx hu1, hu2⟩

/-- When `AddTrackToStack` refuses every remaining candidate, the loop of `ChooseTrack` returns
`false`, provided it may run for more iterations than there are candidates. -/
theorem ChooseTrackLoop_all_fail (rand : Nat → Nat) (fuel : Nat) :
    ∀ (stack : List GeneratorInfo) (failedTracks l : List track_type_t) (k : Nat),
      l.length < fuel →
      (∀ t ∈ l, AddTrackToStack stack ⟨t, 4⟩ = some (false, stack)) →
      ∃ failedTracks' k',
        ChooseTrackLoop rand fuel stack failedTracks l k =
          some (false, stack, failedTracks', k') := by
  induction fuel with
  | zero =>
    intro stack failedTracks l k hlen _
    omega
  | succ fuel ih =>
    intro stack failedTracks l k hlen hall
    rw [ChooseTrackLoop_succ]
    by_cases he : l.isEmpty = true
    · rw [if_pos he]
      exact ⟨failedTracks, k, rfl⟩
    · rw [if_neg he]
      have hne : l ≠ [] := fun hl => he (List.isEmpty_iff.mpr hl)
      obtain ⟨t, hg⟩ := ChooseIndex_valid rand l k hne
      rw [hg]
      simp only
      unfold ChooseTrackAttempt
      rw [hall t (List.get?_mem hg)]
      simp only
      apply ih
      · have := length_eraseIdx_of_get? l _ t hg
        omega
      · intro u hu
        exact hall u (List.mem_of_mem_eraseIdx hu)

/-- On a non-empty stack `AddTrackToStack` returns. -/
theorem AddTrackToStack_returns (stack : List GeneratorInfo) (track : TrackDesignTrackElement)
    (hne : stack ≠ []) : ∃ b stack', AddTrackToStack stack track = some (b, stack') := by
  obtain ⟨lastInfo, hlast⟩ := getLast?_isSome_of_ne_nil stack hne
  rw [AddTrackToStack_eq stack lastInfo track hlast]
  split
  · exact ⟨_, _, rfl⟩
  · split
    · exact ⟨_, _, rfl⟩
    · split
      · exact ⟨_, _, rfl⟩
      · exact ⟨_, _, rfl⟩

/-- On a non-empty stack the loop of `ChooseTrack` returns, provided it may run for more
iterations than there are candidates. -/
theorem ChooseTrackLoop_returns (rand : Nat → Nat) (fuel : Nat) :
    ∀ (stack : List GeneratorInfo) (failedTracks l : List track_type_t) (k : Nat),
      stack ≠ [] → l.length < fuel →
      ∃ b stack' failedTracks' k',
        ChooseTrackLoop rand fuel stack failedTracks l k = some (b, stack', failedTracks', k') := by
  induction fuel with
  | zero =>
    intro stack failedTracks l k _ hlen
    omega
  | succ fuel ih =>
    intro stack failedTracks l k hne hlen
    rw [ChooseTrackLoop_succ]
    by_cases he : l.isEmpty = true
    · rw [if_pos he]
      exact ⟨_, _, _, _, rfl⟩
    · rw [if_neg he]
      have hl : l ≠ [] := fun h => he (List.isEmpty_iff.mpr h)
      obtain ⟨t, hg⟩ := ChooseIndex_valid rand l k hl
      rw [hg]
      simp only
      unfold ChooseTrackAttempt
      obtain ⟨b, stack1, ha⟩ := AddTrackToStack_returns stack ⟨t, 4⟩ hne
      cases b with
      | true =>
        rw [ha]
        exact ⟨_, _, _, _, rfl⟩
      | false =>
        rw [ha]
        simp only
        have hs1 : stack1 = stack := AddTrackToStack_eq_false stack stack1 _ ha
        subst hs1
        apply ih _ _ _ _ hne
        have := length_eraseIdx_of_get? l _ t hg
        omega

/-- C15 as stated fails: for the successor list of the pieces that end on a 25-degree upward
slope, which holds both vertical loops (left at index 7, right at index 8), the index picked is
7, the index of the left vertical loop, and not the index of the right one. -/
theorem ChooseIndex_not_right_loop :
    TRACK_ELEM_RIGHT_VERTICAL_LOOP ∈ statesForTrackElem25DegUp ∧
    TRACK_ELEM_LEFT_VERTICAL_LOOP ∈ statesForTrackElem25DegUp ∧
    findIndex statesForTrackElem25DegUp TRACK_ELEM_RIGHT_VERTICAL_LOOP = some 8 ∧
    (ChooseIndex (fun _ => 0) statesForTrackElem25DegUp 0).1 ≠ 8 ∧
    statesForTrackElem25DegUp.get? (ChooseIndex (fun _ => 0) statesForTrackElem25DegUp 0).1 ≠
      some TRACK_ELEM_RIGHT_VERTICAL_LOOP := by
  decide

/-- C15, amended: when the remaining candidate list of `ChooseTrack` contains both vertical
loops, the index picked is that of the left vertical loop (left takes precedence over right), no
random value is drawn, and the iteration attempts the left vertical loop. -/
theorem ChooseIndex_both_loops (rand : Nat → Nat) (fuel : Nat) (stack : List GeneratorInfo)
    (failedTracks l : List track_type_t) (k : Nat)
    (hr : TRACK_ELEM_RIGHT_VERTICAL_LOOP ∈ l) (hl : TRACK_ELEM_LEFT_VERTICAL_LOOP ∈ l) :
    ∃ j, findIndex l TRACK_ELEM_LEFT_VERTICAL_LOOP = some j ∧
      l.get? j = some TRACK_ELEM_LEFT_VERTICAL_LOOP ∧
      ChooseIndex rand l k = (j, k) ∧
      ChooseTrackLoop rand (fuel + 1) stack failedTracks l k =
        ChooseTrackAttempt rand fuel stack failedTracks l j TRACK_ELEM_LEFT_VERTICAL_LOOP k := by
  obtain ⟨j, hj, hc⟩ := ChooseIndex_left rand l k hl
  have hg := findIndex_eq_some l _ j hj
  refine ⟨j, hj, hg, hc, ?_⟩
  have hne : l.isEmpty = false := by
    cases l with
    | nil => exact absurd hr (List.not_mem_nil _)
    | cons a rest => rfl
  rw [ChooseTrackLoop_succ, hc, hne]
  simp only [Bool.false_eq_true, if_false, hg]

/-- Witness for C15: the successor list of the pieces that end on a 25-degree upward slope. -/
theorem ChooseIndex_both_loops_witness :
    TRACK_ELEM_RIGHT_VERTICAL_LOOP ∈ statesForTrackElem25DegUp ∧
    TRACK_ELEM_LEFT_VERTICAL_LOOP ∈ statesForTrackElem25DegUp ∧
    ∃ j, findIndex statesForTrackElem25DegUp TRACK_ELEM_LEFT_VERTICAL_LOOP = some j ∧
      statesForTrackElem25DegUp.get? j = some TRACK_ELEM_LEFT_VERTICAL_LOOP ∧
      ChooseIndex (fun n => n) statesForTrackElem25DegUp 3 = (j, 3) ∧
      ChooseTrackLoop (fun n => n) (9 + 1) [initialInfo] [] statesForTrackElem25DegUp 3 =
        ChooseTrackAttempt (fun n => n) 9 [initialInfo] [] statesForTrackElem25DegUp j
          TRACK_ELEM_LEFT_VERTICAL_LOOP 3 :=
  ⟨by decide, by decide,
    ChooseIndex_both_loops (fun n => n) 9 [initialInfo] [] statesForTrackElem25DegUp 3
      (by decide) (by decide)⟩

/-- C16: in every iteration of the loop of `ChooseTrack`, if the remaining candidate list holds a
vertical loop then the candidate attempted is a vertical loop, whatever the random source is, and
no random value is drawn; when no vertical loop remains (and the list is not empty) the index is
`rand() % size`. -/
theorem ChooseTrackLoop_loop_first (rand : Nat → Nat) (fuel : Nat) (stack : List GeneratorInfo)
    (failedTracks l : List track_type_t) (k : Nat) :
    ((TRACK_ELEM_LEFT_VERTICAL_LOOP ∈ l ∨ TRACK_ELEM_RIGHT_VERTICAL_LOOP ∈ l) →
      ∃ t j, (t = TRACK_ELEM_LEFT_VERTICAL_LOOP ∨ t = TRACK_ELEM_RIGHT_VERTICAL_LOOP) ∧
        l.get? j = some t ∧
        ∀ rand' : Nat → Nat,
          ChooseIndex rand' l k = (j, k) ∧
          ChooseTrackLoop rand' (fuel + 1) stack failedTracks l k =
            ChooseTrackAttempt rand' fuel stack failedTracks l j t k) ∧
    ((TRACK_ELEM_LEFT_VERTICAL_LOOP ∉ l ∧ TRACK_ELEM_RIGHT_VERTICAL_LOOP ∉ l ∧ l ≠ []) →
      ChooseIndex rand l k = (rand k % l.length, k + 1) ∧
      ∃ t, l.get? (rand k % l.length) = some t ∧
        ChooseTrackLoop rand (fuel + 1) stack failedTracks l k =
          ChooseTrackAttempt rand fuel stack failedTracks l (rand k % l.length) t (k + 1)) := by
  constructor
  · intro h
    have hne : l.isEmpty = false := by
      cases l with
      | nil => simp at h
      | cons a rest => rfl
    by_cases hl : TRACK_ELEM_LEFT_VERTICAL_LOOP ∈ l
    · obtain ⟨j, hj, _⟩ := ChooseIndex_left rand l k hl
      have hg := findIndex_eq_some l _ j hj
      refine ⟨_, j, Or.inl rfl, hg, fun rand' => ?_⟩
      have hc : ChooseIndex rand' l k = (j, k) := by simp [ChooseIndex, hj]
      refine ⟨hc, ?_⟩
      rw [ChooseTrackLoop_succ, hc, hne]
      simp only [Bool.false_eq_true, if_false, hg]
    · have hr : TRACK_ELEM_RIGHT_VERTICAL_LOOP ∈ l := by
        rcases h with h | h
        · exact absurd h hl
        · exact h
      obtain ⟨j, hj, _⟩ := ChooseIndex_right rand l k hl hr
      have hg := findIndex_eq_some l _ j hj
      refine ⟨_, j, Or.inr rfl, hg, fun rand' => ?_⟩
      have hc : ChooseIndex rand' l k = (j, k) := by
        simp [ChooseIndex, hj, findIndex_eq_none l _ hl]
      refine ⟨hc, ?_⟩
      rw [ChooseTrackLoop_succ, hc, hne]
      simp only [Bool.false_eq_true, if_false, hg]
  · intro h
    obtain ⟨hl, hr, hne⟩ := h
    have hc := ChooseIndex_rand rand l k hl hr
    refine ⟨hc, ?_⟩
    obtain ⟨t, hg⟩ := ChooseIndex_valid rand l k hne
    rw [hc] at hg
    refine ⟨t, hg, ?_⟩
    have hne' : l.isEmpty = false := by
      cases l with
      | nil => exact absurd rfl hne
      | cons a rest => rfl
    rw [ChooseTrackLoop_succ, hc, hne']
    simp only [Bool.false_eq_true, if_false, hg]

/-- C17: `ChooseTrack` returns `false` if and only if `AddTrackToStack` refuses, on the current
stack, every successor that is not in the failed set; then the stack is unchanged and the failed
set holds every id of the successor list.  If it returns `true`, exactly one frame was pushed,
its last piece is a successor that was not in the failed set on entry, and the failed set grew
only by successors whose placement was tried and refused.  On a non-empty stack `ChooseTrack`
always returns. -/
theorem ChooseTrack_outcome (rand : Nat → Nat) (stack : List GeneratorInfo)
    (failedTracks nextPossibleTracks : List track_type_t) (k : Nat) :
    ((∃ stack' failedTracks' k',
        ChooseTrack rand stack failedTracks nextPossibleTracks k =
          some (false, stack', failedTracks', k')) ↔
      ∀ t ∈ nextPossibleTracks, t ∉ failedTracks →
        AddTrackToStack stack ⟨t, 4⟩ = some (false, stack)) ∧
    (∀ stack' failedTracks' k',
      ChooseTrack rand stack failedTracks nextPossibleTracks k =
          some (false, stack', failedTracks', k') →
      stack' = stack ∧ (∀ t ∈ nextPossibleTracks, t ∈ failedTracks') ∧
      (∀ u, u ∈ failedTracks' ↔ u ∈ failedTracks ∨ u ∈ nextPossibleTracks)) ∧
    (∀ stack' failedTracks' k',
      ChooseTrack rand stack failedTracks nextPossibleTracks k =
          some (true, stack', failedTracks', k') →
      ∃ t newInfo, t ∈ nextPossibleTracks ∧ t ∉ failedTracks ∧
        AddTrackToStack stack ⟨t, 4⟩ = some (true, stack') ∧
        stack' = stack ++ [newInfo] ∧ newInfo.tracks.getLast? = some ⟨t, 4⟩ ∧
        (∀ u ∈ failedTracks, u ∈ failedTracks') ∧
        (∀ u ∈ failedTracks', u ∈ failedTracks ∨
          (u ∈ nextPossibleTracks ∧ u ∉ failedTracks ∧
            AddTrackToStack stack ⟨u, 4⟩ = some (false, stack)))) ∧
    (stack ≠ [] →
      ∃ b stack' failedTracks' k',
        ChooseTrack rand stack failedTracks nextPossibleTracks k =
          some (b, stack', failedTracks', k')) := by
  have hmem : ∀ u, u ∈ nextPossibleTracks.filter (fun npt => decide (npt ∉ failedTracks)) ↔
      u ∈ nextPossibleTracks ∧ u ∉ failedTracks := by
    intro u
    simp [List.mem_filter]
  refine ⟨⟨?_, ?_⟩, ?_, ?_, ?_⟩
  · rintro ⟨stack', failedTracks', k', h⟩ t ht hnf
    unfold ChooseTrack at h
    exact (ChooseTrackLoop_false rand _ _ _ _ _ _ _ _ h).2.1 t ((hmem t).mpr ⟨ht, hnf⟩)
  · intro hall
    unfold ChooseTrack
    obtain ⟨f', k', h⟩ := ChooseTrackLoop_all_fail rand
      ((nextPossibleTracks.filter (fun npt => decide (npt ∉ failedTracks))).length + 1) stack
      failedTracks _ k (Nat.lt_succ_self _)
      (fun t ht => hall t ((hmem t).mp ht).1 ((hmem t).mp ht).2)
    exact ⟨stack, f', k', h⟩
  · intro stack' failedTracks' k' h
    unfold ChooseTrack at h
    obtain ⟨h1, _, h3⟩ := ChooseTrackLoop_false rand _ _ _ _ _ _ _ _ h
    have h4 : ∀ u, u ∈ failedTracks' ↔ u ∈ failedTracks ∨ u ∈ nextPossibleTracks := by
      intro u
      rw [h3 u, hmem u]
      tauto
    exact ⟨h1, fun t ht => (h4 t).mpr (Or.inr ht), h4⟩
  · intro stack' failedTracks' k' h
    unfold ChooseTrack at h
    obtain ⟨⟨t, ht, hadd⟩, h2, h3⟩ := ChooseTrackLoop_true rand _ _ _ _ _ _ _ _ h
    obtain ⟨lastInfo, _, _, _, _, hst⟩ := AddTrackToStack_eq_true stack stack' _ hadd
    refine ⟨t, _, ((hmem t).mp ht).1, ((hmem t).mp ht).2, hadd, hst, ?_, h2, ?_⟩
    · simp
    · intro u hu
      rcases h3 u hu with hu' | ⟨hu1, hu2⟩
      · exact Or.inl hu'
      · exact Or.inr ⟨((hmem u).mp hu1).1, ((hmem u).mp hu1).2, hu2⟩
  · intro hne
    unfold ChooseTrack
    exact ChooseTrackLoop_returns rand _ stack failedTracks _ k hne (Nat.lt_succ_self _)

/-! ### Backtrack steps -/

/-- The counter of backtrack steps never decreases, and a loop entered with at most
`kTryPerAttempt` steps is left with at most `kTryPerAttempt + 1`. -/
theorem SearchLoop_steps_bound (rand : Nat → Nat) (fuel : Nat) :
    ∀ (stack : List GeneratorInfo) (steps k : Nat) (success : Bool) (stack' : List GeneratorInfo)
      (steps' k' : Nat), steps ≤ kTryPerAttempt →
      SearchLoop rand fuel stack steps k = SearchResult.finished success stack' steps' k' →
      steps ≤ steps' ∧ steps' ≤ kTryPerAttempt + 1 := by
  induction fuel with
  | zero =>
    intro stack steps k success stack' steps' k' _ h
    simp [SearchLoop] at h
  | succ fuel ih =>
    intro stack steps k success stack' steps' k' hle h
    unfold SearchLoop at h
    split at h
    · exact SearchResult.noConfusion h
    · split at h
      · injection h with h1 h2 h3 h4
        subst h3
        exact ⟨Nat.le_refl _, Nat.le_succ_of_le hle⟩
      · split at h
        · exact SearchResult.noConfusion h
        · split at h
          · exact SearchResult.noConfusion h
          · split at h
            · exact SearchResult.noConfusion h
            · exact ih _ _ _ _ _ _ _ hle h
            · split at h
              · exact SearchResult.noConfusion h
              · split at h
                · rename_i hgt
                  injection h with h1 h2 h3 h4
                  subst h3
                  exact ⟨Nat.le_succ _, Nat.succ_le_succ hle⟩
                · rename_i hgt
                  have hle' : steps + 1 ≤ kTryPerAttempt := Nat.le_of_not_gt hgt
                  obtain ⟨h1, h2⟩ := ih _ _ _ _ _ _ _ hle' h
                  exact ⟨Nat.le_trans (Nat.le_succ _) h1, h2⟩

/-- C19 as stated fails: the loop, having performed 64,000 backtrack steps and standing on a dead
end, pops once more before the test `steps > kTryPerAttempt` ends the attempt, which then has
performed 64,001 backtrack steps. -/
theorem SearchLoop_64001_steps :
    SearchLoop (fun _ => 0) 1 [initialInfo, deadEndFrame] 64000 0 =
      SearchResult.finished false
        [withFailedTracks initialInfo (setInsert initialInfo.failedTracks TRACK_ELEM_FLAT)]
        64001 0 ∧
    ¬ (64001 ≤ 64000) :=
  ⟨rfl, by decide⟩

/-- C19, amended: in every attempt of `Generate` the number of backtrack steps performed before
the search loop ends is at most 64,001. -/
theorem SearchLoop_steps_le (rand : Nat → Nat) (fuel : Nat) (stack : List GeneratorInfo)
    (k : Nat) (success : Bool) (stack' : List GeneratorInfo) (steps' k' : Nat)
    (h : SearchLoop rand fuel stack 0 k = SearchResult.finished success stack' steps' k') :
    steps' ≤ 64001 :=
  (SearchLoop_steps_bound rand fuel stack 0 k success stack' steps' k' (Nat.zero_le _) h).2

/-- Witness for C19: a loop that backtracks once from a dead end onto a frame at the end pose. -/
theorem SearchLoop_steps_le_witness :
    SearchLoop (fun _ => 0) 2 [endFrame 101, deadEndFrame] 0 0 =
      SearchResult.finished true
        [withFailedTracks (endFrame 101) (setInsert (endFrame 101).failedTracks TRACK_ELEM_FLAT)]
        1 0 ∧
    1 ≤ 64001 :=
  ⟨rfl, SearchLoop_steps_le (fun _ => 0) 2 [endFrame 101, deadEndFrame] 0 true
    [withFailedTracks (endFrame 101) (setInsert (endFrame 101).failedTracks TRACK_ELEM_FLAT)]
    1 0 rfl⟩

/-! ### A refused forced piece

The branch of the prologue loop of `Generate` that is taken when `AddTrackToStack` refuses a
forced piece is `return {}`.  It is described here on `AttemptWith` and `GenerateWith`, which
take the list of forced pieces as a parameter; with the list of the source every forced piece
is placed (`AddInitialTracks_prologue`), so `Attempt` and `Generate` never take it. -/

/-- A piece whose exit leaves the grid is refused by `AddTrackToStack`. -/
theorem AddTrackToStack_of_exit_out (stack : List GeneratorInfo) (info : GeneratorInfo)
    (type : track_type_t) (dir : DirectionType) (piece : TrackPiece)
    (hlast : stack.getLast? = some info) (hdir : info.dir = dir)
    (hpiece : rotateTimes dir (trackDataAt type) = piece)
    (hob : OutOfBounds (AddCoords info.ptr piece.ptr) = true) :
    AddTrackToStack stack ⟨type, 4⟩ = some (false, stack) := by
  have hp : trackDataRotAt type info.dir = piece := by
    rw [hdir, trackDataRotAt_eq, hpiece]
  rw [AddTrackToStack_eq stack info ⟨type, 4⟩ hlast]
  simp only [hp, hob, if_true]

/-- The prologue loop stops at the first refused piece. -/
theorem AddInitialTracks_of_refused (track : TrackDesignTrackElement)
    (rest : List TrackDesignTrackElement) (stack : List GeneratorInfo)
    (h : AddTrackToStack stack track = some (false, stack)) :
    AddInitialTracks (track :: rest) stack = some (false, stack) := by
  simp only [AddInitialTracks, h]

/-- After a refused forced piece the attempt returns the empty sequence. -/
theorem AttemptWith_of_refused (toAdd : List TrackDesignTrackElement) (rand : Nat → Nat)
    (fuel k : Nat) (stack' : List GeneratorInfo)
    (h : AddInitialTracks toAdd [initialInfo] = some (false, stack')) :
    AttemptWith toAdd rand fuel k = AttemptResult.returned [] k := by
  unfold AttemptWith
  rw [h]

/-- After a refused forced piece the empty sequence is what the outer loop returns. -/
theorem GenerateWith_of_refused (toAdd : List TrackDesignTrackElement) (rand : Nat → Nat)
    (fuel attempts k : Nat) (stack' : List GeneratorInfo)
    (h : AddInitialTracks toAdd [initialInfo] = some (false, stack')) :
    GenerateWith toAdd rand fuel (attempts + 1) k = some [] := by
  have h2 := AttemptWith_of_refused toAdd rand fuel k stack' h
  simp only [GenerateWith, h2]

/-! ### Placements that fit -/

theorem bitOr_eq_one (u v : Int) (h : bitOr u v = 1) : u = 1 ∨ v = 1 := by
  unfold bitOr at h
  by_cases hc : u = 1 ∨ v = 1
  · exact hc
  · rw [if_neg hc] at h
    exact absurd h (by decide)

theorem CellsCollide_cellOr_inv (a b n : Cell) (ha : IsBitCell a) (hb : IsBitCell b)
    (h : CellsCollide (cellOr a b) n) : CellsCollide a n ∨ CellsCollide b n := by
  obtain ⟨a0, a1, a2, a3⟩ := ha
  obtain ⟨b0, b1, b2, b3⟩ := hb
  unfold CellsCollide cellOr at *
  simp only [int_lor_bits _ _ a0 b0, int_lor_bits _ _ a1 b1, int_lor_bits _ _ a2 b2,
    int_lor_bits _ _ a3 b3] at h
  rcases h with ⟨h, hn⟩ | ⟨h, hn⟩ | ⟨h, hn⟩ | ⟨h, hn⟩
  · rcases bitOr_eq_one _ _ h with h | h
    · exact Or.inl (Or.inl ⟨h, hn⟩)
    · exact Or.inr (Or.inl ⟨h, hn⟩)
  · rcases bitOr_eq_one _ _ h with h | h
    · exact Or.inl (Or.inr (Or.inl ⟨h, hn⟩))
    · exact Or.inr (Or.inr (Or.inl ⟨h, hn⟩))
  · rcases bitOr_eq_one _ _ h with h | h
    · exact Or.inl (Or.inr (Or.inr (Or.inl ⟨h, hn⟩)))
    · exact Or.inr (Or.inr (Or.inr (Or.inl ⟨h, hn⟩)))
  · rcases bitOr_eq_one _ _ h with h | h
    · exact Or.inl (Or.inr (Or.inr (Or.inr ⟨h, hn⟩)))
    · exact Or.inr (Or.inr (Or.inr (Or.inr ⟨h, hn⟩)))

theorem not_CellsCollide_foldl_cellOr (cs : List Cell) (n : Cell) :
    ∀ acc : Cell, IsBitCell acc → (∀ x ∈ cs, IsBitCell x) → ¬ CellsCollide acc n →
      (∀ x ∈ cs, ¬ CellsCollide x n) → ¬ CellsCollide (cs.foldl cellOr acc) n := by
  induction cs with
  | nil =>
    intro acc _ _ hacc _
    exact hacc
  | cons x rest ih =>
    intro acc hb hbs hacc hcs
    rw [List.foldl_cons]
    have hx : IsBitCell x := hbs x (List.mem_cons_self _ _)
    apply ih _ (IsBitCell_cellOr _ _ hb hx) (fun y hy => hbs y (List.mem_cons_of_mem _ hy))
    · intro hc
      rcases CellsCollide_cellOr_inv _ _ _ hb hx hc with hc | hc
      · exact hacc hc
      · exact hcs x (List.mem_cons_self _ _) hc
    · exact fun y hy => hcs y (List.mem_cons_of_mem _ hy)

/-- A cell that collides with no member of a disjoint-or does not collide with the or. -/
theorem DisjointOr_not_collide (v : Cell) (cs : List Cell) (n : Cell) (h : DisjointOr v cs)
    (hn : ∀ x ∈ cs, ¬ CellsCollide x n) : ¬ CellsCollide v n := by
  obtain ⟨hv, _, hb⟩ := h
  rw [hv]
  have hz : ¬ CellsCollide ⟨0, 0, 0, 0⟩ n := by
    unfold CellsCollide
    simp
  exact not_CellsCollide_foldl_cellOr cs n _ (by decide) hb hz hn

theorem placedCellsAt_append (c : Coord) (ps qs : List (Coord × TrackPiece)) :
    placedCellsAt c (ps ++ qs) = placedCellsAt c ps ++ placedCellsAt c qs := by
  induction ps with
  | nil => rfl
  | cons p rest ih =>
    rw [List.cons_append, placedCellsAt, placedCellsAt, ih, List.append_assoc]

theorem GridOf_initialInfo : GridOf initialInfo [] := by
  intro c _
  exact DisjointOr_singleton _ (IsBitCell_initialSpace _)

/-- A well-formed piece that fits is placed by the loop of `AddTrackToSpace`, and the grid of the
pushed frame is described by one more placement. -/
theorem pushWith_fits (info : GeneratorInfo) (track : TrackDesignTrackElement)
    (piece : TrackPiece) (placements : List (Coord × TrackPiece))
    (hg : GridOf info placements) (hw : WellFormedPiece piece)
    (hfit : FitsAt info.ptr piece placements) :
    (AddTrackToSpaceLoop info.ptr piece.shape (CopySpace info.space mallocSpace)).1 = true ∧
    GridOf (pushWith info track piece) (placements ++ [(info.ptr, piece)]) := by
  have hplaced : (AddTrackToSpaceLoop info.ptr piece.shape
      (CopySpace info.space mallocSpace)).1 = true := by
    rw [AddTrackToSpaceLoop_nodup_iff info.ptr piece.shape _ hw.1]
    intro tc htc
    obtain ⟨hob, hno⟩ := hfit tc htc
    refine ⟨hob, ?_⟩
    intro hnone
    rw [ResolveCells_eq_none_iff, ReadSpace_CopySpace _ _ _ hob] at hnone
    exact DisjointOr_not_collide _ _ _ (hg _ hob) hno hnone
  refine ⟨hplaced, ?_⟩
  intro c hc
  have hres : AddTrackToSpaceLoop info.ptr piece.shape (CopySpace info.space mallocSpace) =
      (true, (AddTrackToSpaceLoop info.ptr piece.shape (CopySpace info.space mallocSpace)).2) := by
    rw [← hplaced]
  have hstart : DisjointOr (ReadSpace (CopySpace info.space mallocSpace) c)
      (ReadSpace initialSpace c :: placedCellsAt c placements) := by
    rw [ReadSpace_CopySpace _ _ c hc]
    exact hg c hc
  have hd := AddTrackToSpaceLoop_disjointOr info.ptr piece.shape
    (CopySpace info.space mallocSpace) _ hw.2 hres c hc _ hstart
  have hpl : placedCellsAt c (placements ++ [(info.ptr, piece)]) =
      placedCellsAt c placements ++ cellsAt c info.ptr piece.shape := by
    rw [placedCellsAt_append]
    simp only [placedCellsAt, List.append_nil]
  show DisjointOr (ReadSpace (pushWith info track piece).space c) _
  rw [hpl]
  rw [List.cons_append] at hd
  exact hd

/-- A successful `AddTrackToStack` of a piece that fits, in terms of the mirrored-data entry of
the piece. -/
theorem AddTrackToStack_fits (stack : List GeneratorInfo) (info : GeneratorInfo)
    (type : track_type_t) (dir : DirectionType) (piece : TrackPiece)
    (placements : List (Coord × TrackPiece)) (ptr : Coord)
    (hlast : stack.getLast? = some info) (hdir : info.dir = dir)
    (hpiece : rotateTimes dir (trackDataAt type) = piece) (hptr : info.ptr = ptr)
    (hg : GridOf info placements) (hfit : FitsAt ptr piece placements)
    (hob : OutOfBounds (AddCoords ptr piece.ptr) = false)
    (hlim : ¬ ((((AddCoords ptr piece.ptr).z : Int) : ℚ) > heightLimit info.tracks.length)) :
    AddTrackToStack stack ⟨type, 4⟩ = some (true, stack ++ [pushWith info ⟨type, 4⟩ piece]) ∧
    GridOf (pushWith info ⟨type, 4⟩ piece) (placements ++ [(ptr, piece)]) := by
  have hp : trackDataRotAt type info.dir = piece := by
    rw [hdir, trackDataRotAt_eq, hpiece]
  have hw : WellFormedPiece piece := by
    rw [← hp]
    exact trackDataRotAt_wellFormed _ _
  subst hptr
  obtain ⟨hplaced, hgrid⟩ := pushWith_fits info ⟨type, 4⟩ piece placements hg hw hfit
  refine ⟨?_, hgrid⟩
  have hpush : pushedFrame info ⟨type, 4⟩ = pushWith info ⟨type, 4⟩ piece := by
    simp only [pushedFrame, pushWith, AddTrackToSpace, hp]
  rw [← hpush]
  apply AddTrackToStack_of_placed stack info ⟨type, 4⟩ hlast
  · simp only [hp]
    exact hob
  · simp only [hp]
    exact hlim
  · simp only [AddTrackToSpace, hp]
    exact hplaced

theorem AddInitialTracks_cons (track : TrackDesignTrackElement)
    (rest : List TrackDesignTrackElement) (stack stack' : List GeneratorInfo)
    (h : AddTrackToStack stack track = some (true, stack')) :
    AddInitialTracks (track :: rest) stack = AddInitialTracks rest stack' := by
  simp only [AddInitialTracks, h]

/-! ### The prologue -/

theorem prologue_step1 :
    AddTrackToStack [initialInfo] ⟨TRACK_ELEM_BEGIN_STATION, 4⟩ =
      some (true, [initialInfo, prologueFrame1]) ∧
    GridOf prologueFrame1 (prologuePlacements.take 1) :=
  AddTrackToStack_fits [initialInfo] initialInfo TRACK_ELEM_BEGIN_STATION kEast prologuePiece1
    [] ⟨0, 4, 0⟩ rfl rfl (by decide!) rfl GridOf_initialInfo (by decide!) (by decide!)
    (by decide!)

theorem prologue_step2 :
    AddTrackToStack [initialInfo, prologueFrame1] ⟨TRACK_ELEM_MIDDLE_STATION, 4⟩ =
      some (true, [initialInfo, prologueFrame1, prologueFrame2]) ∧
    GridOf prologueFrame2 (prologuePlacements.take 2) :=
  AddTrackToStack_fits [initialInfo, prologueFrame1] prologueFrame1 TRACK_ELEM_MIDDLE_STATION
    kEast prologuePiece1 (prologuePlacements.take 1) ⟨0, 5, 0⟩ rfl (by decide!) (by decide!)
    (by decide!) prologue_step1.2 (by decide!) (by decide!) (by decide!)

theorem prologue_step3 :
    AddTrackToStack [initialInfo, prologueFrame1, prologueFrame2] ⟨TRACK_ELEM_MIDDLE_STATION, 4⟩ =
      some (true, [initialInfo, prologueFrame1, prologueFrame2, prologueFrame3]) ∧
    GridOf prologueFrame3 (prologuePlacements.take 3) :=
  AddTrackToStack_fits [initialInfo, prologueFrame1, prologueFrame2] prologueFrame2
    TRACK_ELEM_MIDDLE_STATION kEast prologuePiece1 (prologuePlacements.take 2) ⟨0, 6, 0⟩ rfl
    (by decide!) (by decide!) (by decide!) prologue_step2.2 (by decide!) (by decide!)
    (by decide!)

theorem prologue_step4 :
    AddTrackToStack [initialInfo, prologueFrame1, prologueFrame2, prologueFrame3]
        ⟨TRACK_ELEM_END_STATION, 4⟩ =
      some (true, [initialInfo, prologueFrame1, prologueFrame2, prologueFrame3, prologueFrame4]) ∧
    GridOf prologueFrame4 (prologuePlacements.take 4) :=
  AddTrackToStack_fits [initialInfo, prologueFrame1, prologueFrame2, prologueFrame3]
    prologueFrame3 TRACK_ELEM_END_STATION kEast prologuePiece1 (prologuePlacements.take 3)
    ⟨0, 7, 0⟩ rfl (by decide!) (by decide!) (by decide!) prologue_step3.2 (by decide!)
    (by decide!) (by decide!)

theorem prologue_step5 :
    AddTrackToStack [initialInfo, prologueFrame1, prologueFrame2, prologueFrame3, prologueFrame4]
        ⟨TRACK_ELEM_FLAT_TO_LEFT_BANKED_25_DEG_UP, 4⟩ =
      some (true, [initialInfo, prologueFrame1, prologueFrame2, prologueFrame3, prologueFrame4,
        prologueFrame5]) ∧
    GridOf prologueFrame5 (prologuePlacements.take 5) :=
  AddTrackToStack_fits
    [initialInfo, prologueFrame1, prologueFrame2, prologueFrame3, prologueFrame4]
    prologueFrame4 TRACK_ELEM_FLAT_TO_LEFT_BANKED_25_DEG_UP kEast prologuePiece5
    (prologuePlacements.take 4) ⟨0, 8, 0⟩ rfl (by decide!) (by decide!) (by decide!)
    prologue_step4.2 (by decide!) (by decide!) (by decide!)

theorem prologue_step6 :
    AddTrackToStack
        [initialInfo, prologueFrame1, prologueFrame2, prologueFrame3, prologueFrame4,
          prologueFrame5]
        ⟨TRACK_ELEM_LEFT_BANKED_QUARTER_TURN_5_TILE_25_DEG_UP, 4⟩ =
      some (true, [initialInfo, prologueFrame1, prologueFrame2, prologueFrame3, prologueFrame4,
        prologueFrame5, prologueFrame6]) ∧
    GridOf prologueFrame6 (prologuePlacements.take 6) :=
  AddTrackToStack_fits
    [initialInfo, prologueFrame1, prologueFrame2, prologueFrame3, prologueFrame4, prologueFrame5]
    prologueFrame5 TRACK_ELEM_LEFT_BANKED_QUARTER_TURN_5_TILE_25_DEG_UP kEast prologuePiece6
    (prologuePlacements.take 5) ⟨0, 9, 1⟩ rfl (by decide!) (by decide!) (by decide!)
    prologue_step5.2 (by decide!) (by decide!) (by decide!)

theorem prologue_step7 :
    AddTrackToStack
        [initialInfo, prologueFrame1, prologueFrame2, prologueFrame3, prologueFrame4,
          prologueFrame5, prologueFrame6]
        ⟨TRACK_ELEM_LEFT_BANKED_QUARTER_TURN_5_TILE_25_DEG_UP, 4⟩ =
      some (true, [initialInfo, prologueFrame1, prologueFrame2, prologueFrame3, prologueFrame4,
        prologueFrame5, prologueFrame6, prologueFrame7]) ∧
    GridOf prologueFrame7 (prologuePlacements.take 7) :=
  AddTrackToStack_fits
    [initialInfo, prologueFrame1, prologueFrame2, prologueFrame3, prologueFrame4, prologueFrame5,
      prologueFrame6]
    prologueFrame6 TRACK_ELEM_LEFT_BANKED_QUARTER_TURN_5_TILE_25_DEG_UP kNorth prologuePiece7
    (prologuePlacements.take 6) ⟨3, 11, 5⟩ rfl (by decide!) (by decide!) (by decide!)
    prologue_step6.2 (by decide!) (by decide!) (by decide!)

/-- The seven forced pieces are all added, and leave the stack `prologueStack`. -/
theorem AddInitialTracks_prologue :
    AddInitialTracks tracksToAdd [initialInfo] = some (true, prologueStack) := by
  unfold tracksToAdd
  rw [AddInitialTracks_cons _ _ _ _ prologue_step1.1,
    AddInitialTracks_cons _ _ _ _ prologue_step2.1,
    AddInitialTracks_cons _ _ _ _ prologue_step3.1,
    AddInitialTracks_cons _ _ _ _ prologue_step4.1,
    AddInitialTracks_cons _ _ _ _ prologue_step5.1,
    AddInitialTracks_cons _ _ _ _ prologue_step6.1,
    AddInitialTracks_cons _ _ _ _ prologue_step7.1]
  rfl

theorem ReachableStack_prologueStack : ReachableStack prologueStack :=
  ReachableStack.push _ _ _
    (ReachableStack.push _ _ _
      (ReachableStack.push _ _ _
        (ReachableStack.push _ _ _
          (ReachableStack.push _ _ _
            (ReachableStack.push _ _ _
              (ReachableStack.push _ _ _ ReachableStack.initial prologue_step1.1)
              prologue_step2.1)
            prologue_step3.1)
          prologue_step4.1)
        prologue_step5.1)
      prologue_step6.1)
    prologue_step7.1

/-- C12: from the initial frame of an attempt all seven forced placements of the prologue
succeed, and the resulting top frame holds the seven pieces, has as anchor `(0,4,0)` advanced by
the successive oriented exits of the prologue pieces, which is `(y,x,z) = (5,8,9)`, and has
heading west, east turned left twice. -/
theorem prologue_succeeds :
    ∃ stack top, AddInitialTracks tracksToAdd [initialInfo] = some (true, stack) ∧
      stack.length = 8 ∧ stack.getLast? = some top ∧ top.tracks = tracksToAdd ∧
      (top.ptr, top.dir) = poseAfter ⟨0, 4, 0⟩ kEast tracksToAdd ∧
      top.ptr = ⟨5, 8, 9⟩ ∧ top.dir = kWest ∧ TurnLeft (TurnLeft kEast) = kWest := by
  have htracks : prologueFrame7.tracks = tracksToAdd := by decide!
  have hinv := ReachableStack_frameInv prologueStack ReachableStack_prologueStack prologueFrame7
    (by simp [prologueStack])
  refine ⟨prologueStack, prologueFrame7, AddInitialTracks_prologue, rfl, rfl, htracks, ?_,
    by decide!, by decide!, rfl⟩
  rw [← htracks]
  exact hinv.1.symm

/-! ### The keys of the successor map -/

theorem trackStateMachine_keys : ∀ e ∈ trackDataMirrored,
    (e.1 ∈ noSuccessorIds → mapFind trackStateMachine e.1 = none) ∧
    (e.1 ∉ noSuccessorIds → (mapFind trackStateMachine e.1).isSome = true) := by
  decide!

theorem noSuccessorIds_not_listed : ∀ e ∈ trackStateMachine, ∀ s ∈ e.2, s ∉ noSuccessorIds := by
  decide!

/-- C21 as stated fails: `TRACK_ELEM_BEGIN_STATION` is a key of `trackData` (its entry is the flat
piece), and `trackStateMachine` has no entry for it. -/
theorem trackStateMachine_station_missing :
    mapFind trackDataMirrored TRACK_ELEM_BEGIN_STATION = some trackPieceForFlat ∧
    mapFind trackStateMachine TRACK_ELEM_BEGIN_STATION = none ∧
    ¬ ∃ states, mapFind trackStateMachine TRACK_ELEM_BEGIN_STATION = some states := by
  refine ⟨by decide!, by decide!, ?_⟩
  rintro ⟨states, h⟩
  have h0 : mapFind trackStateMachine TRACK_ELEM_BEGIN_STATION = none := by decide!
  rw [h0] at h
  exact Option.noConfusion h

/-- C21, amended: for every key of `trackData` after the mirror loop other than the three station
pieces and the two plain quarter turns of 3 tiles, `trackStateMachine` holds an entry giving a
list of candidate next piece ids; the five excepted ids have no entry, and none of them is listed
in any successor list. -/
theorem trackStateMachine_entries (t : track_type_t) (p : TrackPiece)
    (h : mapFind trackDataMirrored t = some p) :
    (t ∉ noSuccessorIds → ∃ states, mapFind trackStateMachine t = some states) ∧
    (t ∈ noSuccessorIds → mapFind trackStateMachine t = none) ∧
    (∀ u states, mapFind trackStateMachine u = some states → ∀ s ∈ states,
      s ∉ noSuccessorIds) := by
  have hk := trackStateMachine_keys (t, p) (mem_of_mapFind_eq_some _ _ _ h)
  refine ⟨fun hn => ?_, hk.1, fun u states hu s hs => ?_⟩
  · exact Option.isSome_iff_exists.mp (hk.2 hn)
  · exact noSuccessorIds_not_listed (u, states) (mem_of_mapFind_eq_some _ _ _ hu) s hs

theorem trackStateMachine_entries_witness :
    mapFind trackDataMirrored TRACK_ELEM_FLAT = some trackPieceForFlat ∧
    ((TRACK_ELEM_FLAT ∉ noSuccessorIds →
      ∃ states, mapFind trackStateMachine TRACK_ELEM_FLAT = some states) ∧
    (TRACK_ELEM_FLAT ∈ noSuccessorIds → mapFind trackStateMachine TRACK_ELEM_FLAT = none) ∧
    (∀ u states, mapFind trackStateMachine u = some states → ∀ s ∈ states,
      s ∉ noSuccessorIds)) :=
  ⟨by decide!, trackStateMachine_entries TRACK_ELEM_FLAT trackPieceForFlat (by decide!)⟩

/-! ### The entries of the catalogue -/

theorem mem_mapAssign {K V : Type} [DecidableEq K] (m : List (K × V)) (k : K) (v : V)
    (e : K × V) (h : e ∈ mapAssign m k v) : e = (k, v) ∨ e ∈ m := by
  induction m with
  | nil =>
    left
    simpa [mapAssign] using h
  | cons e0 rest ih =>
    obtain ⟨k0, v0⟩ := e0
    by_cases h0 : k0 = k
    · simp only [mapAssign, h0, if_true, List.mem_cons] at h
      rcases h with h | h
      · exact Or.inl h
      · exact Or.inr (List.mem_cons_of_mem _ h)
    · simp only [mapAssign, h0, if_false, List.mem_cons] at h
      rcases h with h | h
      · exact Or.inr (by rw [h]; exact List.mem_cons_self _ _)
      · rcases ih h with h1 | h1
        · exact Or.inl h1
        · exact Or.inr (List.mem_cons_of_mem _ h1)

theorem mem_GenerateRotatedEntry (rot : List ((track_type_t × DirectionType) × TrackPiece))
    (t : track_type_t) (p : TrackPiece) (e : (track_type_t × DirectionType) × TrackPiece)
    (h : e ∈ GenerateRotatedEntry rot t p) :
    e ∈ rot ∨ ∃ d, e = ((t, d), rotateTimes d p) := by
  simp only [GenerateRotatedEntry, List.foldl] at h
  rcases mem_mapAssign _ _ _ _ h with h | h
  · exact Or.inr ⟨kWest, h⟩
  · rcases mem_mapAssign _ _ _ _ h with h | h
    · exact Or.inr ⟨kSouth, h⟩
    · rcases mem_mapAssign _ _ _ _ h with h | h
      · exact Or.inr ⟨kEast, h⟩
      · rcases mem_mapAssign _ _ _ _ h with h | h
        · exact Or.inr ⟨kNorth, h⟩
        · exact Or.inl h

theorem mem_foldl_GenerateRotatedEntry (td : List (track_type_t × TrackPiece)) :
    ∀ (rot : List ((track_type_t × DirectionType) × TrackPiece))
      (e : (track_type_t × DirectionType) × TrackPiece),
      e ∈ td.foldl (fun rot x => GenerateRotatedEntry rot x.1 x.2) rot →
      e ∈ rot ∨ ∃ x ∈ td, ∃ d, e = ((x.1, d), rotateTimes d x.2) := by
  induction td with
  | nil =>
    intro rot e h
    exact Or.inl h
  | cons x rest ih =>
    intro rot e h
    rw [List.foldl_cons] at h
    rcases ih _ e h with h | ⟨y, hy, d, he⟩
    · rcases mem_GenerateRotatedEntry rot x.1 x.2 e h with h | ⟨d, he⟩
      · exact Or.inl h
      · exact Or.inr ⟨x, List.mem_cons_self _ _, d, he⟩
    · exact Or.inr ⟨y, List.mem_cons_of_mem _ hy, d, he⟩

theorem mem_trackDataRot (e : (track_type_t × DirectionType) × TrackPiece)
    (h : e ∈ trackDataRot) : ∃ x ∈ trackDataMirrored, ∃ d, e = ((x.1, d), rotateTimes d x.2) := by
  rcases mem_foldl_GenerateRotatedEntry trackDataMirrored [] e h with h | h
  · exact absurd h (List.not_mem_nil e)
  · exact h

theorem trackDataMirrored_total (t : track_type_t) :
    ∃ p, mapFind trackDataMirrored t = some p ∧ p.shape ≠ [] := by
  have hall : ∀ u ∈ allTrackTypes, ∃ p, mapFind trackDataMirrored u = some p ∧ p.shape ≠ [] := by
    decide!
  have hmem : t ∈ allTrackTypes := by
    cases t <;> decide!
  exact hall t hmem

theorem mapFind_trackDataRot (t : track_type_t) (d : DirectionType) :
    mapFind trackDataRot (t, d) = some (trackDataRotAt t d) := by
  obtain ⟨p, hp, _⟩ := trackDataMirrored_total t
  have h := mapFind_foldl_GenerateRotatedEntry trackDataMirrored [] t d
    trackDataMirrored_keys_nodup
  rw [hp] at h
  have h2 : trackDataRotAt t d = rotateTimes d p := by
    rw [trackDataRotAt_eq]
    unfold trackDataAt
    rw [hp]
    rfl
  rw [h2]
  exact h

theorem ResolveCells_zero_left (c : Cell) : ResolveCells ⟨0, 0, 0, 0⟩ c ≠ none := by
  simp [ResolveCells]

/-- C23: in every entry of the built catalogue `trackDataRot` the footprint coordinates of the
cells are pairwise distinct; the catalogue has such an entry for every piece id at each of the
four headings; and a piece whose cells all fall on in-bounds empty cells of a grid is placed
successfully there by `AddTrackToSpace`: it does not collide with itself. -/
theorem trackDataRot_coords_distinct :
    (∀ e ∈ trackDataRot, (e.2.shape.map (fun tc => tc.coord)).Nodup) ∧
    (∀ (t : track_type_t) (d : DirectionType),
      mapFind trackDataRot (t, d) = some (trackDataRotAt t d) ∧
      ((trackDataRotAt t d).shape.map (fun tc => tc.coord)).Nodup) ∧
    (∀ (space : Space) (ptr : Coord) (dir : DirectionType) (track : TrackDesignTrackElement),
      (∀ tc ∈ (trackDataRotAt track.type dir).shape,
        OutOfBounds (AddCoords ptr tc.coord) = false ∧
        ReadSpace space (AddCoords ptr tc.coord) = ⟨0, 0, 0, 0⟩) →
      (AddTrackToSpace space ptr dir track).1 = true) := by
  refine ⟨?_, ?_, ?_⟩
  · intro e he
    obtain ⟨x, hx, d, rfl⟩ := mem_trackDataRot e he
    exact (WellFormedPiece_rotateTimes d x.2 (trackDataMirrored_wellFormed x hx)).1
  · intro t d
    exact ⟨mapFind_trackDataRot t d, (trackDataRotAt_wellFormed t d).1⟩
  · intro space ptr dir track h
    unfold AddTrackToSpace
    rw [AddTrackToSpaceLoop_nodup_iff ptr _ space (trackDataRotAt_wellFormed track.type dir).1]
    intro tc htc
    refine ⟨(h tc htc).1, ?_⟩
    rw [(h tc htc).2]
    exact ResolveCells_zero_left tc.cell

theorem trackDataAt_canonical : ∀ e ∈ trackDataMirrored,
    e.1 ∉ mirrorMap.map Prod.fst → mapFind trackData e.1 = some e.2 := by
  decide!

theorem trackDataAt_mirrored : ∀ lr ∈ mirrorMap,
    trackDataAt lr.1 = MirrorTrackPiece (trackDataAt lr.2) := by
  decide!

theorem trackDataAt_flat : trackDataAt TRACK_ELEM_FLAT = trackPieceForFlat := by
  decide!

/-- C25: after the two construction loops, for every piece id the entry of `trackDataRot` at
heading north is the entry of `trackData` after the mirror loop, and the entries at east, south
and west are that piece rotated by `RotateTrackPiece` once, twice and three times.  The entry of
`trackData` of an id that is not a left-hand id of the mirror table is the literal of the source,
and for every pair `(left, right)` of the mirror table the entry at `(left, N)` is
`MirrorTrackPiece` of the entry at `(right, N)`.  The flat piece at heading east has the oriented
exit `(0,1,0)`. -/
theorem trackDataRot_entries (t : track_type_t) :
    (∀ d, mapFind trackDataRot (t, d) = some (trackDataRotAt t d)) ∧
    trackDataRotAt t kNorth = trackDataAt t ∧
    trackDataRotAt t kEast = RotateTrackPiece (trackDataAt t) ∧
    trackDataRotAt t kSouth = RotateTrackPiece (RotateTrackPiece (trackDataAt t)) ∧
    trackDataRotAt t kWest =
      RotateTrackPiece (RotateTrackPiece (RotateTrackPiece (trackDataAt t))) ∧
    (t ∉ mirrorMap.map Prod.fst → mapFind trackData t = some (trackDataAt t)) ∧
    (∀ right, (t, right) ∈ mirrorMap →
      trackDataRotAt t kNorth = MirrorTrackPiece (trackDataRotAt right kNorth)) ∧
    trackDataRotAt TRACK_ELEM_FLAT kNorth = trackPieceForFlat ∧
    trackPieceForFlat.ptr = ⟨1, 0, 0⟩ ∧
    (trackDataRotAt TRACK_ELEM_FLAT kEast).ptr = ⟨0, 1, 0⟩ := by
  refine ⟨fun d => mapFind_trackDataRot t d, trackDataRotAt_eq t kNorth, trackDataRotAt_eq t kEast,
    trackDataRotAt_eq t kSouth, trackDataRotAt_eq t kWest, ?_, ?_, ?_, rfl, ?_⟩
  · intro hn
    obtain ⟨p, hp, _⟩ := trackDataMirrored_total t
    have h := trackDataAt_canonical (t, p) (mem_of_mapFind_eq_some _ _ _ hp) hn
    have h2 : trackDataAt t = p := by
      unfold trackDataAt
      rw [hp]
      rfl
    rw [h2]
    exact h
  · intro right hr
    rw [trackDataRotAt_eq, trackDataRotAt_eq]
    exact trackDataAt_mirrored (t, right) hr
  · rw [trackDataRotAt_eq, trackDataAt_flat]
    rfl
  · rw [trackDataRotAt_eq, trackDataAt_flat]
    rfl

/-! ### Placing a piece twice -/

theorem NoEmptyCell_rotate (p : TrackPiece) (h : NoEmptyCell p) :
    NoEmptyCell (RotateTrackPiece p) := by
  intro tc htc
  simp only [RotateTrackPiece, List.mem_map] at htc
  obtain ⟨tc0, h0, rfl⟩ := htc
  have hc := h tc0 h0
  unfold CellsCollide at hc ⊢
  simp only [RotateTrackCell]
  tauto

theorem NoEmptyCell_rotateTimes (d : DirectionType) (p : TrackPiece) (h : NoEmptyCell p) :
    NoEmptyCell (rotateTimes d p) := by
  cases d
  · exact h
  · exact NoEmptyCell_rotate _ h
  · exact NoEmptyCell_rotate _ (NoEmptyCell_rotate _ h)
  · exact NoEmptyCell_rotate _ (NoEmptyCell_rotate _ (NoEmptyCell_rotate _ h))

theorem trackDataMirrored_noEmptyCell : ∀ e ∈ trackDataMirrored, NoEmptyCell e.2 := by
  decide!

/-- Every footprint cell of every catalogue entry has at least one quadrant set. -/
theorem trackDataRotAt_noEmptyCell (t : track_type_t) (d : DirectionType) :
    NoEmptyCell (trackDataRotAt t d) := by
  rw [trackDataRotAt_eq]
  apply NoEmptyCell_rotateTimes
  obtain ⟨p, hp, _⟩ := trackDataMirrored_total t
  have h2 : trackDataAt t = p := by
    unfold trackDataAt
    rw [hp]
    rfl
  rw [h2]
  exact trackDataMirrored_noEmptyCell (t, p) (mem_of_mapFind_eq_some _ _ _ hp)

theorem rotateTimes_shape_ne_nil (d : DirectionType) (p : TrackPiece) (h : p.shape ≠ []) :
    (rotateTimes d p).shape ≠ [] := by
  cases d <;> simpa [rotateTimes, RotateTrackPiece] using h

/-- Every catalogue entry has at least one footprint cell. -/
theorem trackDataRotAt_shape_ne_nil (t : track_type_t) (d : DirectionType) :
    (trackDataRotAt t d).shape ≠ [] := by
  rw [trackDataRotAt_eq]
  apply rotateTimes_shape_ne_nil
  obtain ⟨p, hp, hne⟩ := trackDataMirrored_total t
  have h2 : trackDataAt t = p := by
    unfold trackDataAt
    rw [hp]
    rfl
  rw [h2]
  exact hne

theorem AddTrackToSpaceTraced_cons_none (ptr : Coord) (tc : TrackCell) (rest : List TrackCell)
    (space : Space) (h : OutOfBounds (AddCoords ptr tc.coord) = false)
    (hr : ResolveCells (ReadSpace space (AddCoords ptr tc.coord)) tc.cell = none) :
    AddTrackToSpaceTraced ptr (tc :: rest) space = ((false, space), [AddCoords ptr tc.coord]) := by
  simp [AddTrackToSpaceTraced, h, hr]

/-- A placement that succeeded on a grid of bit cells fails when it is repeated on the resulting
grid: the first footprint cell is in bounds and collides, so the loop returns `false` after one
`ReadSpace` and without any `WriteSpace`. -/
theorem AddTrackToSpaceLoop_twice (ptr : Coord) (shape : List TrackCell) (space : Space)
    (hnd : (shape.map (fun tc => tc.coord)).Nodup) (hbit : ∀ tc ∈ shape, IsBitCell tc.cell)
    (hset : ∀ tc ∈ shape, CellsCollide tc.cell tc.cell) (hne : shape ≠ [])
    (hbits : ∀ c, OutOfBounds c = false → IsBitCell (ReadSpace space c))
    (h : (AddTrackToSpaceLoop ptr shape space).1 = true) :
    ∃ tc rest, shape = tc :: rest ∧ OutOfBounds (AddCoords ptr tc.coord) = false ∧
      ResolveCells (ReadSpace (AddTrackToSpaceLoop ptr shape space).2 (AddCoords ptr tc.coord))
        tc.cell = none ∧
      AddTrackToSpaceLoop ptr shape (AddTrackToSpaceLoop ptr shape space).2 =
        (false, (AddTrackToSpaceLoop ptr shape space).2) ∧
      (AddTrackToSpaceTraced ptr shape (AddTrackToSpaceLoop ptr shape space).2).2 =
        [AddCoords ptr tc.coord] := by
  have heq : AddTrackToSpaceLoop ptr shape space =
      (true, (AddTrackToSpaceLoop ptr shape space).2) := Prod.ext h rfl
  generalize (AddTrackToSpaceLoop ptr shape space).2 = space' at heq ⊢
  cases shape with
  | nil => exact absurd rfl hne
  | cons tc rest =>
    have hin := AddTrackToSpaceLoop_true_in_bounds ptr (tc :: rest) space space' heq tc
      (List.mem_cons_self _ _)
    have hres := (AddTrackToSpaceLoop_nodup_result ptr (tc :: rest) space space' hnd heq).1 tc
      (List.mem_cons_self _ _)
    have hcol : CellsCollide (ReadSpace space' (AddCoords ptr tc.coord)) tc.cell := by
      rw [hres]
      exact CellsCollide_cellOr_right _ _ _ (hbits _ hin) (hbit tc (List.mem_cons_self _ _))
        (hset tc (List.mem_cons_self _ _))
    have hnone := (ResolveCells_eq_none_iff _ _).mpr hcol
    have htr := AddTrackToSpaceTraced_cons_none ptr tc rest space' hin hnone
    refine ⟨tc, rest, rfl, hin, hnone, ?_, ?_⟩
    · unfold AddTrackToSpaceLoop
      rw [htr]
    · rw [htr]

theorem AddTrackToSpace_flat_east :
    (trackDataRotAt TRACK_ELEM_FLAT kEast).shape =
      [⟨⟨0, 0, 0⟩, ⟨1, 1, 1, 1⟩⟩, ⟨⟨0, 0, 1⟩, ⟨1, 1, 1, 1⟩⟩] := by
  rw [trackDataRotAt_eq, trackDataAt_flat]
  rfl

/-- The in-bounds cells of every frame of a reachable stack have 0/1 quadrant values, and so
have those of the copy of the grid on which `AddTrackToStack` places a piece. -/
theorem ReachableStack_isBitCell (stack : List GeneratorInfo) (h : ReachableStack stack)
    (f : GeneratorInfo) (hf : f ∈ stack) (c : Coord) (hc : OutOfBounds c = false) :
    IsBitCell (ReadSpace f.space c) ∧ IsBitCell (ReadSpace (CopySpace f.space mallocSpace) c) := by
  have hb := DisjointOr_isBitCell _ _ ((ReachableStack_frameInv stack h f hf).2 c hc)
  rw [ReadSpace_CopySpace f.space mallocSpace c hc]
  exact ⟨hb, hb⟩

/-- C24: for every grid whose in-bounds cells have 0/1 quadrant values, every anchor, heading and
catalogue piece: if `AddTrackToSpace` succeeds on the grid, then the same call on the resulting
grid returns `false`, and it does so at the first footprint cell: that cell is in bounds and
collides, the grid is left as it was, and the only access is the `ReadSpace` of that cell.  The
grids of the program are of this kind: the empty grid, the grid of every frame of every
reachable stack, and the copy of it on which `AddTrackToStack` places a piece. -/
theorem AddTrackToSpace_twice (space : Space) (ptr : Coord) (dir : DirectionType)
    (track : TrackDesignTrackElement)
    (hbits : ∀ c, OutOfBounds c = false → IsBitCell (ReadSpace space c))
    (h : (AddTrackToSpace space ptr dir track).1 = true) :
    (∃ tc rest, (trackDataRotAt track.type dir).shape = tc :: rest ∧
      OutOfBounds (AddCoords ptr tc.coord) = false ∧
      ResolveCells (ReadSpace (AddTrackToSpace space ptr dir track).2 (AddCoords ptr tc.coord))
        tc.cell = none ∧
      AddTrackToSpace (AddTrackToSpace space ptr dir track).2 ptr dir track =
        (false, (AddTrackToSpace space ptr dir track).2) ∧
      AddTrackToSpaceAccesses (AddTrackToSpace space ptr dir track).2 ptr dir track =
        [AddCoords ptr tc.coord]) ∧
    (∀ c, OutOfBounds c = false → IsBitCell (ReadSpace mallocSpace c)) ∧
    (∀ (stack : List GeneratorInfo), ReachableStack stack → ∀ f ∈ stack, ∀ c,
      OutOfBounds c = false →
      IsBitCell (ReadSpace f.space c) ∧
        IsBitCell (ReadSpace (CopySpace f.space mallocSpace) c)) := by
  have hw := trackDataRotAt_wellFormed track.type dir
  refine ⟨AddTrackToSpaceLoop_twice ptr (trackDataRotAt track.type dir).shape space hw.1 hw.2
    (trackDataRotAt_noEmptyCell track.type dir) (trackDataRotAt_shape_ne_nil track.type dir)
    hbits h, ?_, ?_⟩
  · intro c _
    exact ⟨Or.inl rfl, Or.inl rfl, Or.inl rfl, Or.inl rfl⟩
  · intro stack hr f hf c hc
    exact ReachableStack_isBitCell stack hr f hf c hc

/-- Witness for C24: `FLAT` placed twice at `(0,4,0)` heading east on the empty grid. -/
theorem AddTrackToSpace_twice_witness :
    (∀ c, OutOfBounds c = false → IsBitCell (ReadSpace mallocSpace c)) ∧
    (AddTrackToSpace mallocSpace ⟨0, 4, 0⟩ kEast ⟨TRACK_ELEM_FLAT, 4⟩).1 = true ∧
    ((∃ tc rest, (trackDataRotAt TRACK_ELEM_FLAT kEast).shape = tc :: rest ∧
      OutOfBounds (AddCoords ⟨0, 4, 0⟩ tc.coord) = false ∧
      ResolveCells (ReadSpace (AddTrackToSpace mallocSpace ⟨0, 4, 0⟩ kEast ⟨TRACK_ELEM_FLAT, 4⟩).2
        (AddCoords ⟨0, 4, 0⟩ tc.coord)) tc.cell = none ∧
      AddTrackToSpace (AddTrackToSpace mallocSpace ⟨0, 4, 0⟩ kEast ⟨TRACK_ELEM_FLAT, 4⟩).2
        ⟨0, 4, 0⟩ kEast ⟨TRACK_ELEM_FLAT, 4⟩ =
        (false, (AddTrackToSpace mallocSpace ⟨0, 4, 0⟩ kEast ⟨TRACK_ELEM_FLAT, 4⟩).2) ∧
      AddTrackToSpaceAccesses (AddTrackToSpace mallocSpace ⟨0, 4, 0⟩ kEast ⟨TRACK_ELEM_FLAT, 4⟩).2
        ⟨0, 4, 0⟩ kEast ⟨TRACK_ELEM_FLAT, 4⟩ = [AddCoords ⟨0, 4, 0⟩ tc.coord]) ∧
    (∀ c, OutOfBounds c = false → IsBitCell (ReadSpace mallocSpace c)) ∧
    (∀ (stack : List GeneratorInfo), ReachableStack stack → ∀ f ∈ stack, ∀ c,
      OutOfBounds c = false →
      IsBitCell (ReadSpace f.space c) ∧
        IsBitCell (ReadSpace (CopySpace f.space mallocSpace) c))) := by
  have hb : ∀ c, OutOfBounds c = false → IsBitCell (ReadSpace mallocSpace c) := by
    intro c _
    exact ⟨Or.inl rfl, Or.inl rfl, Or.inl rfl, Or.inl rfl⟩
  have h1 : (AddTrackToSpace mallocSpace ⟨0, 4, 0⟩ kEast ⟨TRACK_ELEM_FLAT, 4⟩).1 = true := by
    unfold AddTrackToSpace
    rw [AddTrackToSpace_flat_east]
    decide!
  exact ⟨hb, h1, AddTrackToSpace_twice mallocSpace ⟨0, 4, 0⟩ kEast ⟨TRACK_ELEM_FLAT, 4⟩ hb h1⟩

/-! ### Induction over the stacks of the search -/

/-- A property of frames that holds for the initial frame, is kept by every successful
`AddTrackToStack` and does not depend on the failed set holds for every frame of every reachable
stack. -/
theorem ReachableStack_induction (P : GeneratorInfo → Prop) (h0 : P initialInfo)
    (hpush : ∀ (lastInfo : GeneratorInfo) (track : TrackDesignTrackElement), P lastInfo →
      OutOfBounds (AddCoords lastInfo.ptr (trackDataRotAt track.type lastInfo.dir).ptr) = false →
      ¬ ((((AddCoords lastInfo.ptr (trackDataRotAt track.type lastInfo.dir).ptr).z : Int) : ℚ) >
          heightLimit lastInfo.tracks.length) →
      (AddTrackToSpace (CopySpace lastInfo.space mallocSpace) lastInfo.ptr lastInfo.dir track).1
        = true →
      P (pushedFrame lastInfo track))
    (hfail : ∀ (f : GeneratorInfo) (failedTracks : List track_type_t), P f →
      P (withFailedTracks f failedTracks))
    (stack : List GeneratorInfo) (h : ReachableStack stack) : ∀ f ∈ stack, P f := by
  induction h with
  | initial =>
    intro f hf
    rw [List.mem_singleton.mp hf]
    exact h0
  | push stack stack' track _ hp ih =>
    obtain ⟨lastInfo, hlast, hob, hlim, hplaced, hst⟩ :=
      AddTrackToStack_eq_true stack stack' track hp
    intro f hf
    rw [hst] at hf
    rcases List.mem_append.mp hf with hf | hf
    · exact ih f hf
    · rw [List.mem_singleton.mp hf]
      exact hpush lastInfo track (ih lastInfo (List.mem_of_getLast?_eq_some hlast)) hob hlim
        hplaced
  | failed stack i failedTracks _ ih =>
    intro f hf
    rcases mem_storeFailedTracks stack failedTracks i f hf with h | ⟨g, hg, rfl⟩
    · exact ih f h
    · exact hfail g failedTracks (ih g hg)
  | backtrack stack stack' lastTrack _ hback ih =>
    intro f hf
    rcases mem_Backtrack stack stack' lastTrack hback f hf with h | ⟨g, hg, ft, rfl⟩
    · exact ih f h
    · exact hfail g ft (ih g hg)

theorem ChooseTrack_true (rand : Nat → Nat) (stack : List GeneratorInfo)
    (failedTracks nextPossibleTracks : List track_type_t) (k : Nat) (stack' : List GeneratorInfo)
    (failedTracks' : List track_type_t) (k' : Nat)
    (h : ChooseTrack rand stack failedTracks nextPossibleTracks k =
      some (true, stack', failedTracks', k')) :
    ∃ t ∈ nextPossibleTracks, AddTrackToStack stack ⟨t, 4⟩ = some (true, stack') := by
  unfold ChooseTrack at h
  obtain ⟨⟨t, ht, hadd⟩, _, _⟩ := ChooseTrackLoop_true rand _ stack failedTracks _ k stack'
    failedTracks' k' h
  exact ⟨t, (List.mem_filter.mp ht).1, hadd⟩

theorem ChooseTrack_false (rand : Nat → Nat) (stack : List GeneratorInfo)
    (failedTracks nextPossibleTracks : List track_type_t) (k : Nat) (stack' : List GeneratorInfo)
    (failedTracks' : List track_type_t) (k' : Nat)
    (h : ChooseTrack rand stack failedTracks nextPossibleTracks k =
      some (false, stack', failedTracks', k')) : stack' = stack := by
  unfold ChooseTrack at h
  exact (ChooseTrackLoop_false rand _ stack failedTracks _ k stack' failedTracks' k' h).1

/-- Every stack of the search is a reachable stack. -/
theorem SearchReachable_reachable (stack : List GeneratorInfo) (h : SearchReachable stack) :
    ReachableStack stack := by
  induction h with
  | prologue stack hp =>
    rw [AddInitialTracks_prologue] at hp
    have hs : prologueStack = stack := (Prod.mk.inj (Option.some.inj hp)).2
    rw [← hs]
    exact ReachableStack_prologueStack
  | chosen rand stack lastInfo lastTrack npt k stack' ft' k' _ _ _ _ _ hch ih =>
    obtain ⟨t, _, hadd⟩ := ChooseTrack_true rand stack _ npt k stack' ft' k' hch
    exact ReachableStack.failed _ _ _ (ReachableStack.push _ _ _ ih hadd)
  | backtracked rand stack lastInfo lastTrack npt k stack' ft' k' stack'' _ _ _ _ _ hch hb ih =>
    have hs := ChooseTrack_false rand stack _ npt k stack' ft' k' hch
    rw [hs] at hb
    exact ReachableStack.backtrack _ _ lastTrack (ReachableStack.failed _ _ _ ih) hb

/-- A property of frames that holds for the frames of the prologue, is kept when a candidate
taken from the successor list of the last piece is placed, and does not depend on the failed set
holds for every frame of every stack of the search. -/
theorem SearchReachable_induction (P : GeneratorInfo → Prop) (h0 : ∀ f ∈ prologueStack, P f)
    (hpush : ∀ (lastInfo : GeneratorInfo) (lastTrack : TrackDesignTrackElement)
      (nextPossibleTracks : List track_type_t) (t : track_type_t), P lastInfo →
      lastInfo.tracks.getLast? = some lastTrack →
      mapFind trackStateMachine lastTrack.type = some nextPossibleTracks →
      t ∈ nextPossibleTracks →
      (AddTrackToSpace (CopySpace lastInfo.space mallocSpace) lastInfo.ptr lastInfo.dir
        ⟨t, 4⟩).1 = true →
      P (pushedFrame lastInfo ⟨t, 4⟩))
    (hfail : ∀ (f : GeneratorInfo) (failedTracks : List track_type_t), P f →
      P (withFailedTracks f failedTracks))
    (stack : List GeneratorInfo) (h : SearchReachable stack) : ∀ f ∈ stack, P f := by
  induction h with
  | prologue stack hp =>
    rw [AddInitialTracks_prologue] at hp
    have hs : prologueStack = stack := (Prod.mk.inj (Option.some.inj hp)).2
    rw [← hs]
    exact h0
  | chosen rand stack lastInfo lastTrack npt k stack' ft' k' _ hlast _ hlt hnpt hch ih =>
    obtain ⟨t, ht, hadd⟩ := ChooseTrack_true rand stack _ npt k stack' ft' k' hch
    obtain ⟨lastInfo', hlast', _, _, hplaced, hst⟩ :=
      AddTrackToStack_eq_true stack stack' ⟨t, 4⟩ hadd
    have hl : lastInfo' = lastInfo := Option.some.inj (hlast'.symm.trans hlast)
    subst hl
    have hall : ∀ f ∈ stack', P f := by
      intro f hf
      rw [hst] at hf
      rcases List.mem_append.mp hf with hf | hf
      · exact ih f hf
      · rw [List.mem_singleton.mp hf]
        exact hpush lastInfo' lastTrack npt t (ih lastInfo' (List.mem_of_getLast?_eq_some hlast))
          hlt hnpt ht hplaced
    intro f hf
    rcases mem_storeFailedTracks stack' ft' _ f hf with h | ⟨g, hg, rfl⟩
    · exact hall f h
    · exact hfail g ft' (hall g hg)
  | backtracked rand stack lastInfo lastTrack npt k stack' ft' k' stack'' _ _ _ _ _ hch hb ih =>
    have hs := ChooseTrack_false rand stack _ npt k stack' ft' k' hch
    rw [hs] at hb
    have hall : ∀ f ∈ storeFailedTracks stack (stack.length - 1) ft', P f := by
      intro f hf
      rcases mem_storeFailedTracks stack ft' _ f hf with h | ⟨g, hg, rfl⟩
      · exact ih f h
      · exact hfail g ft' (ih g hg)
    intro f hf
    rcases mem_Backtrack _ stack'' lastTrack hb f hf with h | ⟨g, hg, ft, rfl⟩
    · exact hall f h
    · exact hfail g ft (hall g hg)

/-- The stack with which the inner loop ends is a stack of the search when the loop started on
one. -/
theorem SearchLoop_searchReachable (rand : Nat → Nat) (fuel : Nat) :
    ∀ (stack : List GeneratorInfo) (steps k : Nat) (success : Bool)
      (stack' : List GeneratorInfo) (steps' k' : Nat), SearchReachable stack →
      SearchLoop rand fuel stack steps k = SearchResult.finished success stack' steps' k' →
      SearchReachable stack' := by
  induction fuel with
  | zero =>
    intro stack steps k success stack' steps' k' _ h
    simp [SearchLoop] at h
  | succ fuel ih =>
    intro stack steps k success stack' steps' k' hr h
    unfold SearchLoop at h
    split at h
    · exact SearchResult.noConfusion h
    · rename_i lastInfo hlast
      split at h
      · rename_i s hcheck
        injection h with h1 h2 h3 h4
        rw [← h2]
        exact hr
      · rename_i hcheck
        split at h
        · exact SearchResult.noConfusion h
        · rename_i lastTrack hlt
          split at h
          · exact SearchResult.noConfusion h
          · rename_i npt hnpt
            split at h
            · exact SearchResult.noConfusion h
            · rename_i st1 ft1 k1 hch
              exact ih _ _ _ _ _ _ _
                (SearchReachable.chosen rand stack lastInfo lastTrack npt k st1 ft1 k1 hr hlast
                  hcheck hlt hnpt hch) h
            · rename_i st1 ft1 k1 hch
              split at h
              · exact SearchResult.noConfusion h
              · rename_i st2 hb
                have hr2 := SearchReachable.backtracked rand stack lastInfo lastTrack npt k st1
                  ft1 k1 st2 hr hlast hcheck hlt hnpt hch hb
                split at h
                · injection h with h1 h2 h3 h4
                  rw [← h2]
                  exact hr2
                · exact ih _ _ _ _ _ _ _ hr2 h

/-! ### What `Generate` returns -/

theorem Attempt_eq_AttemptWith (rand : Nat → Nat) (fuel k : Nat) :
    Attempt rand fuel k = AttemptWith tracksToAdd rand fuel k := rfl

theorem AttemptWith_returned (toAdd : List TrackDesignTrackElement) (stack : List GeneratorInfo)
    (hpro : AddInitialTracks toAdd [initialInfo] = some (true, stack)) (rand : Nat → Nat)
    (fuel k : Nat) (tracks : List TrackDesignTrackElement) (k' : Nat)
    (h : AttemptWith toAdd rand fuel k = AttemptResult.returned tracks k') :
    ∃ stack' top steps', SearchLoop rand fuel stack 0 k =
        SearchResult.finished true stack' steps' k' ∧
      stack'.getLast? = some top ∧ top.tracks = tracks := by
  unfold AttemptWith at h
  rw [hpro] at h
  simp only at h
  split at h
  · exact AttemptResult.noConfusion h
  · exact AttemptResult.noConfusion h
  · rename_i success stack' steps' k1 hs
    split at h
    · exact AttemptResult.noConfusion h
    · rename_i top htop
      split at h
      · rename_i hsucc
        injection h with h1 h2
        subst hsucc
        rw [h2] at hs
        exact ⟨stack', top, steps', hs, htop, h1⟩
      · exact AttemptResult.noConfusion h

theorem GenerateWith_returned (toAdd : List TrackDesignTrackElement) (stack : List GeneratorInfo)
    (hpro : AddInitialTracks toAdd [initialInfo] = some (true, stack)) (rand : Nat → Nat)
    (fuel : Nat) :
    ∀ (attempts k : Nat) (tracks : List TrackDesignTrackElement),
      GenerateWith toAdd rand fuel attempts k = some tracks →
      ∃ k0 k' stack' top steps', SearchLoop rand fuel stack 0 k0 =
          SearchResult.finished true stack' steps' k' ∧
        stack'.getLast? = some top ∧ top.tracks = tracks := by
  intro attempts
  induction attempts with
  | zero =>
    intro k tracks h
    simp [GenerateWith] at h
  | succ attempts ih =>
    intro k tracks h
    unfold GenerateWith at h
    split at h
    · rename_i tr k' hat
      obtain ⟨stack', top, steps', hs, htop, htr⟩ :=
        AttemptWith_returned toAdd stack hpro rand fuel k tr k' hat
      refine ⟨k, k', stack', top, steps', hs, htop, ?_⟩
      rw [htr]
      exact Option.some.inj h
    · exact ih _ _ h
    · exact Option.noConfusion h
    · exact Option.noConfusion h

/-- Every sequence that an attempt returns is the sequence of the top frame of a stack of the
search, and that frame passes the end test with success. -/
theorem Attempt_returned (rand : Nat → Nat) (fuel k : Nat)
    (tracks : List TrackDesignTrackElement) (k' : Nat)
    (h : Attempt rand fuel k = AttemptResult.returned tracks k') :
    ∃ stack' top, SearchReachable stack' ∧ stack'.getLast? = some top ∧ top.tracks = tracks ∧
      CheckEndCondition top = some true := by
  rw [Attempt_eq_AttemptWith] at h
  obtain ⟨stack', top, steps', hs, htop, htr⟩ :=
    AttemptWith_returned tracksToAdd prologueStack AddInitialTracks_prologue rand fuel k tracks k'
      h
  obtain ⟨top', htop', hcheck⟩ := SearchLoop_finished_true rand fuel _ _ _ _ _ _ hs
  have he : top' = top := Option.some.inj (htop'.symm.trans htop)
  rw [he] at hcheck
  exact ⟨stack', top, SearchLoop_searchReachable rand fuel _ _ _ _ _ _ _
    (SearchReachable.prologue _ AddInitialTracks_prologue) hs, htop, htr, hcheck⟩

/-- The same for `Generate` with the list of forced pieces as a parameter, at `tracksToAdd`: what
it returns is what one of its attempts returns. -/
theorem GenerateWith_returned_top (rand : Nat → Nat) (fuel attempts k : Nat)
    (tracks : List TrackDesignTrackElement)
    (h : GenerateWith tracksToAdd rand fuel attempts k = some tracks) :
    ∃ stack' top, SearchReachable stack' ∧ stack'.getLast? = some top ∧ top.tracks = tracks ∧
      CheckEndCondition top = some true := by
  obtain ⟨k0, k', stack', top, steps', hs, htop, htr⟩ :=
    GenerateWith_returned tracksToAdd prologueStack AddInitialTracks_prologue rand fuel attempts k
      tracks h
  obtain ⟨top', htop', hcheck⟩ := SearchLoop_finished_true rand fuel _ _ _ _ _ _ hs
  have he : top' = top := Option.some.inj (htop'.symm.trans htop)
  rw [he] at hcheck
  exact ⟨stack', top, SearchLoop_searchReachable rand fuel _ _ _ _ _ _ _
    (SearchReachable.prologue _ AddInitialTracks_prologue) hs, htop, htr, hcheck⟩

/-! ### `Generate` and its attempts -/

set_option smartUnfolding false in
theorem Generate_eq_GenerateBy (rand : Nat → Nat) (fuel attempts k : Nat) :
    Generate rand fuel attempts k = GenerateBy (Attempt rand fuel) attempts k := rfl

set_option smartUnfolding false in
theorem GenerateWith_eq_GenerateBy (toAdd : List TrackDesignTrackElement) (rand : Nat → Nat)
    (fuel attempts k : Nat) :
    GenerateWith toAdd rand fuel attempts k =
      GenerateBy (AttemptWith toAdd rand fuel) attempts k := rfl

/-- The function `Generate` is `GenerateWith` at the list of forced pieces of the source. -/
theorem Generate_eq_GenerateWith (rand : Nat → Nat) (fuel attempts k : Nat) :
    Generate rand fuel attempts k = GenerateWith tracksToAdd rand fuel attempts k := by
  have h : Attempt rand fuel = AttemptWith tracksToAdd rand fuel :=
    funext (Attempt_eq_AttemptWith rand fuel)
  rw [Generate_eq_GenerateBy, GenerateWith_eq_GenerateBy, h]

/-- What the outer loop does with the result of an attempt: a returned sequence is returned, an
attempt without success is followed by a fresh attempt, which continues the random values. -/
theorem GenerateBy_succ (attempt : Nat → AttemptResult) (attempts k : Nat) :
    GenerateBy attempt (attempts + 1) k =
      match attempt k with
      | AttemptResult.returned tracks _ => some tracks
      | AttemptResult.again k' => GenerateBy attempt attempts k'
      | AttemptResult.fault => none
      | AttemptResult.outOfFuel => none := rfl

/-- Whatever `Generate` returns is what one of its attempts returned. -/
theorem Generate_returned (rand : Nat → Nat) (fuel : Nat) :
    ∀ (attempts k : Nat) (tracks : List TrackDesignTrackElement),
      Generate rand fuel attempts k = some tracks →
      ∃ k0 k', Attempt rand fuel k0 = AttemptResult.returned tracks k' := by
  intro attempts
  induction attempts with
  | zero =>
    intro k tracks h
    rw [Generate_eq_GenerateBy] at h
    exact Option.noConfusion h
  | succ attempts ih =>
    intro k tracks h
    rw [Generate_eq_GenerateBy, GenerateBy_succ] at h
    split at h
    · rename_i tr k' hat
      refine ⟨k, k', ?_⟩
      rw [hat, Option.some.inj h]
    · rw [← Generate_eq_GenerateBy] at h
      exact ih _ _ h
    · exact Option.noConfusion h
    · exact Option.noConfusion h

/-- An attempt that returns a sequence makes `Generate` return it; an attempt that ends without
success is followed by the next attempt. -/
theorem Generate_succ (rand : Nat → Nat) (fuel attempts k : Nat) :
    (∀ tracks k', Attempt rand fuel k = AttemptResult.returned tracks k' →
      Generate rand fuel (attempts + 1) k = some tracks) ∧
    (∀ k', Attempt rand fuel k = AttemptResult.again k' →
      Generate rand fuel (attempts + 1) k = Generate rand fuel attempts k') := by
  constructor
  · intro tracks k' h
    rw [Generate_eq_GenerateBy, GenerateBy_succ, h]
  · intro k' h
    rw [Generate_eq_GenerateBy, GenerateBy_succ, h, Generate_eq_GenerateBy]

/-- Every sequence that `Generate` returns is the sequence of the top frame of a stack of the
search, and that frame passes the end test with success. -/
theorem Generate_returned_top (rand : Nat → Nat) (fuel attempts k : Nat)
    (tracks : List TrackDesignTrackElement)
    (h : Generate rand fuel attempts k = some tracks) :
    ∃ stack' top, SearchReachable stack' ∧ stack'.getLast? = some top ∧ top.tracks = tracks ∧
      CheckEndCondition top = some true := by
  obtain ⟨k0, k', hat⟩ := Generate_returned rand fuel attempts k tracks h
  exact Attempt_returned rand fuel k0 tracks k' hat

/-- C3: every sequence that `Generate` returns holds at least 101 pieces.  The inner loop is left
with `success = true` only on a top frame with more than `kMinimumTrackSize = 100` pieces; an
attempt returns a sequence only as the sequence of such a frame; and `Generate`, whatever the
random values and however many attempts it makes, returns only what one of its attempts
returns. -/
theorem Generate_success_length (rand : Nat → Nat) (fuel : Nat) (stack : List GeneratorInfo)
    (steps k : Nat) (stack' : List GeneratorInfo) (steps' k' : Nat)
    (h : SearchLoop rand fuel stack steps k = SearchResult.finished true stack' steps' k') :
    (∃ top, stack'.getLast? = some top ∧ 101 ≤ top.tracks.length) ∧
    (∀ (rand0 : Nat → Nat) (fuel0 attempts k0 : Nat) (tracks : List TrackDesignTrackElement),
      Generate rand0 fuel0 attempts k0 = some tracks → 101 ≤ tracks.length) ∧
    (∀ (rand0 : Nat → Nat) (fuel0 k0 : Nat) (tracks : List TrackDesignTrackElement) (k1 : Nat),
      Attempt rand0 fuel0 k0 = AttemptResult.returned tracks k1 → 101 ≤ tracks.length) ∧
    (∀ (rand0 : Nat → Nat) (fuel0 attempts k0 : Nat) (tracks : List TrackDesignTrackElement),
      Generate rand0 fuel0 attempts k0 = some tracks →
      ∃ k2 k3, Attempt rand0 fuel0 k2 = AttemptResult.returned tracks k3) ∧
    (∀ (rand0 : Nat → Nat) (fuel0 attempts k0 : Nat) (tracks : List TrackDesignTrackElement)
      (k1 : Nat), Attempt rand0 fuel0 k0 = AttemptResult.returned tracks k1 →
      Generate rand0 fuel0 (attempts + 1) k0 = some tracks) := by
  refine ⟨SearchLoop_finished_length rand fuel stack steps k stack' steps' k' h, ?_, ?_,
    fun rand0 fuel0 => Generate_returned rand0 fuel0, ?_⟩
  · intro rand0 fuel0 attempts k0 tracks hg
    obtain ⟨_, top, _, _, htr, hcheck⟩ := Generate_returned_top rand0 fuel0 attempts k0 tracks hg
    rw [← htr]
    exact ((CheckEndCondition_eq_some_true top).mp hcheck).2.2
  · intro rand0 fuel0 k0 tracks k1 ha
    obtain ⟨_, top, _, _, htr, hcheck⟩ := Attempt_returned rand0 fuel0 k0 tracks k1 ha
    rw [← htr]
    exact ((CheckEndCondition_eq_some_true top).mp hcheck).2.2
  · intro rand0 fuel0 attempts k0 tracks k1 ha
    exact (Generate_succ rand0 fuel0 attempts k0).1 tracks k1 ha

/-- Witness for C3: the loop started, after five backtrack steps, on a two-frame stack whose top
frame is at the end pose with 104 pieces. -/
theorem Generate_success_length_witness :
    SearchLoop (fun n => n) 3 [initialInfo, endFrame 104] 5 2 =
      SearchResult.finished true [initialInfo, endFrame 104] 5 2 ∧
    ((∃ top, [initialInfo, endFrame 104].getLast? = some top ∧ 101 ≤ top.tracks.length) ∧
    (∀ (rand0 : Nat → Nat) (fuel0 attempts k0 : Nat) (tracks : List TrackDesignTrackElement),
      Generate rand0 fuel0 attempts k0 = some tracks → 101 ≤ tracks.length) ∧
    (∀ (rand0 : Nat → Nat) (fuel0 k0 : Nat) (tracks : List TrackDesignTrackElement) (k1 : Nat),
      Attempt rand0 fuel0 k0 = AttemptResult.returned tracks k1 → 101 ≤ tracks.length) ∧
    (∀ (rand0 : Nat → Nat) (fuel0 attempts k0 : Nat) (tracks : List TrackDesignTrackElement),
      Generate rand0 fuel0 attempts k0 = some tracks →
      ∃ k2 k3, Attempt rand0 fuel0 k2 = AttemptResult.returned tracks k3) ∧
    (∀ (rand0 : Nat → Nat) (fuel0 attempts k0 : Nat) (tracks : List TrackDesignTrackElement)
      (k1 : Nat), Attempt rand0 fuel0 k0 = AttemptResult.returned tracks k1 →
      Generate rand0 fuel0 (attempts + 1) k0 = some tracks)) :=
  ⟨rfl, Generate_success_length (fun n => n) 3 [initialInfo, endFrame 104] 5 2
    [initialInfo, endFrame 104] 5 2 rfl⟩

/-! ### Vertical loops -/

theorem rotateTimes_ptr_z (d : DirectionType) (p : TrackPiece) :
    (rotateTimes d p).ptr.z = p.ptr.z := by
  cases d <;> rfl

theorem RotateTrackPiece_mem_z (p : TrackPiece) (z : Int)
    (h : ∃ tc ∈ p.shape, tc.coord.z = z) : ∃ tc ∈ (RotateTrackPiece p).shape, tc.coord.z = z := by
  obtain ⟨tc, htc, hz⟩ := h
  exact ⟨RotateTrackCell tc, List.mem_map_of_mem _ htc, hz⟩

theorem rotateTimes_mem_z (d : DirectionType) (p : TrackPiece) (z : Int)
    (h : ∃ tc ∈ p.shape, tc.coord.z = z) : ∃ tc ∈ (rotateTimes d p).shape, tc.coord.z = z := by
  cases d
  · exact h
  · exact RotateTrackPiece_mem_z _ z h
  · exact RotateTrackPiece_mem_z _ z (RotateTrackPiece_mem_z _ z h)
  · exact RotateTrackPiece_mem_z _ z (RotateTrackPiece_mem_z _ z (RotateTrackPiece_mem_z _ z h))

theorem RotateTrackPiece_all_z (p : TrackPiece) (lo hi : Int)
    (h : ∀ tc ∈ p.shape, lo ≤ tc.coord.z ∧ tc.coord.z ≤ hi) :
    ∀ tc ∈ (RotateTrackPiece p).shape, lo ≤ tc.coord.z ∧ tc.coord.z ≤ hi := by
  intro tc htc
  simp only [RotateTrackPiece, List.mem_map] at htc
  obtain ⟨tc0, h0, rfl⟩ := htc
  exact h tc0 h0

theorem rotateTimes_all_z (d : DirectionType) (p : TrackPiece) (lo hi : Int)
    (h : ∀ tc ∈ p.shape, lo ≤ tc.coord.z ∧ tc.coord.z ≤ hi) :
    ∀ tc ∈ (rotateTimes d p).shape, lo ≤ tc.coord.z ∧ tc.coord.z ≤ hi := by
  cases d
  · exact h
  · exact RotateTrackPiece_all_z _ lo hi h
  · exact RotateTrackPiece_all_z _ lo hi (RotateTrackPiece_all_z _ lo hi h)
  · exact RotateTrackPiece_all_z _ lo hi
      (RotateTrackPiece_all_z _ lo hi (RotateTrackPiece_all_z _ lo hi h))

theorem trackDataAt_left_loop :
    trackDataAt TRACK_ELEM_LEFT_VERTICAL_LOOP =
      MirrorTrackPiece trackPieceForRightVerticalLoop := by
  decide!

theorem trackDataAt_right_loop :
    trackDataAt TRACK_ELEM_RIGHT_VERTICAL_LOOP = trackPieceForRightVerticalLoop := by
  decide!

/-- The footprint of a vertical loop, at every heading, spans the relative heights `-1` to `9`,
and its exit is one level below its anchor. -/
theorem verticalLoop_heights (t : track_type_t) (d : DirectionType) (ht : IsVerticalLoop t) :
    (∃ tc ∈ (trackDataRotAt t d).shape, tc.coord.z = -1) ∧
    (∃ tc ∈ (trackDataRotAt t d).shape, tc.coord.z = 9) ∧
    (∀ tc ∈ (trackDataRotAt t d).shape, -1 ≤ tc.coord.z ∧ tc.coord.z ≤ 9) ∧
    (trackDataRotAt t d).ptr.z = -1 := by
  rw [trackDataRotAt_eq]
  rcases ht with rfl | rfl
  · rw [trackDataAt_left_loop]
    exact ⟨rotateTimes_mem_z d _ _ (by decide!), rotateTimes_mem_z d _ _ (by decide!),
      rotateTimes_all_z d _ _ _ (by decide!), (rotateTimes_ptr_z d _).trans (by decide!)⟩
  · rw [trackDataAt_right_loop]
    exact ⟨rotateTimes_mem_z d _ _ (by decide!), rotateTimes_mem_z d _ _ (by decide!),
      rotateTimes_all_z d _ _ _ (by decide!), (rotateTimes_ptr_z d _).trans (by decide!)⟩

theorem AddTrackToSpaceLoop_fst_in_bounds (ptr : Coord) (shape : List TrackCell) (space : Space)
    (h : (AddTrackToSpaceLoop ptr shape space).1 = true) :
    ∀ tc ∈ shape, OutOfBounds (AddCoords ptr tc.coord) = false :=
  AddTrackToSpaceLoop_true_in_bounds ptr shape space _ (Prod.ext h rfl)

theorem AddTrackToSpace_true_in_bounds (space : Space) (ptr : Coord) (dir : DirectionType)
    (track : TrackDesignTrackElement) (h : (AddTrackToSpace space ptr dir track).1 = true) :
    ∀ tc ∈ (trackDataRotAt track.type dir).shape, OutOfBounds (AddCoords ptr tc.coord) = false := by
  unfold AddTrackToSpace at h
  exact AddTrackToSpaceLoop_fst_in_bounds ptr _ space h

/-- A vertical loop is placed only from an anchor at height 1. -/
theorem verticalLoop_anchor (space : Space) (ptr : Coord) (dir : DirectionType)
    (track : TrackDesignTrackElement) (hloop : IsVerticalLoop track.type)
    (h : (AddTrackToSpace space ptr dir track).1 = true) : ptr.z = 1 := by
  obtain ⟨⟨lo, hlo, hloz⟩, ⟨hi, hhi, hhiz⟩, _, _⟩ := verticalLoop_heights track.type dir hloop
  have hin := AddTrackToSpace_true_in_bounds space ptr dir track h
  have h1 := (OutOfBounds_eq_false_iff _).mp (hin lo hlo)
  have h2 := (OutOfBounds_eq_false_iff _).mp (hin hi hhi)
  simp only [AddCoords, kSizeZ] at h1 h2
  omega

theorem AddTrackToSpace_of_empty (space : Space) (ptr : Coord) (dir : DirectionType)
    (track : TrackDesignTrackElement)
    (h : ∀ tc ∈ (trackDataRotAt track.type dir).shape,
      OutOfBounds (AddCoords ptr tc.coord) = false ∧
      ReadSpace space (AddCoords ptr tc.coord) = ⟨0, 0, 0, 0⟩) :
    (AddTrackToSpace space ptr dir track).1 = true := by
  unfold AddTrackToSpace
  rw [AddTrackToSpaceLoop_nodup_iff ptr _ space (trackDataRotAt_wellFormed track.type dir).1]
  intro tc htc
  refine ⟨(h tc htc).1, ?_⟩
  rw [(h tc htc).2]
  exact ResolveCells_zero_left tc.cell

theorem leftLoop_fits_empty :
    (AddTrackToSpace mallocSpace ⟨0, 5, 1⟩ kEast ⟨TRACK_ELEM_LEFT_VERTICAL_LOOP, 4⟩).1 = true := by
  apply AddTrackToSpace_of_empty
  intro tc htc
  refine ⟨?_, rfl⟩
  rw [trackDataRotAt_eq] at htc
  have hall : ∀ tc ∈ (rotateTimes kEast (trackDataAt TRACK_ELEM_LEFT_VERTICAL_LOOP)).shape,
      OutOfBounds (AddCoords ⟨0, 5, 1⟩ tc.coord) = false := by
    rw [trackDataAt_left_loop]
    decide!
  exact hall tc htc

/-- C29: for every grid, anchor and heading, `AddTrackToSpace` of a left or right vertical loop
returns `true` only if the anchor is at height `z = 1`: the footprint of the loop has a cell at
relative height `-1` and a cell at relative height `9`, all its cells lie between these, and the
grid has the heights `0` to `10`. -/
theorem AddTrackToSpace_loop_anchor (space : Space) (ptr : Coord) (dir : DirectionType)
    (track : TrackDesignTrackElement) (hloop : IsVerticalLoop track.type)
    (h : (AddTrackToSpace space ptr dir track).1 = true) :
    ptr.z = 1 ∧
    (∃ tc ∈ (trackDataRotAt track.type dir).shape, tc.coord.z = -1) ∧
    (∃ tc ∈ (trackDataRotAt track.type dir).shape, tc.coord.z = 9) ∧
    (∀ tc ∈ (trackDataRotAt track.type dir).shape, -1 ≤ tc.coord.z ∧ tc.coord.z ≤ 9) ∧
    kSizeZ = 11 := by
  obtain ⟨h1, h2, h3, _⟩ := verticalLoop_heights track.type dir hloop
  exact ⟨verticalLoop_anchor space ptr dir track hloop h, h1, h2, h3, rfl⟩

theorem AddTrackToSpace_loop_anchor_witness :
    IsVerticalLoop (⟨TRACK_ELEM_LEFT_VERTICAL_LOOP, 4⟩ : TrackDesignTrackElement).type ∧
    (AddTrackToSpace mallocSpace ⟨0, 5, 1⟩ kEast ⟨TRACK_ELEM_LEFT_VERTICAL_LOOP, 4⟩).1 = true ∧
    ((⟨0, 5, 1⟩ : Coord).z = 1 ∧
    (∃ tc ∈ (trackDataRotAt (⟨TRACK_ELEM_LEFT_VERTICAL_LOOP, 4⟩ : TrackDesignTrackElement).type
      kEast).shape, tc.coord.z = -1) ∧
    (∃ tc ∈ (trackDataRotAt (⟨TRACK_ELEM_LEFT_VERTICAL_LOOP, 4⟩ : TrackDesignTrackElement).type
      kEast).shape, tc.coord.z = 9) ∧
    (∀ tc ∈ (trackDataRotAt (⟨TRACK_ELEM_LEFT_VERTICAL_LOOP, 4⟩ : TrackDesignTrackElement).type
      kEast).shape, -1 ≤ tc.coord.z ∧ tc.coord.z ≤ 9) ∧
    kSizeZ = 11) :=
  ⟨Or.inl rfl, leftLoop_fits_empty,
    AddTrackToSpace_loop_anchor mallocSpace ⟨0, 5, 1⟩ kEast ⟨TRACK_ELEM_LEFT_VERTICAL_LOOP, 4⟩
      (Or.inl rfl) leftLoop_fits_empty⟩

/-! ### A vertical loop is a dead end -/

theorem loop_step1 :
    AddTrackToStack [initialInfo] ⟨TRACK_ELEM_FLAT_TO_25_DEG_UP, 4⟩ =
      some (true, [initialInfo, loopFrame1]) ∧
    GridOf loopFrame1 [(⟨0, 4, 0⟩, loopPiece1)] :=
  AddTrackToStack_fits [initialInfo] initialInfo TRACK_ELEM_FLAT_TO_25_DEG_UP kEast loopPiece1
    [] ⟨0, 4, 0⟩ rfl rfl (by decide!) rfl GridOf_initialInfo (by decide!) (by decide!)
    (by decide!)

theorem loop_step2 :
    AddTrackToStack [initialInfo, loopFrame1] ⟨TRACK_ELEM_LEFT_VERTICAL_LOOP, 4⟩ =
      some (true, [initialInfo, loopFrame1, loopFrame2]) ∧
    GridOf loopFrame2 [(⟨0, 4, 0⟩, loopPiece1), (⟨0, 5, 1⟩, loopPiece2)] :=
  AddTrackToStack_fits [initialInfo, loopFrame1] loopFrame1 TRACK_ELEM_LEFT_VERTICAL_LOOP kEast
    loopPiece2 [(⟨0, 4, 0⟩, loopPiece1)] ⟨0, 5, 1⟩ rfl rfl (by decide!) (by decide!) loop_step1.2
    (by decide!) (by decide!) (by decide!)

theorem ReachableStack_loopStack : ReachableStack loopStack :=
  ReachableStack.push _ _ _ (ReachableStack.push _ _ _ ReachableStack.initial loop_step1.1)
    loop_step2.1

theorem getLast?_append_singleton {α : Type} (l : List α) (a : α) :
    (l ++ [a]).getLast? = some a := by
  simp

/-- In every frame of a reachable stack whose last piece is a vertical loop, the anchor is at
height 0. -/
theorem ReachableStack_loop_height (stack : List GeneratorInfo) (h : ReachableStack stack) :
    ∀ f ∈ stack, ∀ lastTrack, f.tracks.getLast? = some lastTrack →
      IsVerticalLoop lastTrack.type → f.ptr.z = 0 := by
  refine ReachableStack_induction (fun f => ∀ lastTrack, f.tracks.getLast? = some lastTrack →
    IsVerticalLoop lastTrack.type → f.ptr.z = 0) ?_ ?_ ?_ stack h
  · intro lastTrack hl _
    exact Option.noConfusion hl
  · intro lastInfo track _ _ _ hplaced lastTrack hl hloop
    simp only [pushedFrame, getLast?_append_singleton] at hl
    have he : track = lastTrack := Option.some.inj hl
    subst he
    have hz := verticalLoop_anchor _ _ _ _ hloop hplaced
    have hp := (verticalLoop_heights track.type lastInfo.dir hloop).2.2.2
    simp only [pushedFrame, AddCoords]
    omega
  · intro f ft hf
    exact hf

theorem statesForTrackElem25DegDown_below : ∀ t ∈ statesForTrackElem25DegDown,
    ∃ tc ∈ (trackDataAt t).shape, tc.coord.z = -1 := by
  decide!

/-- From an anchor at height 0 no piece that continues a 25 degree descent can be added: each has
a footprint cell one level below its anchor. -/
theorem AddTrackToStack_down_at_floor (stack : List GeneratorInfo) (top : GeneratorInfo)
    (hlast : stack.getLast? = some top) (hz : top.ptr.z = 0) (t : track_type_t)
    (ht : t ∈ statesForTrackElem25DegDown) (flags : Nat) :
    AddTrackToStack stack ⟨t, flags⟩ = some (false, stack) := by
  rw [AddTrackToStack_eq stack top ⟨t, flags⟩ hlast]
  split
  · rfl
  · split
    · rfl
    · split
      · rfl
      · rename_i hplaced
        exfalso
        have hp : (AddTrackToSpace (CopySpace top.space mallocSpace) top.ptr top.dir
            ⟨t, flags⟩).1 = true := by
          simpa using hplaced
        obtain ⟨tc, htc, htz⟩ : ∃ tc ∈ (trackDataRotAt t top.dir).shape, tc.coord.z = -1 := by
          rw [trackDataRotAt_eq]
          exact rotateTimes_mem_z _ _ _ (statesForTrackElem25DegDown_below t ht)
        have hin := (OutOfBounds_eq_false_iff _).mp
          (AddTrackToSpace_true_in_bounds _ _ _ _ hp tc htc)
        simp only [AddCoords] at hin
        omega

/-- C28: a vertical loop is a dead end.  For every reachable stack whose top frame has a left or
right vertical loop as its last piece, the anchor of that frame is at height `z = 0`, the
successor list of the loop is `statesForTrackElem25DegDown`, `AddTrackToStack` refuses every
piece of that list and leaves the stack as it is, and `ChooseTrack` returns `false` for that
frame, whatever its failed set and the random values. -/
theorem verticalLoop_dead_end (stack : List GeneratorInfo) (h : ReachableStack stack)
    (top : GeneratorInfo) (hlast : stack.getLast? = some top)
    (lastTrack : TrackDesignTrackElement) (hlt : top.tracks.getLast? = some lastTrack)
    (hloop : IsVerticalLoop lastTrack.type) :
    top.ptr.z = 0 ∧
    mapFind trackStateMachine lastTrack.type = some statesForTrackElem25DegDown ∧
    (∀ t ∈ statesForTrackElem25DegDown, ∀ flags,
      AddTrackToStack stack ⟨t, flags⟩ = some (false, stack)) ∧
    (∀ (rand : Nat → Nat) (failedTracks : List track_type_t) (k : Nat), ∃ failedTracks' k',
      ChooseTrack rand stack failedTracks statesForTrackElem25DegDown k =
        some (false, stack, failedTracks', k')) := by
  have hz := ReachableStack_loop_height stack h top (List.mem_of_getLast?_eq_some hlast)
    lastTrack hlt hloop
  have hfail := AddTrackToStack_down_at_floor stack top hlast hz
  refine ⟨hz, ?_, fun t ht flags => hfail t ht flags, ?_⟩
  · rcases hloop with he | he <;> rw [he]
    · exact trackStateMachine_loops.1
    · exact trackStateMachine_loops.2
  · intro rand failedTracks k
    unfold ChooseTrack
    apply ChooseTrackLoop_all_fail rand _ stack failedTracks _ k (Nat.lt_succ_self _)
    intro t ht
    exact hfail t (List.mem_filter.mp ht).1 4

theorem verticalLoop_dead_end_witness :
    ReachableStack loopStack ∧ loopStack.getLast? = some loopFrame2 ∧
    loopFrame2.tracks.getLast? = some ⟨TRACK_ELEM_LEFT_VERTICAL_LOOP, 4⟩ ∧
    IsVerticalLoop (⟨TRACK_ELEM_LEFT_VERTICAL_LOOP, 4⟩ : TrackDesignTrackElement).type ∧
    (loopFrame2.ptr.z = 0 ∧
    mapFind trackStateMachine (⟨TRACK_ELEM_LEFT_VERTICAL_LOOP, 4⟩ : TrackDesignTrackElement).type =
      some statesForTrackElem25DegDown ∧
    (∀ t ∈ statesForTrackElem25DegDown, ∀ flags,
      AddTrackToStack loopStack ⟨t, flags⟩ = some (false, loopStack)) ∧
    (∀ (rand : Nat → Nat) (failedTracks : List track_type_t) (k : Nat), ∃ failedTracks' k',
      ChooseTrack rand loopStack failedTracks statesForTrackElem25DegDown k =
        some (false, loopStack, failedTracks', k'))) :=
  ⟨ReachableStack_loopStack, rfl, rfl, Or.inl rfl,
    verticalLoop_dead_end loopStack ReachableStack_loopStack loopFrame2 rfl
      ⟨TRACK_ELEM_LEFT_VERTICAL_LOOP, 4⟩ rfl (Or.inl rfl)⟩

/-! ### Replaying the sequence of a frame -/

theorem SameCells_refl (a : Space) : SameCells a a := fun _ _ _ => rfl

theorem SameCells_trans (a b c : Space) (h1 : SameCells a b) (h2 : SameCells b c) :
    SameCells a c := fun i h0 hn => (h1 i h0 hn).trans (h2 i h0 hn)

theorem SameCells_CopySpace (source dest : Space) : SameCells source (CopySpace source dest) := by
  intro i h0 hn
  unfold CopySpace
  rw [CopySpaceLoop_apply]
  have hcast : ((kSizeY * kSizeX * kSizeZ).toNat : Int) = kSizeY * kSizeX * kSizeZ := by decide
  rw [hcast, if_pos ⟨h0, hn⟩]

theorem SameCells_ReadSpace (a b : Space) (h : SameCells a b) (c : Coord)
    (hc : OutOfBounds c = false) : ReadSpace a c = ReadSpace b c := by
  obtain ⟨h0, hn⟩ := linearIndex_range c hc
  exact h _ h0 hn

theorem SameCells_WriteSpace (a b : Space) (h : SameCells a b) (c : Coord) (v : Cell) :
    SameCells (WriteSpace a c v) (WriteSpace b c v) := by
  intro i h0 hn
  unfold WriteSpace
  by_cases hi : i = linearIndex c
  · simp [hi]
  · simp [hi, h i h0 hn]

/-- On two grids that hold the same cells the loop of `AddTrackToSpace` returns the same flag and
leaves grids that hold the same cells. -/
theorem AddTrackToSpaceLoop_sameCells (ptr : Coord) (shape : List TrackCell) :
    ∀ (a b : Space), SameCells a b →
      (AddTrackToSpaceLoop ptr shape a).1 = (AddTrackToSpaceLoop ptr shape b).1 ∧
      SameCells (AddTrackToSpaceLoop ptr shape a).2 (AddTrackToSpaceLoop ptr shape b).2 := by
  induction shape with
  | nil =>
    intro a b h
    rw [AddTrackToSpaceLoop_nil, AddTrackToSpaceLoop_nil]
    exact ⟨rfl, h⟩
  | cons tc rest ih =>
    intro a b h
    cases hob : OutOfBounds (AddCoords ptr tc.coord) with
    | true =>
      rw [AddTrackToSpaceLoop_cons_oob ptr tc rest a hob,
        AddTrackToSpaceLoop_cons_oob ptr tc rest b hob]
      exact ⟨rfl, h⟩
    | false =>
      have hread := SameCells_ReadSpace a b h _ hob
      cases hr : ResolveCells (ReadSpace a (AddCoords ptr tc.coord)) tc.cell with
      | none =>
        rw [AddTrackToSpaceLoop_cons_none ptr tc rest a hob hr,
          AddTrackToSpaceLoop_cons_none ptr tc rest b hob (hread ▸ hr)]
        exact ⟨rfl, h⟩
      | some newCell =>
        rw [AddTrackToSpaceLoop_cons_some ptr tc rest a newCell hob hr,
          AddTrackToSpaceLoop_cons_some ptr tc rest b newCell hob (hread ▸ hr)]
        exact ih _ _ (SameCells_WriteSpace a b h _ newCell)

theorem Replay_append (tracks : List TrackDesignTrackElement) (track : TrackDesignTrackElement) :
    ∀ (space : Space) (ptr : Coord) (dir : DirectionType) (space' : Space) (ptr' : Coord)
      (dir' : DirectionType), Replay space ptr dir tracks = some (space', ptr', dir') →
      (AddTrackToSpace space' ptr' dir' track).1 = true →
      Replay space ptr dir (tracks ++ [track]) =
        some ((AddTrackToSpace space' ptr' dir' track).2,
          AddCoords ptr' (trackDataRotAt track.type dir').ptr, newDirOf track.type dir') := by
  induction tracks with
  | nil =>
    intro space ptr dir space' ptr' dir' h hp
    simp only [Replay, Option.some.injEq, Prod.mk.injEq] at h
    obtain ⟨h1, h2, h3⟩ := h
    subst h1 h2 h3
    simp only [List.nil_append, Replay, hp, if_true]
  | cons t rest ih =>
    intro space ptr dir space' ptr' dir' h hp
    simp only [Replay] at h
    split at h
    · rename_i ht
      simp only [List.cons_append, Replay, ht, if_true]
      exact ih _ _ _ _ _ _ h hp
    · exact Option.noConfusion h

/-- The replay of the sequence of a frame from the initial grid succeeds and ends with the grid,
anchor and heading of the frame. -/
theorem Replay_of_reachable (stack : List GeneratorInfo) (h : ReachableStack stack) :
    ∀ f ∈ stack, ∃ space, Replay initialSpace ⟨0, 4, 0⟩ kEast f.tracks =
      some (space, f.ptr, f.dir) ∧ SameCells space f.space := by
  refine ReachableStack_induction (fun f => ∃ space, Replay initialSpace ⟨0, 4, 0⟩ kEast
    f.tracks = some (space, f.ptr, f.dir) ∧ SameCells space f.space) ?_ ?_ ?_ stack h
  · exact ⟨initialSpace, rfl, SameCells_refl _⟩
  · intro lastInfo track ⟨space, hrep, hsame⟩ _ _ hplaced
    have hcopy : SameCells space (CopySpace lastInfo.space mallocSpace) :=
      SameCells_trans _ _ _ hsame (SameCells_CopySpace _ _)
    have hloop := AddTrackToSpaceLoop_sameCells lastInfo.ptr
      (trackDataRotAt track.type lastInfo.dir).shape _ _ hcopy
    have hp : (AddTrackToSpace space lastInfo.ptr lastInfo.dir track).1 = true := by
      unfold AddTrackToSpace at hplaced ⊢
      rw [hloop.1]
      exact hplaced
    refine ⟨(AddTrackToSpace space lastInfo.ptr lastInfo.dir track).2, ?_, ?_⟩
    · simp only [pushedFrame]
      exact Replay_append _ _ _ _ _ _ _ _ hrep hp
    · simp only [pushedFrame]
      unfold AddTrackToSpace
      exact hloop.2
  · intro f ft hf
    exact hf

/-- The initial grid of an attempt: the two reserved cells are fully occupied, every other cell
is empty. -/
theorem ReadSpace_initialSpace (c : Coord) (hc : OutOfBounds c = false) :
    ReadSpace initialSpace c =
      if c = ⟨0, 3, 0⟩ ∨ c = ⟨0, 3, 1⟩ then ⟨1, 1, 1, 1⟩ else ⟨0, 0, 0, 0⟩ := by
  unfold initialSpace
  by_cases h1 : c = ⟨0, 3, 1⟩
  · rw [h1, ReadSpace_WriteSpace_same]
    simp
  · rw [ReadSpace_WriteSpace_other _ _ _ _ (by decide) hc h1]
    by_cases h0 : c = endCoord
    · rw [h0, ReadSpace_WriteSpace_same]
      simp [endCoord]
    · rw [ReadSpace_WriteSpace_other _ _ _ _ (by decide) hc h0]
      have h0' : ¬ c = ⟨0, 3, 0⟩ := h0
      simp [h0', h1, ReadSpace]

/-- C26: the replay invariant.  For every frame of every reachable stack, replaying the sequence
of the frame piece by piece with `AddTrackToSpace` from the initial grid (all cells empty except
`(0,3,0)` and `(0,3,1)`, which are fully occupied), starting at the anchor `(0,4,0)` heading east
and advancing the anchor by the oriented exit of each piece and the heading by its heading delta,
succeeds at every step and ends with the anchor and the heading of the frame and with a grid that
holds the same cells as the grid of the frame. -/
theorem ReachableStack_replay (stack : List GeneratorInfo) (h : ReachableStack stack)
    (f : GeneratorInfo) (hf : f ∈ stack) :
    ∃ space, Replay initialSpace ⟨0, 4, 0⟩ kEast f.tracks = some (space, f.ptr, f.dir) ∧
      (∀ i : Int, 0 ≤ i → i < 9 * 12 * 11 → space i = f.space i) ∧
      (∀ c : Coord, OutOfBounds c = false → ReadSpace space c = ReadSpace f.space c) ∧
      (∀ c : Coord, OutOfBounds c = false → ReadSpace initialSpace c =
        if c = ⟨0, 3, 0⟩ ∨ c = ⟨0, 3, 1⟩ then ⟨1, 1, 1, 1⟩ else ⟨0, 0, 0, 0⟩) := by
  obtain ⟨space, hrep, hsame⟩ := Replay_of_reachable stack h f hf
  exact ⟨space, hrep, hsame, fun c hc => SameCells_ReadSpace _ _ hsame c hc,
    ReadSpace_initialSpace⟩

theorem ReachableStack_replay_witness :
    ReachableStack prologueStack ∧ prologueFrame7 ∈ prologueStack ∧
    ∃ space, Replay initialSpace ⟨0, 4, 0⟩ kEast prologueFrame7.tracks =
        some (space, prologueFrame7.ptr, prologueFrame7.dir) ∧
      (∀ i : Int, 0 ≤ i → i < 9 * 12 * 11 → space i = prologueFrame7.space i) ∧
      (∀ c : Coord, OutOfBounds c = false →
        ReadSpace space c = ReadSpace prologueFrame7.space c) ∧
      (∀ c : Coord, OutOfBounds c = false → ReadSpace initialSpace c =
        if c = ⟨0, 3, 0⟩ ∨ c = ⟨0, 3, 1⟩ then ⟨1, 1, 1, 1⟩ else ⟨0, 0, 0, 0⟩) :=
  ⟨ReachableStack_prologueStack, by simp [prologueStack],
    ReachableStack_replay prologueStack ReachableStack_prologueStack prologueFrame7
      (by simp [prologueStack])⟩

/-! ### The length of a sequence -/

theorem gt_heightLimit_of_long (n : Nat) (z : Int) (hn : 220 < n) (hz : 0 ≤ z) :
    (z : ℚ) > heightLimit n := by
  rw [heightLimit_eq, if_pos (by omega)]
  have hn' : (221 : ℚ) ≤ (n : ℚ) := by exact_mod_cast hn
  have hz' : (0 : ℚ) ≤ (z : ℚ) := by exact_mod_cast hz
  linarith

/-- On a top frame that holds more than 220 pieces `AddTrackToStack` refuses every piece. -/
theorem AddTrackToStack_of_long (stack : List GeneratorInfo) (lastInfo : GeneratorInfo)
    (track : TrackDesignTrackElement) (hlast : stack.getLast? = some lastInfo)
    (hn : 220 < lastInfo.tracks.length) : AddTrackToStack stack track = some (false, stack) := by
  rw [AddTrackToStack_eq stack lastInfo track hlast]
  split
  · rfl
  · rename_i hob
    have hin := (OutOfBounds_eq_false_iff _).mp (by simpa using hob)
    rw [if_pos (gt_heightLimit_of_long _ _ hn hin.2.2.2.2.1)]

theorem ReachableStack_length_le (stack : List GeneratorInfo) (h : ReachableStack stack) :
    ∀ f ∈ stack, f.tracks.length ≤ 221 := by
  refine ReachableStack_induction (fun f => f.tracks.length ≤ 221) ?_ ?_ ?_ stack h
  · exact Nat.zero_le _
  · intro lastInfo track _ hob hlim _
    have hin := (OutOfBounds_eq_false_iff _).mp hob
    have hle : lastInfo.tracks.length ≤ 220 := by
      by_contra hgt
      exact hlim (gt_heightLimit_of_long _ _ (by omega) hin.2.2.2.2.1)
    simp only [pushedFrame, List.length_append, List.length_singleton]
    omega
  · intro f ft hf
    exact hf

/-- C30: the height limit bounds the length of a sequence.  With more than 220 pieces in the top
frame the limit `11 - 0.05 * n` is below every height `z ≥ 0`, so `AddTrackToStack` refuses every
piece; hence every frame of a reachable stack holds at most 221 pieces, and so does every
sequence that an attempt (and so `Generate`) returns. -/
theorem tracks_length_le (stack : List GeneratorInfo) (h : ReachableStack stack)
    (f : GeneratorInfo) (hf : f ∈ stack) :
    f.tracks.length ≤ 221 ∧
    (∀ (n : Nat) (z : Int), 220 < n → 0 ≤ z → (z : ℚ) > heightLimit n) ∧
    (∀ (stack2 : List GeneratorInfo) (lastInfo : GeneratorInfo) (track : TrackDesignTrackElement),
      stack2.getLast? = some lastInfo → 220 < lastInfo.tracks.length →
      AddTrackToStack stack2 track = some (false, stack2)) ∧
    (∀ (rand : Nat → Nat) (fuel k : Nat) (tracks : List TrackDesignTrackElement) (k' : Nat),
      Attempt rand fuel k = AttemptResult.returned tracks k' → tracks.length ≤ 221) ∧
    (∀ (rand : Nat → Nat) (fuel attempts k : Nat) (tracks : List TrackDesignTrackElement),
      GenerateWith tracksToAdd rand fuel attempts k = some tracks → tracks.length ≤ 221) := by
  refine ⟨ReachableStack_length_le stack h f hf, gt_heightLimit_of_long,
    AddTrackToStack_of_long, ?_, ?_⟩
  · intro rand fuel k tracks k' hr
    obtain ⟨stack', top, hs, htop, htr, _⟩ := Attempt_returned rand fuel k tracks k' hr
    rw [← htr]
    exact ReachableStack_length_le stack' (SearchReachable_reachable stack' hs) top
      (List.mem_of_getLast?_eq_some htop)
  · intro rand fuel attempts k tracks hr
    obtain ⟨stack', top, hs, htop, htr, _⟩ :=
      GenerateWith_returned_top rand fuel attempts k tracks hr
    rw [← htr]
    exact ReachableStack_length_le stack' (SearchReachable_reachable stack' hs) top
      (List.mem_of_getLast?_eq_some htop)

theorem tracks_length_le_witness :
    ReachableStack prologueStack ∧ prologueFrame7 ∈ prologueStack ∧
    (prologueFrame7.tracks.length ≤ 221 ∧
    (∀ (n : Nat) (z : Int), 220 < n → 0 ≤ z → (z : ℚ) > heightLimit n) ∧
    (∀ (stack2 : List GeneratorInfo) (lastInfo : GeneratorInfo) (track : TrackDesignTrackElement),
      stack2.getLast? = some lastInfo → 220 < lastInfo.tracks.length →
      AddTrackToStack stack2 track = some (false, stack2)) ∧
    (∀ (rand : Nat → Nat) (fuel k : Nat) (tracks : List TrackDesignTrackElement) (k' : Nat),
      Attempt rand fuel k = AttemptResult.returned tracks k' → tracks.length ≤ 221) ∧
    (∀ (rand : Nat → Nat) (fuel attempts k : Nat) (tracks : List TrackDesignTrackElement),
      GenerateWith tracksToAdd rand fuel attempts k = some tracks → tracks.length ≤ 221)) :=
  ⟨ReachableStack_prologueStack, by simp [prologueStack],
    tracks_length_le prologueStack ReachableStack_prologueStack prologueFrame7
      (by simp [prologueStack])⟩

/-! ### The sequences of the search -/

theorem get?_length_sub_one {α : Type} (l : List α) (a : α) (h : l.getLast? = some a) :
    l.get? (l.length - 1) = some a := by
  rw [List.get?_eq_getElem?, ← List.getLast?_eq_getElem?]
  exact h

theorem get?_append_of_lt {α : Type} (l l' : List α) (i : Nat) (h : i < l.length) :
    (l ++ l').get? i = l.get? i := by
  rw [List.get?_eq_getElem?, List.get?_eq_getElem?, List.getElem?_append_left h]

theorem get?_append_length {α : Type} (l : List α) (a : α) :
    (l ++ [a]).get? l.length = some a := by
  simp

theorem FollowsSuccessors_of_short (tracks : List TrackDesignTrackElement)
    (h : tracks.length ≤ 5) : FollowsSuccessors tracks := by
  intro i prev cur hi _ hcur
  have hlt : i < tracks.length := by
    rcases Nat.lt_or_ge i tracks.length with h1 | h1
    · exact h1
    · rw [List.get?_eq_none.mpr h1] at hcur
      exact Option.noConfusion hcur
  omega

theorem FollowsSuccessors_append (tracks : List TrackDesignTrackElement)
    (lastTrack track : TrackDesignTrackElement) (h : FollowsSuccessors tracks)
    (hlast : tracks.getLast? = some lastTrack) (hs : IsSuccessor lastTrack track) :
    FollowsSuccessors (tracks ++ [track]) := by
  intro i prev cur hi hprev hcur
  have hne : tracks ≠ [] := by
    intro he
    rw [he] at hlast
    exact Option.noConfusion hlast
  have hpos : 0 < tracks.length := List.length_pos.mpr hne
  rcases Nat.lt_trichotomy i tracks.length with hlt | heq | hgt
  · rw [get?_append_of_lt _ _ _ (by omega)] at hprev
    rw [get?_append_of_lt _ _ _ hlt] at hcur
    exact h i prev cur hi hprev hcur
  · rw [get?_append_of_lt _ _ _ (by omega), heq,
      get?_length_sub_one tracks lastTrack hlast] at hprev
    rw [heq, get?_append_length] at hcur
    have h1 : lastTrack = prev := Option.some.inj hprev
    have h2 : track = cur := Option.some.inj hcur
    rw [← h1, ← h2]
    exact hs
  · rw [List.get?_eq_none.mpr (by simp; omega)] at hcur
    exact Option.noConfusion hcur

theorem prologue_follows : IsSuccessor ⟨TRACK_ELEM_FLAT_TO_LEFT_BANKED_25_DEG_UP, 4⟩
      ⟨TRACK_ELEM_LEFT_BANKED_QUARTER_TURN_5_TILE_25_DEG_UP, 4⟩ ∧
    IsSuccessor ⟨TRACK_ELEM_LEFT_BANKED_QUARTER_TURN_5_TILE_25_DEG_UP, 4⟩
      ⟨TRACK_ELEM_LEFT_BANKED_QUARTER_TURN_5_TILE_25_DEG_UP, 4⟩ :=
  ⟨⟨statesForTrackElem25DegUpLeftBanked, by decide!, by decide!⟩,
    ⟨statesForTrackElem25DegUpLeftBanked, by decide!, by decide!⟩⟩

theorem prologueStack_tracks : ∀ f ∈ prologueStack, ∃ n, n ≤ 7 ∧ f.tracks = tracksToAdd.take n := by
  intro f hf
  simp only [prologueStack, List.mem_cons, List.mem_singleton, List.not_mem_nil, or_false] at hf
  rcases hf with rfl | rfl | rfl | rfl | rfl | rfl | rfl | rfl
  · exact ⟨0, by omega, rfl⟩
  · exact ⟨1, by omega, rfl⟩
  · exact ⟨2, by omega, rfl⟩
  · exact ⟨3, by omega, rfl⟩
  · exact ⟨4, by omega, rfl⟩
  · exact ⟨5, by omega, rfl⟩
  · exact ⟨6, by omega, rfl⟩
  · exact ⟨7, by omega, rfl⟩

theorem tracksToAdd_follows : ∀ n, n ≤ 7 → FollowsSuccessors (tracksToAdd.take n) := by
  intro n hn
  rcases Nat.lt_or_ge n 6 with h5 | h6
  · exact FollowsSuccessors_of_short _ (by simp; omega)
  · have h67 : n = 6 ∨ n = 7 := by omega
    have e6 : tracksToAdd.take 6 = tracksToAdd.take 5 ++
        [⟨TRACK_ELEM_LEFT_BANKED_QUARTER_TURN_5_TILE_25_DEG_UP, 4⟩] := rfl
    have f6 : FollowsSuccessors (tracksToAdd.take 6) := by
      rw [e6]
      exact FollowsSuccessors_append _ ⟨TRACK_ELEM_FLAT_TO_LEFT_BANKED_25_DEG_UP, 4⟩ _
        (FollowsSuccessors_of_short _ (by simp)) rfl prologue_follows.1
    rcases h67 with rfl | rfl
    · exact f6
    · have e7 : tracksToAdd.take 7 = tracksToAdd.take 6 ++
          [⟨TRACK_ELEM_LEFT_BANKED_QUARTER_TURN_5_TILE_25_DEG_UP, 4⟩] := rfl
      rw [e7]
      exact FollowsSuccessors_append _ ⟨TRACK_ELEM_LEFT_BANKED_QUARTER_TURN_5_TILE_25_DEG_UP, 4⟩
        _ f6 rfl prologue_follows.2

theorem SearchReachable_follows (stack : List GeneratorInfo) (h : SearchReachable stack) :
    ∀ f ∈ stack, FollowsSuccessors f.tracks := by
  refine SearchReachable_induction (fun f => FollowsSuccessors f.tracks) ?_ ?_ ?_ stack h
  · intro f hf
    obtain ⟨n, hn, he⟩ := prologueStack_tracks f hf
    show FollowsSuccessors f.tracks
    rw [he]
    exact tracksToAdd_follows n hn
  · intro lastInfo lastTrack npt t hP hlt hnpt ht _
    simp only [pushedFrame]
    exact FollowsSuccessors_append _ lastTrack _ hP hlt ⟨npt, hnpt, ht⟩
  · intro f ft hf
    exact hf

/-- C27: in every sequence held by a frame of a stack of the search, each piece from the sixth
onward is a member of the successor list that `trackStateMachine` assigns to the piece
immediately before it; the same holds for every sequence that an attempt (and so `Generate`)
returns. -/
theorem tracks_follow_successors (stack : List GeneratorInfo) (h : SearchReachable stack)
    (f : GeneratorInfo) (hf : f ∈ stack) :
    (∀ i prev cur, 5 ≤ i → f.tracks.get? (i - 1) = some prev → f.tracks.get? i = some cur →
      ∃ states, mapFind trackStateMachine prev.type = some states ∧ cur.type ∈ states) ∧
    (∀ (rand : Nat → Nat) (fuel k : Nat) (tracks : List TrackDesignTrackElement) (k' : Nat),
      Attempt rand fuel k = AttemptResult.returned tracks k' → FollowsSuccessors tracks) ∧
    (∀ (rand : Nat → Nat) (fuel attempts k : Nat) (tracks : List TrackDesignTrackElement),
      GenerateWith tracksToAdd rand fuel attempts k = some tracks →
      FollowsSuccessors tracks) := by
  refine ⟨SearchReachable_follows stack h f hf, ?_, ?_⟩
  · intro rand fuel k tracks k' hr
    obtain ⟨stack', top, hs, htop, htr, _⟩ := Attempt_returned rand fuel k tracks k' hr
    rw [← htr]
    exact SearchReachable_follows stack' hs top (List.mem_of_getLast?_eq_some htop)
  · intro rand fuel attempts k tracks hr
    obtain ⟨stack', top, hs, htop, htr, _⟩ :=
      GenerateWith_returned_top rand fuel attempts k tracks hr
    rw [← htr]
    exact SearchReachable_follows stack' hs top (List.mem_of_getLast?_eq_some htop)

theorem tracks_follow_successors_witness :
    SearchReachable prologueStack ∧ prologueFrame7 ∈ prologueStack ∧
    prologueFrame7.tracks.get? 5 =
      some ⟨TRACK_ELEM_LEFT_BANKED_QUARTER_TURN_5_TILE_25_DEG_UP, 4⟩ ∧
    ((∀ i prev cur, 5 ≤ i → prologueFrame7.tracks.get? (i - 1) = some prev →
      prologueFrame7.tracks.get? i = some cur →
      ∃ states, mapFind trackStateMachine prev.type = some states ∧ cur.type ∈ states) ∧
    (∀ (rand : Nat → Nat) (fuel k : Nat) (tracks : List TrackDesignTrackElement) (k' : Nat),
      Attempt rand fuel k = AttemptResult.returned tracks k' → FollowsSuccessors tracks) ∧
    (∀ (rand : Nat → Nat) (fuel attempts k : Nat) (tracks : List TrackDesignTrackElement),
      GenerateWith tracksToAdd rand fuel attempts k = some tracks →
      FollowsSuccessors tracks)) :=
  ⟨SearchReachable.prologue _ AddInitialTracks_prologue, by simp [prologueStack], rfl,
    tracks_follow_successors prologueStack (SearchReachable.prologue _ AddInitialTracks_prologue)
      prologueFrame7 (by simp [prologueStack])⟩

/-! ### The station at the head of a sequence -/

theorem stationTracks_no_successors : ∀ e ∈ stationTracks,
    mapFind trackStateMachine e.type = none := by
  decide!

theorem BeginsWithStation_append (tracks : List TrackDesignTrackElement)
    (lastTrack : TrackDesignTrackElement) (states : List track_type_t) (t : track_type_t)
    (h : BeginsWithStation tracks) (hlast : tracks.getLast? = some lastTrack)
    (hs : mapFind trackStateMachine lastTrack.type = some states) :
    BeginsWithStation (tracks ++ [⟨t, 4⟩]) := by
  obtain ⟨htake, hflags⟩ := h
  have hlen : 4 ≤ tracks.length := by
    by_contra hlt
    have ht : tracks = stationTracks.take tracks.length := by
      rw [← htake, List.take_of_length_le (by omega)]
    have hmem : lastTrack ∈ stationTracks := by
      have h1 : lastTrack ∈ tracks := List.mem_of_getLast?_eq_some hlast
      rw [ht] at h1
      exact List.mem_of_mem_take h1
    rw [stationTracks_no_successors lastTrack hmem] at hs
    exact Option.noConfusion hs
  constructor
  · rw [List.take_append_of_le_length hlen, htake, List.length_append, List.length_singleton,
      List.take_of_length_le (by simpa [stationTracks] using hlen),
      List.take_of_length_le (by simp [stationTracks]; omega)]
  · intro e he
    rcases List.mem_append.mp he with he | he
    · exact hflags e he
    · rw [List.mem_singleton.mp he]

theorem tracksToAdd_beginsWithStation : ∀ n, n ≤ 7 → BeginsWithStation (tracksToAdd.take n) := by
  intro n hn
  have hall : ∀ m ∈ List.range 8, BeginsWithStation (tracksToAdd.take m) := by
    intro m hm
    simp only [List.mem_range] at hm
    have : m = 0 ∨ m = 1 ∨ m = 2 ∨ m = 3 ∨ m = 4 ∨ m = 5 ∨ m = 6 ∨ m = 7 := by omega
    rcases this with rfl | rfl | rfl | rfl | rfl | rfl | rfl | rfl <;>
      exact ⟨rfl, by decide⟩
  exact hall n (List.mem_range.mpr (by omega))

theorem SearchReachable_station (stack : List GeneratorInfo) (h : SearchReachable stack) :
    ∀ f ∈ stack, BeginsWithStation f.tracks := by
  refine SearchReachable_induction (fun f => BeginsWithStation f.tracks) ?_ ?_ ?_ stack h
  · intro f hf
    obtain ⟨n, hn, he⟩ := prologueStack_tracks f hf
    show BeginsWithStation f.tracks
    rw [he]
    exact tracksToAdd_beginsWithStation n hn
  · intro lastInfo lastTrack npt t hP hlt hnpt _ _
    simp only [pushedFrame]
    exact BeginsWithStation_append _ lastTrack npt t hP hlt hnpt
  · intro f ft hf
    exact hf

theorem BeginsWithStation_of_success (top : GeneratorInfo) (h : BeginsWithStation top.tracks)
    (hc : CheckEndCondition top = some true) :
    top.tracks ≠ [] ∧ top.tracks.take 4 = stationTracks ∧ ∀ e ∈ top.tracks, e.flags = 4 := by
  have hlen := ((CheckEndCondition_eq_some_true top).mp hc).2.2
  simp only [kMinimumTrackSize] at hlen
  refine ⟨?_, ?_, h.2⟩
  · intro he
    rw [he] at hlen
    simp at hlen
  · rw [h.1, List.take_of_length_le (by simp [stationTracks]; omega)]

/-- C22: every sequence that an attempt (and so `Generate`) returns is non-empty and begins with
the station: its first four pieces are `BEGIN_STATION`, `MIDDLE_STATION`, `MIDDLE_STATION`,
`END_STATION`, and every element carries the value 4.  Backtracking does not replace the station:
in every frame of every stack of the search the sequence agrees with the four station pieces on
its first four positions, as far as it goes, and carries the value 4 throughout. -/
theorem station_at_head (stack : List GeneratorInfo) (h : SearchReachable stack)
    (f : GeneratorInfo) (hf : f ∈ stack) :
    f.tracks.take 4 = stationTracks.take f.tracks.length ∧
    (∀ e ∈ f.tracks, e.flags = 4) ∧
    (∀ (rand : Nat → Nat) (fuel k : Nat) (tracks : List TrackDesignTrackElement) (k' : Nat),
      Attempt rand fuel k = AttemptResult.returned tracks k' →
      tracks ≠ [] ∧ tracks.take 4 = stationTracks ∧ ∀ e ∈ tracks, e.flags = 4) ∧
    (∀ (rand : Nat → Nat) (fuel attempts k : Nat) (tracks : List TrackDesignTrackElement),
      GenerateWith tracksToAdd rand fuel attempts k = some tracks →
      tracks ≠ [] ∧ tracks.take 4 = stationTracks ∧ ∀ e ∈ tracks, e.flags = 4) := by
  have hf' := SearchReachable_station stack h f hf
  refine ⟨hf'.1, hf'.2, ?_, ?_⟩
  · intro rand fuel k tracks k' hr
    obtain ⟨stack', top, hs, htop, htr, hc⟩ := Attempt_returned rand fuel k tracks k' hr
    rw [← htr]
    exact BeginsWithStation_of_success top
      (SearchReachable_station stack' hs top (List.mem_of_getLast?_eq_some htop)) hc
  · intro rand fuel attempts k tracks hr
    obtain ⟨stack', top, hs, htop, htr, hc⟩ :=
      GenerateWith_returned_top rand fuel attempts k tracks hr
    rw [← htr]
    exact BeginsWithStation_of_success top
      (SearchReachable_station stack' hs top (List.mem_of_getLast?_eq_some htop)) hc

theorem station_at_head_witness :
    SearchReachable prologueStack ∧ prologueFrame7 ∈ prologueStack ∧
    prologueFrame7.tracks.length = 7 ∧
    (prologueFrame7.tracks.take 4 = stationTracks.take prologueFrame7.tracks.length ∧
    (∀ e ∈ prologueFrame7.tracks, e.flags = 4) ∧
    (∀ (rand : Nat → Nat) (fuel k : Nat) (tracks : List TrackDesignTrackElement) (k' : Nat),
      Attempt rand fuel k = AttemptResult.returned tracks k' →
      tracks ≠ [] ∧ tracks.take 4 = stationTracks ∧ ∀ e ∈ tracks, e.flags = 4) ∧
    (∀ (rand : Nat → Nat) (fuel attempts k : Nat) (tracks : List TrackDesignTrackElement),
      GenerateWith tracksToAdd rand fuel attempts k = some tracks →
      tracks ≠ [] ∧ tracks.take 4 = stationTracks ∧ ∀ e ∈ tracks, e.flags = 4)) :=
  ⟨SearchReachable.prologue _ AddInitialTracks_prologue, by simp [prologueStack], rfl,
    station_at_head prologueStack (SearchReachable.prologue _ AddInitialTracks_prologue)
      prologueFrame7 (by simp [prologueStack])⟩

/-! ### The linear index -/

/-- C34: the linear index `kSizeX * kSizeY * z + kSizeX * y + x` of `ReadSpace` and `WriteSpace`
lies in `[0, 9 * 12 * 11)` on in-bounds coordinates and is injective there; so, for in-bounds
`p` and `q`, `ReadSpace` after `WriteSpace` at `p` returns the written cell at `p` and the
previous cell at every `q` different from `p`. -/
theorem ReadSpace_after_WriteSpace (space : Space) (p q : Coord) (c : Cell)
    (hp : OutOfBounds p = false) (hq : OutOfBounds q = false) :
    linearIndex p = kSizeX * kSizeY * p.z + kSizeX * p.y + p.x ∧
    (0 ≤ linearIndex p ∧ linearIndex p < 9 * 12 * 11) ∧
    (linearIndex p = linearIndex q → p = q) ∧
    ReadSpace (WriteSpace space p c) p = c ∧
    (q ≠ p → ReadSpace (WriteSpace space p c) q = ReadSpace space q) ∧
    (∀ i : Int, ReadSpace space p = space (linearIndex p) ∧
      WriteSpace space p c i = if i = linearIndex p then c else space i) :=
  ⟨rfl, linearIndex_range p hp, linearIndex_inj p q hp hq, ReadSpace_WriteSpace_same space p c,
    ReadSpace_WriteSpace_other space p q c hp hq, fun _ => ⟨rfl, rfl⟩⟩

theorem ReadSpace_after_WriteSpace_witness :
    OutOfBounds ⟨8, 11, 10⟩ = false ∧ OutOfBounds ⟨0, 0, 0⟩ = false ∧
    (linearIndex ⟨8, 11, 10⟩ =
      kSizeX * kSizeY * (⟨8, 11, 10⟩ : Coord).z + kSizeX * (⟨8, 11, 10⟩ : Coord).y +
        (⟨8, 11, 10⟩ : Coord).x ∧
    (0 ≤ linearIndex ⟨8, 11, 10⟩ ∧ linearIndex ⟨8, 11, 10⟩ < 9 * 12 * 11) ∧
    (linearIndex ⟨8, 11, 10⟩ = linearIndex ⟨0, 0, 0⟩ → (⟨8, 11, 10⟩ : Coord) = ⟨0, 0, 0⟩) ∧
    ReadSpace (WriteSpace initialSpace ⟨8, 11, 10⟩ ⟨1, 0, 0, 1⟩) ⟨8, 11, 10⟩ = ⟨1, 0, 0, 1⟩ ∧
    ((⟨0, 0, 0⟩ : Coord) ≠ ⟨8, 11, 10⟩ →
      ReadSpace (WriteSpace initialSpace ⟨8, 11, 10⟩ ⟨1, 0, 0, 1⟩) ⟨0, 0, 0⟩ =
        ReadSpace initialSpace ⟨0, 0, 0⟩) ∧
    (∀ i : Int, ReadSpace initialSpace ⟨8, 11, 10⟩ = initialSpace (linearIndex ⟨8, 11, 10⟩) ∧
      WriteSpace initialSpace ⟨8, 11, 10⟩ ⟨1, 0, 0, 1⟩ i =
        if i = linearIndex ⟨8, 11, 10⟩ then ⟨1, 0, 0, 1⟩ else initialSpace i)) :=
  ⟨by decide, by decide,
    ReadSpace_after_WriteSpace initialSpace ⟨8, 11, 10⟩ ⟨0, 0, 0⟩ ⟨1, 0, 0, 1⟩ (by decide)
      (by decide)⟩

/-! ### The successor lists are closed -/

theorem trackStateMachine_values : ∀ e ∈ trackStateMachine, e.2 ∈ successorLists := by
  decide!

theorem successorLists_keys : ∀ states ∈ successorLists, ∀ s ∈ states,
    (mapFind trackStateMachine s).isSome = true ∧
    ((mapFind trackData s).isSome = true ∨ s ∈ mirrorMap.map Prod.fst) := by
  decide!

/-- C33: the transition tables are closed.  Every successor list held by `trackStateMachine` is
one of the eleven successor lists of the source, and every piece id listed in one of them is
itself a key of `trackStateMachine` (with such a list as its value), has an entry of
`trackDataRot` with a non-empty footprint at each of the four headings, and is a key of the
literal `trackData` or a left-hand id of the mirror table.  So the lookups
`trackDataRot[{type, dir}]` and `trackStateMachine[type]` for a candidate taken from a successor
list find an entry. -/
theorem successorLists_closed (states : List track_type_t) (hstates : states ∈ successorLists)
    (s : track_type_t) (hs : s ∈ states) :
    (∃ next, mapFind trackStateMachine s = some next ∧ next ∈ successorLists) ∧
    (∀ d : DirectionType, mapFind trackDataRot (s, d) = some (trackDataRotAt s d) ∧
      (trackDataRotAt s d).shape ≠ []) ∧
    ((∃ p, mapFind trackData s = some p) ∨ s ∈ mirrorMap.map Prod.fst) ∧
    (∀ (t : track_type_t) (next : List track_type_t),
      mapFind trackStateMachine t = some next → next ∈ successorLists) := by
  obtain ⟨hkey, hdata⟩ := successorLists_keys states hstates s hs
  obtain ⟨next, hnext⟩ := Option.isSome_iff_exists.mp hkey
  have hvalues : ∀ (t : track_type_t) (next : List track_type_t),
      mapFind trackStateMachine t = some next → next ∈ successorLists := fun t next h =>
    trackStateMachine_values (t, next) (mem_of_mapFind_eq_some _ _ _ h)
  exact ⟨⟨next, hnext, hvalues s next hnext⟩,
    fun d => ⟨mapFind_trackDataRot s d, trackDataRotAt_shape_ne_nil s d⟩,
    hdata.imp (fun h => Option.isSome_iff_exists.mp h) id, hvalues⟩

theorem successorLists_closed_witness :
    statesForTrackElem25DegUp ∈ successorLists ∧
    TRACK_ELEM_LEFT_VERTICAL_LOOP ∈ statesForTrackElem25DegUp ∧
    ((∃ next, mapFind trackStateMachine TRACK_ELEM_LEFT_VERTICAL_LOOP = some next ∧
      next ∈ successorLists) ∧
    (∀ d : DirectionType, mapFind trackDataRot (TRACK_ELEM_LEFT_VERTICAL_LOOP, d) =
        some (trackDataRotAt TRACK_ELEM_LEFT_VERTICAL_LOOP d) ∧
      (trackDataRotAt TRACK_ELEM_LEFT_VERTICAL_LOOP d).shape ≠ []) ∧
    ((∃ p, mapFind trackData TRACK_ELEM_LEFT_VERTICAL_LOOP = some p) ∨
      TRACK_ELEM_LEFT_VERTICAL_LOOP ∈ mirrorMap.map Prod.fst) ∧
    (∀ (t : track_type_t) (next : List track_type_t),
      mapFind trackStateMachine t = some next → next ∈ successorLists)) :=
  ⟨by decide, by decide,
    successorLists_closed statesForTrackElem25DegUp (by decide) TRACK_ELEM_LEFT_VERTICAL_LOOP
      (by decide)⟩

/-! ### The reserved cells -/

theorem mem_cellsAt (c ptr : Coord) (shape : List TrackCell) (x : Cell)
    (h : x ∈ cellsAt c ptr shape) : ∃ tc ∈ shape, AddCoords ptr tc.coord = c ∧ tc.cell = x := by
  simp only [cellsAt, List.mem_map, List.mem_filter, decide_eq_true_eq] at h
  obtain ⟨tc, ⟨htc, hc⟩, hx⟩ := h
  exact ⟨tc, htc, hc, hx⟩

theorem cellsAt_eq_nil (c ptr : Coord) (shape : List TrackCell) (h : cellsAt c ptr shape = []) :
    ∀ tc ∈ shape, AddCoords ptr tc.coord ≠ c := by
  intro tc htc he
  have hmem : tc.cell ∈ cellsAt c ptr shape := by
    simp only [cellsAt, List.mem_map, List.mem_filter, decide_eq_true_eq]
    exact ⟨tc, ⟨htc, he⟩, rfl⟩
  rw [h] at hmem
  exact List.not_mem_nil _ hmem

/-- Every footprint cell that a sequence puts on a coordinate has a set quadrant. -/
theorem footprintsAt_set (c : Coord) (tracks : List TrackDesignTrackElement) :
    ∀ (ptr : Coord) (dir : DirectionType), ∀ x ∈ footprintsAt c ptr dir tracks,
      CellsCollide x x := by
  induction tracks with
  | nil =>
    intro ptr dir x hx
    simp [footprintsAt] at hx
  | cons track rest ih =>
    intro ptr dir x hx
    simp only [footprintsAt, List.mem_append] at hx
    rcases hx with hx | hx
    · obtain ⟨tc, htc, _, rfl⟩ := mem_cellsAt _ _ _ _ hx
      exact trackDataRotAt_noEmptyCell track.type dir tc htc
    · exact ih _ _ x hx

/-- A sequence that puts no footprint cell on a coordinate: no cell of any of its pieces, placed
at the pose reached after the pieces before it, falls on the coordinate. -/
theorem footprintsAt_eq_nil (c : Coord) (tracks : List TrackDesignTrackElement) :
    ∀ (ptr : Coord) (dir : DirectionType), footprintsAt c ptr dir tracks = [] →
      ∀ (pre : List TrackDesignTrackElement) (track : TrackDesignTrackElement)
        (post : List TrackDesignTrackElement), tracks = pre ++ track :: post →
        ∀ tc ∈ (trackDataRotAt track.type (poseAfter ptr dir pre).2).shape,
          AddCoords (poseAfter ptr dir pre).1 tc.coord ≠ c := by
  induction tracks with
  | nil =>
    intro ptr dir _ pre track post he
    simp at he
  | cons t rest ih =>
    intro ptr dir h pre track post he
    simp only [footprintsAt, List.append_eq_nil] at h
    cases pre with
    | nil =>
      simp only [List.nil_append, List.cons.injEq] at he
      obtain ⟨h1, _⟩ := he
      subst h1
      exact cellsAt_eq_nil c ptr _ h.1
    | cons p pre' =>
      simp only [List.cons_append, List.cons.injEq] at he
      obtain ⟨h1, h2⟩ := he
      subst h1
      exact ih _ _ h.2 pre' track post h2

theorem CellsCollide_full (x : Cell) (h : CellsCollide x x) : CellsCollide ⟨1, 1, 1, 1⟩ x := by
  unfold CellsCollide at h ⊢
  simp only [true_and]
  tauto

theorem reserved_full (c : Coord) (hc : c = ⟨0, 3, 0⟩ ∨ c = ⟨0, 3, 1⟩) :
    OutOfBounds c = false ∧ ReadSpace initialSpace c = ⟨1, 1, 1, 1⟩ := by
  rcases hc with rfl | rfl
  · exact ⟨by decide, by rw [ReadSpace_initialSpace _ (by decide)]; simp⟩
  · exact ⟨by decide, by rw [ReadSpace_initialSpace _ (by decide)]; simp⟩

/-- C31: in every frame of every reachable stack the reserved cells `(0,3,0)` and `(0,3,1)`
read `{1,1,1,1}`, and no piece of the sequence of the frame has a footprint cell on either
coordinate: every footprint cell of the catalogue has at least one quadrant set, so
`ResolveCells` of a full cell with it reports a collision. -/
theorem reserved_cells_kept (stack : List GeneratorInfo) (h : ReachableStack stack)
    (f : GeneratorInfo) (hf : f ∈ stack) (c : Coord) (hc : c = ⟨0, 3, 0⟩ ∨ c = ⟨0, 3, 1⟩) :
    ReadSpace f.space c = ⟨1, 1, 1, 1⟩ ∧
    footprintsAt c ⟨0, 4, 0⟩ kEast f.tracks = [] ∧
    (∀ (pre : List TrackDesignTrackElement) (track : TrackDesignTrackElement)
      (post : List TrackDesignTrackElement), f.tracks = pre ++ track :: post →
      ∀ tc ∈ (trackDataRotAt track.type (poseAfter ⟨0, 4, 0⟩ kEast pre).2).shape,
        AddCoords (poseAfter ⟨0, 4, 0⟩ kEast pre).1 tc.coord ≠ c) ∧
    (∀ (t : track_type_t) (d : DirectionType), ∀ tc ∈ (trackDataRotAt t d).shape,
      CellsCollide tc.cell tc.cell ∧ ResolveCells ⟨1, 1, 1, 1⟩ tc.cell = none) := by
  obtain ⟨hin, hfull⟩ := reserved_full c hc
  obtain ⟨hor, hpair, _⟩ := (ReachableStack_frameInv stack h f hf).2 c hin
  rw [hfull] at hor hpair
  have hnil : footprintsAt c ⟨0, 4, 0⟩ kEast f.tracks = [] := by
    cases hfp : footprintsAt c ⟨0, 4, 0⟩ kEast f.tracks with
    | nil => rfl
    | cons x rest =>
      exfalso
      rw [hfp] at hpair
      have hx : x ∈ footprintsAt c ⟨0, 4, 0⟩ kEast f.tracks := by
        rw [hfp]
        exact List.mem_cons_self _ _
      exact (List.pairwise_cons.mp hpair).1 x (List.mem_cons_self _ _)
        (CellsCollide_full x (footprintsAt_set c f.tracks _ _ x hx))
  refine ⟨?_, hnil, footprintsAt_eq_nil c f.tracks _ _ hnil, ?_⟩
  · rw [hor, hnil]
    simp [orCells, cellOr_zero_left]
  · intro t d tc htc
    have hset := trackDataRotAt_noEmptyCell t d tc htc
    exact ⟨hset, (ResolveCells_eq_none_iff _ _).mpr (CellsCollide_full _ hset)⟩

theorem reserved_cells_kept_witness :
    ReachableStack prologueStack ∧ prologueFrame7 ∈ prologueStack ∧
    ((⟨0, 3, 1⟩ : Coord) = ⟨0, 3, 0⟩ ∨ (⟨0, 3, 1⟩ : Coord) = ⟨0, 3, 1⟩) ∧
    (ReadSpace prologueFrame7.space ⟨0, 3, 1⟩ = ⟨1, 1, 1, 1⟩ ∧
    footprintsAt ⟨0, 3, 1⟩ ⟨0, 4, 0⟩ kEast prologueFrame7.tracks = [] ∧
    (∀ (pre : List TrackDesignTrackElement) (track : TrackDesignTrackElement)
      (post : List TrackDesignTrackElement), prologueFrame7.tracks = pre ++ track :: post →
      ∀ tc ∈ (trackDataRotAt track.type (poseAfter ⟨0, 4, 0⟩ kEast pre).2).shape,
        AddCoords (poseAfter ⟨0, 4, 0⟩ kEast pre).1 tc.coord ≠ ⟨0, 3, 1⟩) ∧
    (∀ (t : track_type_t) (d : DirectionType), ∀ tc ∈ (trackDataRotAt t d).shape,
      CellsCollide tc.cell tc.cell ∧ ResolveCells ⟨1, 1, 1, 1⟩ tc.cell = none)) :=
  ⟨ReachableStack_prologueStack, by simp [prologueStack], Or.inr rfl,
    reserved_cells_kept prologueStack ReachableStack_prologueStack prologueFrame7
      (by simp [prologueStack]) ⟨0, 3, 1⟩ (Or.inr rfl)⟩

/-! ### Termination of an attempt -/

theorem map_tracks_storeFailedTracks (stack : List GeneratorInfo)
    (failedTracks : List track_type_t) :
    ∀ i : Nat, (storeFailedTracks stack i failedTracks).map (fun f => f.tracks) =
      stack.map (fun f => f.tracks) := by
  induction stack with
  | nil =>
    intro i
    rfl
  | cons info rest ih =>
    intro i
    cases i with
    | zero => rfl
    | succ i =>
      simp only [storeFailedTracks, List.map_cons, ih i]

theorem getLast?_storeFailedTracks (stack : List GeneratorInfo) (failedTracks : List track_type_t)
    (i : Nat) (top' : GeneratorInfo)
    (h : (storeFailedTracks stack i failedTracks).getLast? = some top') :
    ∃ top, stack.getLast? = some top ∧ top.tracks = top'.tracks := by
  have hm : ((storeFailedTracks stack i failedTracks).map (fun f => f.tracks)).getLast? =
      some top'.tracks := by
    rw [List.getLast?_map, h]
    rfl
  rw [map_tracks_storeFailedTracks, List.getLast?_map] at hm
  cases hl : stack.getLast? with
  | none =>
    rw [hl] at hm
    exact Option.noConfusion hm
  | some top =>
    rw [hl] at hm
    exact ⟨top, rfl, Option.some.inj hm⟩

theorem storeFailedTracks_ne_nil (stack : List GeneratorInfo) (failedTracks : List track_type_t)
    (i : Nat) (h : stack ≠ []) : storeFailedTracks stack i failedTracks ≠ [] := by
  intro he
  have hm := map_tracks_storeFailedTracks stack failedTracks i
  rw [he] at hm
  cases stack with
  | nil => exact h rfl
  | cons a rest => simp at hm

theorem Backtrack_ne_nil (stack stack' : List GeneratorInfo)
    (lastTrack : TrackDesignTrackElement) (h : Backtrack stack lastTrack = some stack') :
    stack' ≠ [] := by
  unfold Backtrack at h
  simp only at h
  split at h
  · exact Option.noConfusion h
  · rw [← Option.some.inj h]
    simp

theorem SearchReachable_ne_nil (stack : List GeneratorInfo) (h : SearchReachable stack) :
    stack ≠ [] := by
  induction h with
  | prologue stack hp =>
    rw [AddInitialTracks_prologue] at hp
    rw [← (Prod.mk.inj (Option.some.inj hp)).2]
    simp [prologueStack]
  | chosen rand stack lastInfo lastTrack npt k stack' ft' k' _ _ _ _ _ hch _ =>
    apply storeFailedTracks_ne_nil
    obtain ⟨t, _, hadd⟩ := ChooseTrack_true rand stack _ npt k stack' ft' k' hch
    obtain ⟨_, _, _, _, _, hst⟩ := AddTrackToStack_eq_true stack stack' ⟨t, 4⟩ hadd
    rw [hst]
    simp
  | backtracked rand stack lastInfo lastTrack npt k stack' ft' k' stack'' _ _ _ _ _ _ hb _ =>
    exact Backtrack_ne_nil _ _ _ hb

/-- The top frame after a successful `ChooseTrack` holds one piece more than the top frame
before. -/
theorem ChooseTrack_true_top (rand : Nat → Nat) (stack : List GeneratorInfo)
    (lastInfo : GeneratorInfo) (failedTracks nextPossibleTracks : List track_type_t) (k : Nat)
    (stack' : List GeneratorInfo) (failedTracks' : List track_type_t) (k' i : Nat)
    (hlast : stack.getLast? = some lastInfo)
    (h : ChooseTrack rand stack failedTracks nextPossibleTracks k =
      some (true, stack', failedTracks', k'))
    (top' : GeneratorInfo)
    (htop : (storeFailedTracks stack' i failedTracks').getLast? = some top') :
    top'.tracks.length = lastInfo.tracks.length + 1 := by
  obtain ⟨t, _, hadd⟩ := ChooseTrack_true rand stack _ _ k stack' failedTracks' k' h
  obtain ⟨lastInfo', hlast', _, _, _, hst⟩ := AddTrackToStack_eq_true stack stack' ⟨t, 4⟩ hadd
  have hl : lastInfo' = lastInfo := Option.some.inj (hlast'.symm.trans hlast)
  subst hl
  obtain ⟨top, htop1, htr⟩ := getLast?_storeFailedTracks stack' failedTracks' i top' htop
  rw [hst, getLast?_append_singleton] at htop1
  rw [← htr, ← Option.some.inj htop1]
  simp

/-- The inner loop ends within the iteration budget whenever the budget exceeds the measure
`(kTryPerAttempt + 1 - steps) * 222 + (221 - length of the top sequence)`: a push lowers the
second summand by one, a backtrack step lowers the first by 222. -/
theorem SearchLoop_within (rand : Nat → Nat) (fuel : Nat) :
    ∀ (stack : List GeneratorInfo) (steps k : Nat), SearchReachable stack →
      steps ≤ kTryPerAttempt →
      (∀ top, stack.getLast? = some top →
        (kTryPerAttempt + 1 - steps) * 222 + (221 - top.tracks.length) < fuel) →
      SearchLoop rand fuel stack steps k ≠ SearchResult.outOfFuel := by
  have hk : kTryPerAttempt = 64000 := rfl
  induction fuel with
  | zero =>
    intro stack steps k hr _ hm
    exfalso
    obtain ⟨top, htop⟩ := getLast?_isSome_of_ne_nil stack (SearchReachable_ne_nil stack hr)
    exact Nat.not_lt_zero _ (hm top htop)
  | succ fuel ih =>
    intro stack steps k hr hle hm
    unfold SearchLoop
    split
    · exact fun h => SearchResult.noConfusion h
    · rename_i lastInfo hlast
      have hm0 := hm lastInfo hlast
      split
      · exact fun h => SearchResult.noConfusion h
      · rename_i hcheck
        split
        · exact fun h => SearchResult.noConfusion h
        · rename_i lastTrack hlt
          split
          · exact fun h => SearchResult.noConfusion h
          · rename_i npt hnpt
            split
            · exact fun h => SearchResult.noConfusion h
            · rename_i st1 ft1 k1 hch
              have hr1 := SearchReachable.chosen rand stack lastInfo lastTrack npt k st1 ft1 k1
                hr hlast hcheck hlt hnpt hch
              apply ih _ _ _ hr1 hle
              intro top' htop'
              have hlen := ChooseTrack_true_top rand stack lastInfo _ npt k st1 ft1 k1 _ hlast
                hch top' htop'
              have hbound := ReachableStack_length_le _ (SearchReachable_reachable _ hr1) top'
                (List.mem_of_getLast?_eq_some htop')
              rw [hk] at hm0 ⊢
              omega
            · rename_i st1 ft1 k1 hch
              split
              · exact fun h => SearchResult.noConfusion h
              · rename_i st2 hb
                split
                · exact fun h => SearchResult.noConfusion h
                · rename_i hgt
                  have hr2 := SearchReachable.backtracked rand stack lastInfo lastTrack npt k
                    st1 ft1 k1 st2 hr hlast hcheck hlt hnpt hch hb
                  have hle' : steps + 1 ≤ kTryPerAttempt := Nat.le_of_not_gt hgt
                  apply ih _ _ _ hr2 hle'
                  intro top' _
                  rw [hk] at hm0 hle' ⊢
                  omega

theorem AttemptWith_ne_outOfFuel (toAdd : List TrackDesignTrackElement)
    (stack : List GeneratorInfo)
    (hpro : AddInitialTracks toAdd [initialInfo] = some (true, stack)) (rand : Nat → Nat)
    (fuel k : Nat) (h : SearchLoop rand fuel stack 0 k ≠ SearchResult.outOfFuel) :
    AttemptWith toAdd rand fuel k ≠ AttemptResult.outOfFuel := by
  unfold AttemptWith
  rw [hpro]
  simp only
  split
  · exact fun he => AttemptResult.noConfusion he
  · rename_i hs
    exact absurd hs h
  · split
    · exact fun he => AttemptResult.noConfusion he
    · split
      · exact fun he => AttemptResult.noConfusion he
      · exact fun he => AttemptResult.noConfusion he

/-- Once the inner loop ends within a budget, a larger budget gives the same result. -/
theorem SearchLoop_fuel_succ (rand : Nat → Nat) (fuel : Nat) :
    ∀ (stack : List GeneratorInfo) (steps k : Nat),
      SearchLoop rand fuel stack steps k ≠ SearchResult.outOfFuel →
      SearchLoop rand (fuel + 1) stack steps k = SearchLoop rand fuel stack steps k := by
  induction fuel with
  | zero =>
    intro stack steps k h
    exact absurd rfl h
  | succ fuel ih =>
    intro stack steps k h
    rw [SearchLoop] at h ⊢
    conv_rhs => rw [SearchLoop]
    split at h
    · rfl
    · split at h
      · rfl
      · split at h
        · rfl
        · split at h
          · rfl
          · split at h
            · rfl
            · exact ih _ _ _ h
            · split at h
              · rfl
              · split at h
                · rename_i hgt
                  rw [if_pos hgt, if_pos hgt]
                · rename_i hgt
                  rw [if_neg hgt, if_neg hgt]
                  exact ih _ _ _ h

theorem SearchLoop_fuel_le (rand : Nat → Nat) (fuel : Nat) (stack : List GeneratorInfo)
    (steps k : Nat) (h : SearchLoop rand fuel stack steps k ≠ SearchResult.outOfFuel) :
    ∀ more : Nat, SearchLoop rand (fuel + more) stack steps k =
      SearchLoop rand fuel stack steps k := by
  intro more
  induction more with
  | zero => rfl
  | succ more ih =>
    rw [← Nat.add_assoc,
      SearchLoop_fuel_succ rand (fuel + more) stack steps k (by rw [ih]; exact h), ih]

/-- C32: every attempt terminates, whatever the random values.  With an iteration budget of at
least `searchFuel = (kTryPerAttempt + 2) * 222` the inner loop of `Generate` ends (by one of its
`break`s, or by running into undefined behaviour), from the stack that the prologue leaves and
from every stack of the search with at most `kTryPerAttempt` backtrack steps made, and its
result is the same for every such budget; so the attempt ends.  Every call of `ChooseTrack` on
a non-empty stack returns: its loop ends within one iteration more than the number of remaining
candidates. -/
theorem attempt_terminates (rand : Nat → Nat) (k fuel : Nat) (hfuel : searchFuel ≤ fuel) :
    AddInitialTracks tracksToAdd [initialInfo] = some (true, prologueStack) ∧
    SearchLoop rand fuel prologueStack 0 k ≠ SearchResult.outOfFuel ∧
    SearchLoop rand fuel prologueStack 0 k = SearchLoop rand searchFuel prologueStack 0 k ∧
    Attempt rand fuel k ≠ AttemptResult.outOfFuel ∧
    (∀ (stack : List GeneratorInfo) (steps k0 : Nat), SearchReachable stack →
      steps ≤ kTryPerAttempt → SearchLoop rand fuel stack steps k0 ≠ SearchResult.outOfFuel) ∧
    (∀ (stack : List GeneratorInfo) (failedTracks nextPossibleTracks : List track_type_t)
      (k0 : Nat), stack ≠ [] → ∃ b stack' failedTracks' k',
        ChooseTrack rand stack failedTracks nextPossibleTracks k0 =
          some (b, stack', failedTracks', k')) ∧
    (∀ (n : Nat) (stack : List GeneratorInfo) (failedTracks l : List track_type_t) (k0 : Nat),
      stack ≠ [] → l.length < n → ∃ b stack' failedTracks' k',
        ChooseTrackLoop rand n stack failedTracks l k0 =
          some (b, stack', failedTracks', k')) := by
  have hgen : ∀ (n : Nat), searchFuel ≤ n → ∀ (stack : List GeneratorInfo) (steps k0 : Nat),
      SearchReachable stack → steps ≤ kTryPerAttempt →
      SearchLoop rand n stack steps k0 ≠ SearchResult.outOfFuel := by
    intro n hn stack steps k0 hr hle
    apply SearchLoop_within rand n stack steps k0 hr hle
    intro top _
    have hs : searchFuel = 64002 * 222 := rfl
    have hk : kTryPerAttempt = 64000 := rfl
    rw [hs] at hn
    rw [hk] at hle ⊢
    omega
  have hreach := SearchReachable.prologue _ AddInitialTracks_prologue
  have hpro := hgen fuel hfuel prologueStack 0 k hreach (Nat.zero_le _)
  have hsame : SearchLoop rand fuel prologueStack 0 k =
      SearchLoop rand searchFuel prologueStack 0 k := by
    obtain ⟨more, hmore⟩ := Nat.exists_eq_add_of_le hfuel
    rw [hmore]
    exact SearchLoop_fuel_le rand searchFuel prologueStack 0 k
      (hgen searchFuel (Nat.le_refl _) prologueStack 0 k hreach (Nat.zero_le _)) more
  refine ⟨AddInitialTracks_prologue, hpro, hsame, ?_, hgen fuel hfuel, ?_, ?_⟩
  · rw [Attempt_eq_AttemptWith]
    exact AttemptWith_ne_outOfFuel tracksToAdd prologueStack AddInitialTracks_prologue rand fuel
      k hpro
  · intro stack failedTracks nextPossibleTracks k0 hne
    unfold ChooseTrack
    exact ChooseTrackLoop_returns rand _ stack failedTracks _ k0 hne (Nat.lt_succ_self _)
  · intro n stack failedTracks l k0 hne hlen
    exact ChooseTrackLoop_returns rand n stack failedTracks l k0 hne hlen

theorem attempt_terminates_witness :
    searchFuel ≤ searchFuel + 1 ∧
    (AddInitialTracks tracksToAdd [initialInfo] = some (true, prologueStack) ∧
    SearchLoop (fun _ => 0) (searchFuel + 1) prologueStack 0 0 ≠ SearchResult.outOfFuel ∧
    SearchLoop (fun _ => 0) (searchFuel + 1) prologueStack 0 0 =
      SearchLoop (fun _ => 0) searchFuel prologueStack 0 0 ∧
    Attempt (fun _ => 0) (searchFuel + 1) 0 ≠ AttemptResult.outOfFuel ∧
    (∀ (stack : List GeneratorInfo) (steps k0 : Nat), SearchReachable stack →
      steps ≤ kTryPerAttempt →
      SearchLoop (fun _ => 0) (searchFuel + 1) stack steps k0 ≠ SearchResult.outOfFuel) ∧
    (∀ (stack : List GeneratorInfo) (failedTracks nextPossibleTracks : List track_type_t)
      (k0 : Nat), stack ≠ [] → ∃ b stack' failedTracks' k',
        ChooseTrack (fun _ => 0) stack failedTracks nextPossibleTracks k0 =
          some (b, stack', failedTracks', k')) ∧
    (∀ (n : Nat) (stack : List GeneratorInfo) (failedTracks l : List track_type_t) (k0 : Nat),
      stack ≠ [] → l.length < n → ∃ b stack' failedTracks' k',
        ChooseTrackLoop (fun _ => 0) n stack failedTracks l k0 =
          some (b, stack', failedTracks', k'))) :=
  ⟨Nat.le_succ _, attempt_terminates (fun _ => 0) 0 (searchFuel + 1) (Nat.le_succ _)⟩

end Coaster
